import Mathlib

/-!
# SIRF `NiftyResample` and the STIR image interface: shallow embedding and verified properties

The first part of the embedding follows `src/Registration/cReg/NiftyResample.cpp`.  Stateful
member functions become functions from an engine state to a new engine state together with
an optional raised exception; the state after a `throw` is kept, as the C++ object
keeps whatever was mutated before the exception left the call.

Calls into collaborators are appended to a ghost call log (`Engine.calls`), so that
"how often" and "with which arguments" questions can be asked of the model.

Questions of identity ("is this the caller's image or a copy of it?") are asked of a second
embedding of the same member functions (namespace `heap`), in which images are objects in a
store and smart pointers are addresses.

The second part follows three functions of `cSTIR/ci_stir.cpp`: `cSTIR_getImageData`,
`cSTIR_setImageData` and `cSTIR_imagesDifference`.  An image is a finite index range with a
voxel value at every index; the loops over the index range are kept as loops.
-/

namespace sirf

/-! ## Plain data -/

/-- A C `float`, represented by its IEEE-754 single precision bit pattern.  The code
under study only copies such values around and writes the constants `0.f` and `1.f`. -/
abbrev float := Nat

/-- The constant `0.f` (all bits clear). -/
def float_zero : float := 0

/-- The constant `1.f` (bit pattern `0x3F800000`). -/
def float_one : float := 0x3F800000

/-- A 4x4 matrix of floats (`mat44` of the NIfTI library), row by row. -/
abbrev mat44 := List float

/-- One header extension of a NIfTI image (`nifti1_extension`). -/
structure nifti1_extension where
  esize : Int
  ecode : Int
  edata : List Nat
deriving DecidableEq, Repr

/-- The `nifti_image` struct of the NIfTI-1 I/O library (`nifti1_io.h`), field by field.
Character arrays and the data buffer are lists of bytes; `data = none` is a null
`data` pointer. -/
structure nifti_image where
  ndim : Int
  nx : Int
  ny : Int
  nz : Int
  nt : Int
  nu : Int
  nv : Int
  nw : Int
  dim : List Int
  nvox : Nat
  nbyper : Int
  datatype : Int
  dx : float
  dy : float
  dz : float
  dt : float
  du : float
  dv : float
  dw : float
  pixdim : List float
  scl_slope : float
  scl_inter : float
  cal_min : float
  cal_max : float
  qform_code : Int
  sform_code : Int
  freq_dim : Int
  phase_dim : Int
  slice_dim : Int
  slice_code : Int
  slice_start : Int
  slice_end : Int
  slice_duration : float
  quatern_b : float
  quatern_c : float
  quatern_d : float
  qoffset_x : float
  qoffset_y : float
  qoffset_z : float
  qfac : float
  qto_xyz : mat44
  qto_ijk : mat44
  sto_xyz : mat44
  sto_ijk : mat44
  toffset : float
  xyz_units : Int
  time_units : Int
  nifti_type : Int
  intent_code : Int
  intent_p1 : float
  intent_p2 : float
  intent_p3 : float
  intent_name : List Nat
  descrip : List Nat
  aux_file : List Nat
  fname : Option (List Nat)
  iname : Option (List Nat)
  iname_offset : Int
  swapsize : Int
  byteorder : Int
  data : Option (List Nat)
  num_ext : Int
  ext_list : List nifti1_extension
  analyze75_orient : Int

/-- An all-zero `nifti_image` (what `calloc(1, sizeof(nifti_image))` yields), used as
the starting point when concrete images are written down. -/
def nifti_image.blank : nifti_image :=
  { ndim := 0, nx := 0, ny := 0, nz := 0, nt := 0, nu := 0, nv := 0, nw := 0, dim := [],
    nvox := 0, nbyper := 0, datatype := 0,
    dx := 0, dy := 0, dz := 0, dt := 0, du := 0, dv := 0, dw := 0, pixdim := [],
    scl_slope := 0, scl_inter := 0, cal_min := 0, cal_max := 0,
    qform_code := 0, sform_code := 0, freq_dim := 0, phase_dim := 0, slice_dim := 0,
    slice_code := 0, slice_start := 0, slice_end := 0, slice_duration := 0,
    quatern_b := 0, quatern_c := 0, quatern_d := 0,
    qoffset_x := 0, qoffset_y := 0, qoffset_z := 0, qfac := 0,
    qto_xyz := [], qto_ijk := [], sto_xyz := [], sto_ijk := [],
    toffset := 0, xyz_units := 0, time_units := 0, nifti_type := 0,
    intent_code := 0, intent_p1 := 0, intent_p2 := 0, intent_p3 := 0,
    intent_name := [], descrip := [], aux_file := [],
    fname := none, iname := none, iname_offset := 0, swapsize := 0, byteorder := 0,
    data := none, num_ext := 0, ext_list := [], analyze75_orient := 0 }

/-! ## C library routines used by `set_up_output_image` -/

/-- The C string held in a character array: the bytes before the first NUL. -/
def c_str (s : List Nat) : List Nat := s.takeWhile (fun c => c != 0)

/-- The call `memset(p, 0, n)` on a character array: the first `n` bytes become zero. -/
def memset_zero (p : List Nat) (n : Nat) : List Nat := List.replicate n 0 ++ p.drop n

/-- The call `strcpy(dst, src)`.  Both arguments are the memory from the pointer onwards,
not only the array the pointer names: the characters of `src` up to and including its
terminating NUL overwrite the start of `dst`, so a string that does not end inside its
own array is read on into what follows it, and one longer than the array at `dst` is
written on into what follows that. -/
def strcpy (dst src : List Nat) : List Nat :=
  c_str src ++ 0 :: dst.drop ((c_str src).length + 1)

/-- The memory of a `nifti_image` from `intent_name` onwards: the three character arrays
`char intent_name[16]`, `char descrip[80]` and `char aux_file[24]` are declared one after
the other in `nifti1_io.h` and lie next to each other in the struct. -/
def nifti_image.text_memory (im : nifti_image) : List Nat :=
  im.intent_name ++ im.descrip ++ im.aux_file

/-- The struct after its memory from `intent_name` onwards was overwritten with `bs`: the
first 16 bytes are `intent_name`, the next 80 are `descrip`, the rest is `aux_file`.  (The
fields after `aux_file` are pointers; a write of more than 120 bytes would reach them and
is outside what the embedding tracks.) -/
def nifti_image.set_text_memory (im : nifti_image) (bs : List Nat) : nifti_image :=
  { im with intent_name := bs.take 16, descrip := (bs.drop 16).take 80, aux_file := bs.drop 96 }

/-- The call `calloc(nmemb, size)`, assumed to succeed: `nmemb * size` zero bytes. -/
def calloc (nmemb size : Nat) : List Nat := List.replicate (nmemb * size) 0

/-- The conversion `unsigned(i)` of a C `int` to a 32-bit `unsigned`. -/
def to_unsigned (i : Int) : Nat := (i % 2 ^ 32).toNat

/-- The NIfTI library routine `nifti_copy_nim_info`: a copy of the whole struct (file
names and extensions duplicated) whose `data` pointer is null. -/
def nifti_copy_nim_info (src : nifti_image) : nifti_image := { src with data := none }

/-! ## The canonical image class `NiftiImageData<float>` -/

/-- Modelled from the spec: the class `NiftiImageData<dataType>` (header
`sirf/Reg/NiftiImageData.h`, not part of the sources at hand) is the canonical image
container of §3, "a dense voxel grid with geometry metadata"; it owns one `nifti_image`
whose payload is read as `float` voxels. -/
structure NiftiImageData where
  _nifti_image : nifti_image

/-- The accessor `get_raw_nifti_sptr()`. -/
def NiftiImageData.get_raw_nifti_sptr (im : NiftiImageData) : nifti_image := im._nifti_image

/-- Modelled from the spec: `get_num_voxels()` of the absent class `NiftiImageData`, the
voxel count recorded in the image header. -/
def NiftiImageData.get_num_voxels (im : NiftiImageData) : Nat := im._nifti_image.nvox

/-- Modelled from the spec: `clone()` and the copy constructor of the absent class
`NiftiImageData` give an independent image with the same geometry and payload. -/
def NiftiImageData.clone (im : NiftiImageData) : NiftiImageData := im

/-- The four bytes of a `float` in memory (little endian). -/
def float_bytes (v : float) : List Nat :=
  [v % 256, v / 256 % 256, v / 65536 % 256, v / 16777216 % 256]

/-- The `float` stored in the first four bytes of a buffer (little endian); bytes that
are missing read as zero. -/
def float_of_bytes (bs : List Nat) : float :=
  bs.getD 0 0 + 256 * bs.getD 1 0 + 65536 * bs.getD 2 0 + 16777216 * bs.getD 3 0

/-- A buffer of `n` voxels that all hold the bytes `bs`. -/
def fill_bytes : Nat → List Nat → List Nat
  | 0, _ => []
  | n + 1, bs => bs ++ fill_bytes n bs

/-- Modelled from the spec: `fill(v)` of the absent class `NiftiImageData` ("payload is
mutable in place", geometry untouched) writes `v` into every one of the `nvox` voxels. -/
def NiftiImageData.fill (im : NiftiImageData) (v : float) : NiftiImageData :=
  { _nifti_image :=
      { im._nifti_image with data := some (fill_bytes im._nifti_image.nvox (float_bytes v)) } }

/-- Voxel `i` of a raw image whose payload is an array of `float`: the four bytes at
offset `4 * i`.  There is no such voxel (`none`) when the `data` pointer is null or the
buffer ends before byte `4 * i + 4`. -/
def nifti_image.voxel (im : nifti_image) (i : Nat) : Option float :=
  match im.data with
  | none => none
  | some d =>
    if 4 * i + 4 ≤ d.length then some (float_of_bytes ((d.drop (4 * i)).take 4)) else none

/-! ## `NiftyResample::set_up_output_image`, the header part -/

/-- Lines 169-191 of `NiftyResample.cpp`: the raw output image built from the canonical
reference image `ref` and the canonical floating image `flo`. -/
def set_up_output_image_ptr (ref flo : NiftiImageData) : nifti_image :=
  let ref_ptr := ref.get_raw_nifti_sptr
  let flo_ptr := flo.get_raw_nifti_sptr
  -- Start creating new output as the header from the reference image
  let output_ptr := nifti_copy_nim_info ref_ptr
  -- Put in the required info from the floating image
  let output_ptr := { output_ptr with cal_min := flo_ptr.cal_min }
  let output_ptr := { output_ptr with cal_max := flo_ptr.cal_max }
  let output_ptr := { output_ptr with scl_slope := flo_ptr.scl_slope }
  let output_ptr := { output_ptr with scl_inter := flo_ptr.scl_inter }
  let output_ptr := { output_ptr with datatype := flo_ptr.datatype }
  let output_ptr := { output_ptr with intent_code := flo_ptr.intent_code }
  let output_ptr := { output_ptr with intent_p1 := flo_ptr.intent_p1 }
  let output_ptr := { output_ptr with intent_p2 := flo_ptr.intent_p2 }
  let output_ptr := { output_ptr with datatype := flo_ptr.datatype }
  let output_ptr := { output_ptr with nbyper := flo_ptr.nbyper }
  let output_ptr := { output_ptr with intent_name := memset_zero output_ptr.intent_name 16 }
  let output_ptr := output_ptr.set_text_memory (strcpy output_ptr.text_memory flo_ptr.text_memory)
  let output_ptr := { output_ptr with nvox := ref.get_num_voxels }
  -- Allocate the data
  { output_ptr with data := some (calloc output_ptr.nvox (to_unsigned output_ptr.nbyper)) }

/-! ## The resampling context and the engine state -/

/-- The interpolation kinds of `Resample<dataType>` (the spec's kernels "nearest, linear,
cubic, windowed-sinc"). -/
inductive InterpolationType
  | NEARESTNEIGHBOUR
  | LINEAR
  | CUBICSPLINE
  | SINC
deriving DecidableEq, Repr

/-- The direction of the resampling. -/
inductive TransformationDirection
  | FORWARD
  | ADJOINT
deriving DecidableEq, Repr

/-- Modelled from the spec: the transformation classes are not part of the sources at
hand; §3 makes a transformation one of a closed set of variants, each able to produce a
dense deformation field on a target grid. -/
inductive Transformation
  | affine (tm : mat44)
  | deformation (field : NiftiImageData)
  | displacement (field : NiftiImageData)

/-- Modelled from the spec: a default-constructed `AffineTransformation<float>`, the
identity matrix ("if the list is empty, treat as a single identity transformation"). -/
def AffineTransformation : Transformation :=
  .affine [float_one, 0, 0, 0,  0, float_one, 0, 0,  0, 0, float_one, 0,  0, 0, 0, float_one]

/-- An image as supplied by the caller (`ImageData`): either already of the canonical
class `NiftiImageData<dataType>`, or of some other representation `O`. -/
inductive ImageData (O : Type)
  | nifti (im : NiftiImageData)
  | other (im : O)

/-- The configuration of a `NiftyMoMo::BSplineTransformation`: the arguments of its
constructor and what its setters were last called with. -/
structure BSplineTransformation where
  image : nifti_image
  num_levels : Nat
  control_point_grid_spacing : List float
  interpolation : Option InterpolationType
  parameters : Option (Option (List Nat) × Bool)
  padding_value : Option float
  dvf : Option nifti_image

/-- The constructor `BSplineTransformation(image, num_levels, spacing)`. -/
def BSplineTransformation.new (image : nifti_image) (num_levels : Nat) (spacing : List float) :
    BSplineTransformation :=
  { image := image, num_levels := num_levels, control_point_grid_spacing := spacing,
    interpolation := none, parameters := none, padding_value := none, dvf := none }

/-- The setter `set_interpolation`. -/
def BSplineTransformation.set_interpolation (t : BSplineTransformation) (i : InterpolationType) :
    BSplineTransformation :=
  { t with interpolation := some i }

/-- The setter `SetParameters(params, parametersAreDisplacements)`. -/
def BSplineTransformation.SetParameters (t : BSplineTransformation) (params : Option (List Nat))
    (are_displacements : Bool) : BSplineTransformation :=
  { t with parameters := some (params, are_displacements) }

/-- The setter `SetPaddingValue`. -/
def BSplineTransformation.SetPaddingValue (t : BSplineTransformation) (v : float) :
    BSplineTransformation :=
  { t with padding_value := some v }

/-- The setter `setDVF`. -/
def BSplineTransformation.setDVF (t : BSplineTransformation) (dvf : nifti_image) :
    BSplineTransformation :=
  { t with dvf := some dvf }

/-- What a call of `TransformImageAdjoint` leaves in its two output arguments. -/
structure AdjointOutput where
  warped : nifti_image
  warped_weights : nifti_image

/-- The collaborators whose code is outside the file under study.  They are taken as
they come: total functions of their arguments that write only their output arguments
(§4.3: "side effects: none beyond writing the output buffer"). -/
structure Externals (O : Type) where
  /-- The constructor `NiftiImageData(const ImageData&)`. -/
  NiftiImageData_from_ImageData : ImageData O → NiftiImageData
  /-- The member `ImageData::fill(const ImageData&)` of a non-canonical image. -/
  ImageData_fill : O → NiftiImageData → O
  /-- The static `NiftiImageData3DDeformation::compose_single_deformation(transformations, grid)`. -/
  compose_single_deformation : List Transformation → NiftiImageData → NiftiImageData
  /-- NiftyReg `reg_resampleImage(floating, warped, deformation, nullptr, interpolation,
  padding)`: the new content of `warped`. -/
  reg_resampleImage : nifti_image → nifti_image → nifti_image → InterpolationType → float →
    nifti_image
  /-- NiftyMoMo `TransformImageAdjoint(source, source_weights, warped, warped_weights)` on a
  configured transformer. -/
  TransformImageAdjoint : BSplineTransformation → nifti_image → nifti_image → nifti_image →
    nifti_image → AdjointOutput

/-- An entry of the ghost call log. -/
inductive Call (O : Type)
  /-- A canonical image was constructed from a supplied image. -/
  | construct_nifti (src : ImageData O)
  /-- The output buffer was allocated with `calloc(nmemb, size)`. -/
  | allocate_output (nmemb size : Nat)
  /-- The composer was run on a transformation list and a grid. -/
  | compose_single_deformation (transformations : List Transformation) (grid : NiftiImageData)
  /-- The forward resampling routine was run. -/
  | reg_resampleImage (floating warped deformation : nifti_image) (interpolation : InterpolationType)
      (padding : float)
  /-- The adjoint transform was run. -/
  | TransformImageAdjoint (transformer : BSplineTransformation)
      (source source_weights warped warped_weights : nifti_image)

/-- What can leave a member function as an exception.  The first two are the
`std::runtime_error`s of `check_parameters` and of `transformation_adjoint`.  The third
stands for the dereference of a null smart pointer, which is undefined behaviour in C++:
the embedding stops there, with the state as it was when the pointers were read. -/
inductive Exception
  | UninitializedContextError
  | UnsupportedInterpolationError
  | null_pointer
deriving DecidableEq, Repr

/-- The state of a `NiftyResample<float>` object: the members of the base class
`Resample<dataType>` (the resampling context, the three need-to-set-up flags, the
output), the members declared in `NiftyResample.h`, and the ghost call log.  A smart
pointer is an `Option`; `none` is the null pointer. -/
structure Engine (O : Type) where
  _reference_image_sptr : Option (ImageData O)
  _floating_image_sptr : Option (ImageData O)
  _transformations : List Transformation
  _interpolation_type : InterpolationType
  _padding_value : float
  _transformation_direction : TransformationDirection
  _need_to_set_up : Bool
  _need_to_set_up_forward : Bool
  _need_to_set_up_adjoint : Bool
  _output_image_sptr : Option (ImageData O)
  _reference_image_nifti_sptr : Option NiftiImageData
  _floating_image_nifti_sptr : Option NiftiImageData
  _output_image_nifti_sptr : Option NiftiImageData
  _deformation_sptr : Option NiftiImageData
  _adjoint_transformer_sptr : Option BSplineTransformation
  _adjoint_input_weights_sptr : Option NiftiImageData
  _adjoint_output_weights_sptr : Option NiftiImageData
  calls : List (Call O)

/-- A freshly constructed engine holding a given context: every need-to-set-up flag is
set, every derived pointer is null, nothing has been called. -/
def Engine.fresh {O : Type} (ref flo : Option (ImageData O)) (ts : List Transformation)
    (interp : InterpolationType) (pad : float) (dir : TransformationDirection) : Engine O :=
  { _reference_image_sptr := ref, _floating_image_sptr := flo, _transformations := ts,
    _interpolation_type := interp, _padding_value := pad, _transformation_direction := dir,
    _need_to_set_up := true, _need_to_set_up_forward := true, _need_to_set_up_adjoint := true,
    _output_image_sptr := none,
    _reference_image_nifti_sptr := none, _floating_image_nifti_sptr := none,
    _output_image_nifti_sptr := none, _deformation_sptr := none,
    _adjoint_transformer_sptr := none, _adjoint_input_weights_sptr := none,
    _adjoint_output_weights_sptr := none, calls := [] }

/-- The result of a member function: the state it leaves and the exception it raised,
if any. -/
abbrev Outcome (O : Type) := Engine O × Option Exception

/-- Sequencing of statements: the rest runs only if no exception was raised. -/
def Outcome.andThen {O : Type} (r : Outcome O) (k : Engine O → Outcome O) : Outcome O :=
  match r with
  | (e, none) => k e
  | (e, some x) => (e, some x)

/-- Modelled from the spec: `ImageData::clone()`, an independent copy. -/
def ImageData.clone {O : Type} (im : ImageData O) : ImageData O := im

/-- Modelled from the spec: `ImageData::fill(const ImageData&)` replaces the payload and
leaves the geometry alone ("geometry fields are immutable after construction; payload is
mutable in place"). -/
def ImageData.fill {O : Type} (X : Externals O) : ImageData O → NiftiImageData → ImageData O
  | .nifti im, src => .nifti { _nifti_image := { im._nifti_image with data := src._nifti_image.data } }
  | .other im, src => .other (X.ImageData_fill im src)

/-- The cast `std::dynamic_pointer_cast<const NiftiImageData<dataType> >`: succeeds only
on an image whose class is the canonical one, and yields that very image. -/
def dynamic_pointer_cast {O : Type} : Option (ImageData O) → Option NiftiImageData
  | some (.nifti im) => some im
  | _ => none

/-- Modelled from the spec: `Resample::check_parameters` is not part of the sources at
hand; by §4.5 and §7 it rejects a context "with no reference or floating image set". -/
def check_parameters {O : Type} (e : Engine O) : Option Exception :=
  match e._reference_image_sptr, e._floating_image_sptr with
  | some _, some _ => none
  | _, _ => some Exception.UninitializedContextError

/-! ## The member functions of `NiftyResample` -/

/-- The member `NiftyResample::set_up_input_images`. -/
def set_up_input_images {O : Type} (X : Externals O) (e : Engine O) : Outcome O :=
  let e := { e with _reference_image_nifti_sptr := dynamic_pointer_cast e._reference_image_sptr }
  let e := { e with _floating_image_nifti_sptr := dynamic_pointer_cast e._floating_image_sptr }
  let r : Outcome O :=
    match e._reference_image_nifti_sptr with
    | some _ => (e, none)
    | none =>
      match e._reference_image_sptr with
      | none => (e, some Exception.null_pointer)
      | some im =>
        ({ e with _reference_image_nifti_sptr := some (X.NiftiImageData_from_ImageData im),
                  calls := e.calls ++ [Call.construct_nifti im] }, none)
  r.andThen fun e =>
    match e._floating_image_nifti_sptr with
    | some _ => (e, none)
    | none =>
      match e._floating_image_sptr with
      | none => (e, some Exception.null_pointer)
      | some im =>
        ({ e with _floating_image_nifti_sptr := some (X.NiftiImageData_from_ImageData im),
                  calls := e.calls ++ [Call.construct_nifti im] }, none)

/-- The member `NiftyResample::set_up_output_image`. -/
def set_up_output_image {O : Type} (e : Engine O) : Outcome O :=
  match e._reference_image_nifti_sptr, e._floating_image_nifti_sptr with
  | some ref, some flo =>
    let output_ptr := set_up_output_image_ptr ref flo
    -- Create NiftiImageData from nifti_image
    ({ e with _output_image_nifti_sptr := some { _nifti_image := output_ptr },
              calls := e.calls ++ [Call.allocate_output output_ptr.nvox (to_unsigned output_ptr.nbyper)] },
     none)
  | _, _ => (e, some Exception.null_pointer)

/-- The member `NiftyResample::set_up`. -/
def set_up {O : Type} (X : Externals O) (e : Engine O) : Outcome O :=
  -- If set up has already been called, nothing to do.
  if !e._need_to_set_up then (e, none) else
  -- Check that all the required information has been entered
  match check_parameters e with
  | some x => (e, some x)
  | none =>
  -- Get reference and floating images as NiftiImageData
  (set_up_input_images X e).andThen fun e =>
  -- Setup output image
  (set_up_output_image e).andThen fun e =>
  -- If no transformations, use identity.
  let e := if e._transformations.length = 0
    then { e with _transformations := e._transformations ++ [AffineTransformation] }
    else e
  -- If forward, use the reference. If adjoint, use the floating
  let grid := if e._transformation_direction = TransformationDirection.FORWARD
    then e._reference_image_nifti_sptr
    else e._floating_image_nifti_sptr
  match grid with
  | none => (e, some Exception.null_pointer)
  | some grid =>
    let e := { e with
      _deformation_sptr := some (X.compose_single_deformation e._transformations grid),
      calls := e.calls ++ [Call.compose_single_deformation e._transformations grid] }
    ({ e with _need_to_set_up := false }, none)

/-- The member `NiftyResample::set_up_forward`. -/
def set_up_forward {O : Type} (X : Externals O) (e : Engine O) : Outcome O :=
  -- If set up has already been called, nothing to do.
  if !e._need_to_set_up_forward then (e, none) else
  -- Call base level
  (set_up X e).andThen fun e =>
  ({ e with _need_to_set_up_forward := false }, none)

/-- The member `NiftyResample::set_up_adjoint`. -/
def set_up_adjoint {O : Type} (X : Externals O) (e : Engine O) : Outcome O :=
  -- If set up has already been called, nothing to do.
  if !e._need_to_set_up_adjoint then (e, none) else
  -- Call base level
  (set_up X e).andThen fun e =>
  match e._deformation_sptr, e._floating_image_nifti_sptr, e._output_image_nifti_sptr with
  | some deformation, some floating, some output =>
    -- Get deformation spacing
    let control_point_grid_spacing : List float :=
      [deformation.get_raw_nifti_sptr.dx, deformation.get_raw_nifti_sptr.dy,
       deformation.get_raw_nifti_sptr.dz]
    -- Get the deformation field
    let def_ptr := deformation.get_raw_nifti_sptr
    -- Copy of floating image
    let flo := floating.clone
    let flo_ptr := flo.get_raw_nifti_sptr
    let t := BSplineTransformation.new flo_ptr 1 control_point_grid_spacing
    let t := t.set_interpolation e._interpolation_type
    let t := t.SetParameters def_ptr.data false
    let t := t.SetPaddingValue e._padding_value
    let t := t.setDVF def_ptr
    let e := { e with _adjoint_transformer_sptr := some t }
    -- Set up the input and output weights
    let e := { e with _adjoint_input_weights_sptr := some floating.clone }
    let e := { e with
      _adjoint_input_weights_sptr := e._adjoint_input_weights_sptr.map fun (w : NiftiImageData) => w.fill float_one }
    let e := { e with _adjoint_output_weights_sptr := some output.clone }
    ({ e with _need_to_set_up_adjoint := false }, none)
  | _, _, _ => (e, some Exception.null_pointer)

/-- The member `NiftyResample::transformation_forward`. -/
def transformation_forward {O : Type} (X : Externals O) (e : Engine O) : Outcome O :=
  -- Call the set up
  (set_up_forward X e).andThen fun e =>
  match e._floating_image_nifti_sptr, e._output_image_nifti_sptr, e._deformation_sptr with
  | some floating, some output, some deformation =>
    let flo := floating.clone
    let warped := X.reg_resampleImage flo.get_raw_nifti_sptr output.get_raw_nifti_sptr
      deformation.get_raw_nifti_sptr e._interpolation_type e._padding_value
    ({ e with
        _output_image_nifti_sptr := some { _nifti_image := warped },
        calls := e.calls ++ [Call.reg_resampleImage flo.get_raw_nifti_sptr output.get_raw_nifti_sptr
          deformation.get_raw_nifti_sptr e._interpolation_type e._padding_value] }, none)
  | _, _, _ => (e, some Exception.null_pointer)

/-- The member `NiftyResample::transformation_adjoint`. -/
def transformation_adjoint {O : Type} (X : Externals O) (e : Engine O) : Outcome O :=
  -- Call the set up
  (set_up_adjoint X e).andThen fun e =>
  match e._floating_image_nifti_sptr, e._output_image_nifti_sptr with
  | some floating, some output =>
    -- Copy of floating image
    let flo := floating.clone
    let flo_ptr := flo.get_raw_nifti_sptr
    -- set output to zero
    let output := output.fill float_zero
    let e := { e with _output_image_nifti_sptr := some output }
    -- SINC currently not supported in NiftyMoMo
    if e._interpolation_type = InterpolationType.SINC then (e, some Exception.UnsupportedInterpolationError) else
    match e._adjoint_transformer_sptr, e._adjoint_input_weights_sptr,
        e._adjoint_output_weights_sptr with
    | some transformer, some input_weights, some output_weights =>
      let r := X.TransformImageAdjoint transformer flo_ptr input_weights.get_raw_nifti_sptr
        output.get_raw_nifti_sptr output_weights.get_raw_nifti_sptr
      ({ e with
          _output_image_nifti_sptr := some { _nifti_image := r.warped },
          _adjoint_output_weights_sptr := some { _nifti_image := r.warped_weights },
          calls := e.calls ++ [Call.TransformImageAdjoint transformer flo_ptr
            input_weights.get_raw_nifti_sptr output.get_raw_nifti_sptr
            output_weights.get_raw_nifti_sptr] }, none)
    | _, _, _ => (e, some Exception.null_pointer)
  | _, _ => (e, some Exception.null_pointer)

/-- The member `NiftyResample::process`. -/
def process {O : Type} (X : Externals O) (e : Engine O) : Outcome O :=
  (set_up X e).andThen fun e =>
  -- If we're resampling with NiftyReg
  (if e._transformation_direction = TransformationDirection.FORWARD
    then transformation_forward X e
    else transformation_adjoint X e).andThen fun e =>
  -- The output should be a clone of the reference image, with data filled in from the nifti image
  match e._reference_image_sptr, e._output_image_nifti_sptr with
  | some reference, some output =>
    ({ e with _output_image_sptr := some ((reference.clone).fill X output) }, none)
  | _, _ => (e, some Exception.null_pointer)

/-- The outcome of `n` consecutive `process` calls on a context that is left alone between
them; once a call raises, the later ones are not made. -/
def process_n {O : Type} (X : Externals O) : Nat → Engine O → Outcome O
  | 0, e => (e, none)
  | n + 1, e => (process_n X n e).andThen (process X)

/-! ## Reading the call log -/

/-- The arguments of a composer call, if the log entry is one. -/
def Call.composed {O : Type} : Call O → Option (List Transformation × NiftiImageData)
  | .compose_single_deformation ts grid => some (ts, grid)
  | _ => none

/-- The composer calls of a log, in order, each with the list and the grid it was given. -/
def compositions {O : Type} (calls : List (Call O)) : List (List Transformation × NiftiImageData) :=
  calls.filterMap Call.composed

/-- The warped (output) argument of an adjoint transform call, if the log entry is one. -/
def Call.adjoint_output {O : Type} : Call O → Option nifti_image
  | .TransformImageAdjoint _ _ _ warped _ => some warped
  | _ => none

/-- The adjoint transform calls of a log, in order, each by the output image it was handed. -/
def adjoint_transforms {O : Type} (calls : List (Call O)) : List nifti_image :=
  calls.filterMap Call.adjoint_output

/-- The source image of a canonical-image construction, if the log entry is one. -/
def Call.constructed_from {O : Type} : Call O → Option (ImageData O)
  | .construct_nifti src => some src
  | _ => none

/-- The canonical images that were newly constructed, in order, each by the supplied image
it was built from. -/
def constructions {O : Type} (calls : List (Call O)) : List (ImageData O) :=
  calls.filterMap Call.constructed_from

/-- The floating-image argument of a call of the forward routine or of the adjoint
transform, if the log entry is one. -/
def Call.floating_argument {O : Type} : Call O → Option nifti_image
  | .reg_resampleImage floating _ _ _ _ => some floating
  | .TransformImageAdjoint _ source _ _ _ => some source
  | _ => none

/-- The floating images handed to the forward routine and the adjoint transform, in order. -/
def floating_arguments {O : Type} (calls : List (Call O)) : List nifti_image :=
  calls.filterMap Call.floating_argument

/-! ## Closed forms of the states the member functions leave -/

/-- The canonical view of a supplied image: the image itself when it is already of the
canonical class, a newly constructed canonical image otherwise. -/
def canonical {O : Type} (X : Externals O) : ImageData O → NiftiImageData
  | .nifti im => im
  | .other im => X.NiftiImageData_from_ImageData (.other im)

/-- The log entries that obtaining the canonical view of a supplied image leaves. -/
def conversion_calls {O : Type} : ImageData O → List (Call O)
  | .nifti _ => []
  | .other im => [Call.construct_nifti (.other im)]

/-- The transformation list as the composer receives it. -/
def effective_transformations (ts : List Transformation) : List Transformation :=
  if ts.length = 0 then ts ++ [AffineTransformation] else ts

/-- The grid on which the composer is run. -/
def composition_grid {O : Type} (X : Externals O) (dir : TransformationDirection)
    (ref flo : ImageData O) : NiftiImageData :=
  if dir = TransformationDirection.FORWARD then canonical X ref else canonical X flo

/-- The state in which a working `set_up` leaves the engine. -/
def after_set_up {O : Type} (X : Externals O) (e : Engine O) (ref flo : ImageData O) : Engine O :=
  { e with
    _reference_image_nifti_sptr := some (canonical X ref),
    _floating_image_nifti_sptr := some (canonical X flo),
    _output_image_nifti_sptr :=
      some { _nifti_image := set_up_output_image_ptr (canonical X ref) (canonical X flo) },
    _transformations := effective_transformations e._transformations,
    _deformation_sptr := some (X.compose_single_deformation
      (effective_transformations e._transformations)
      (composition_grid X e._transformation_direction ref flo)),
    calls := e.calls ++ conversion_calls ref ++ conversion_calls flo ++
      [Call.allocate_output (canonical X ref).get_num_voxels
        (to_unsigned (canonical X flo).get_raw_nifti_sptr.nbyper),
       Call.compose_single_deformation (effective_transformations e._transformations)
        (composition_grid X e._transformation_direction ref flo)],
    _need_to_set_up := false }

/-- The state in which `process` leaves a freshly configured engine in the forward
direction. -/
def after_first_forward {O : Type} (X : Externals O) (e : Engine O) (ref flo : ImageData O) :
    Engine O :=
  let s := after_set_up X e ref flo
  let out_ptr := set_up_output_image_ptr (canonical X ref) (canonical X flo)
  let deformation := X.compose_single_deformation (effective_transformations e._transformations)
    (composition_grid X e._transformation_direction ref flo)
  let warped := X.reg_resampleImage (canonical X flo)._nifti_image out_ptr
    deformation._nifti_image e._interpolation_type e._padding_value
  { s with
    _need_to_set_up_forward := false,
    _output_image_nifti_sptr := some { _nifti_image := warped },
    _output_image_sptr := some (ImageData.fill X ref { _nifti_image := warped }),
    calls := s.calls ++ [Call.reg_resampleImage (canonical X flo)._nifti_image out_ptr
      deformation._nifti_image e._interpolation_type e._padding_value] }

/-- The state in which `process` leaves an engine that is already set up for the forward
direction: only the resampling itself is run. -/
def after_ready_forward {O : Type} (X : Externals O) (e : Engine O) (ref : ImageData O)
    (floating output deformation : NiftiImageData) : Engine O :=
  let warped := X.reg_resampleImage floating._nifti_image output._nifti_image
    deformation._nifti_image e._interpolation_type e._padding_value
  { e with
    _output_image_nifti_sptr := some { _nifti_image := warped },
    _output_image_sptr := some (ImageData.fill X ref { _nifti_image := warped }),
    calls := e.calls ++ [Call.reg_resampleImage floating._nifti_image output._nifti_image
      deformation._nifti_image e._interpolation_type e._padding_value] }

/-- The transformer that `set_up_adjoint` builds from the context, the composed deformation
field and the canonical floating image. -/
def adjoint_transformer {O : Type} (e : Engine O) (deformation floating : NiftiImageData) :
    BSplineTransformation :=
  ((((BSplineTransformation.new floating._nifti_image 1
      [deformation._nifti_image.dx, deformation._nifti_image.dy, deformation._nifti_image.dz]
    ).set_interpolation e._interpolation_type
    ).SetParameters deformation._nifti_image.data false
    ).SetPaddingValue e._padding_value
    ).setDVF deformation._nifti_image

/-- The state in which a working `set_up_adjoint` leaves an engine whose base set-up is done. -/
def after_set_up_adjoint {O : Type} (e : Engine O) (deformation floating output : NiftiImageData) :
    Engine O :=
  { e with
    _adjoint_transformer_sptr := some (adjoint_transformer e deformation floating),
    _adjoint_input_weights_sptr := some (floating.fill float_one),
    _adjoint_output_weights_sptr := some output,
    _need_to_set_up_adjoint := false }

/-- The state in which `transformation_adjoint` leaves an engine that is set up for the
adjoint, when the interpolation is supported. -/
def after_adjoint {O : Type} (X : Externals O) (e : Engine O) (floating output : NiftiImageData)
    (transformer : BSplineTransformation) (input_weights output_weights : NiftiImageData) :
    Engine O :=
  { e with
    _output_image_nifti_sptr := some { _nifti_image :=
      (X.TransformImageAdjoint transformer floating._nifti_image input_weights._nifti_image
        (output.fill float_zero)._nifti_image output_weights._nifti_image).warped },
    _adjoint_output_weights_sptr := some { _nifti_image :=
      (X.TransformImageAdjoint transformer floating._nifti_image input_weights._nifti_image
        (output.fill float_zero)._nifti_image output_weights._nifti_image).warped_weights },
    calls := e.calls ++ [Call.TransformImageAdjoint transformer floating._nifti_image
      input_weights._nifti_image (output.fill float_zero)._nifti_image
      output_weights._nifti_image] }

/-! ## The cache invariant and other predicates -/

/-- The cache invariant: a cleared need-to-set-up flag vouches for the pointers that the
corresponding set-up function fills, and the forward and adjoint flags are cleared only
after the base flag. -/
def Engine.consistent {O : Type} (e : Engine O) : Prop :=
  (e._need_to_set_up = false →
    e._reference_image_nifti_sptr.isSome = true ∧ e._floating_image_nifti_sptr.isSome = true ∧
    e._output_image_nifti_sptr.isSome = true ∧ e._deformation_sptr.isSome = true) ∧
  (e._need_to_set_up_forward = false → e._need_to_set_up = false) ∧
  (e._need_to_set_up_adjoint = false →
    e._need_to_set_up = false ∧ e._adjoint_transformer_sptr.isSome = true ∧
    e._adjoint_input_weights_sptr.isSome = true ∧ e._adjoint_output_weights_sptr.isSome = true)

instance {O : Type} (e : Engine O) : Decidable e.consistent := by
  unfold Engine.consistent
  infer_instance

/-- The state `t` is set up for the adjoint, with the images, the transformer and the weight
images named, and differs from `e` by set-up work only: same context (the transformation
list apart), same forward flag, same published output, no adjoint transform run. -/
structure AdjointPrepared {O : Type} (e t : Engine O) (floating output : NiftiImageData)
    (transformer : BSplineTransformation) (input_weights output_weights : NiftiImageData) :
    Prop where
  need_to_set_up : t._need_to_set_up = false
  need_to_set_up_adjoint : t._need_to_set_up_adjoint = false
  floating_nifti : t._floating_image_nifti_sptr = some floating
  output_nifti : t._output_image_nifti_sptr = some output
  adjoint_transformer : t._adjoint_transformer_sptr = some transformer
  adjoint_input_weights : t._adjoint_input_weights_sptr = some input_weights
  adjoint_output_weights : t._adjoint_output_weights_sptr = some output_weights
  interpolation_type : t._interpolation_type = e._interpolation_type
  padding_value : t._padding_value = e._padding_value
  transformation_direction : t._transformation_direction = e._transformation_direction
  reference_image : t._reference_image_sptr = e._reference_image_sptr
  floating_image : t._floating_image_sptr = e._floating_image_sptr
  need_to_set_up_forward : t._need_to_set_up_forward = e._need_to_set_up_forward
  output_image : t._output_image_sptr = e._output_image_sptr
  no_adjoint_transform : adjoint_transforms t.calls = adjoint_transforms e.calls
  same_if_ready : e._need_to_set_up = false → e._need_to_set_up_adjoint = false → t = e
  composed_if_needed : e._need_to_set_up = true →
    (compositions t.calls).length = (compositions e.calls).length + 1
  not_composed_if_ready : e._need_to_set_up = false → compositions t.calls = compositions e.calls

/-- The raw NIfTI image behind a supplied image of the canonical class. -/
def ImageData.raw {O : Type} : ImageData O → Option nifti_image
  | .nifti im => some im._nifti_image
  | .other _ => none

/-- Every voxel of a raw `float` image is `0.f`, the buffer being `4 * nvox` zero bytes. -/
def nifti_image.all_zero (im : nifti_image) : Prop :=
  im.data = some (List.replicate (4 * im.nvox) 0) ∧
    ∀ i, i < im.nvox → im.voxel i = some float_zero

/-- The state `s` has the context of `e`: same supplied images, interpolation kind, padding
value and direction (the transformation list may have gained the identity). -/
def Engine.same_context {O : Type} (e s : Engine O) : Prop :=
  s._reference_image_sptr = e._reference_image_sptr ∧
  s._floating_image_sptr = e._floating_image_sptr ∧
  s._interpolation_type = e._interpolation_type ∧
  s._padding_value = e._padding_value ∧
  s._transformation_direction = e._transformation_direction

/-- No need-to-set-up flag that is cleared in `e` is set in `s`. -/
def Engine.flags_monotone {O : Type} (e s : Engine O) : Prop :=
  (e._need_to_set_up = false → s._need_to_set_up = false) ∧
  (e._need_to_set_up_forward = false → s._need_to_set_up_forward = false) ∧
  (e._need_to_set_up_adjoint = false → s._need_to_set_up_adjoint = false)

/-- What one `process` call with outcome `r` does to a consistent engine `e` whose context
holds the reference image `ref` and the floating image `flo`. -/
structure ProcessStep {O : Type} (X : Externals O) (e : Engine O) (ref flo : ImageData O)
    (r : Outcome O) : Prop where
  consistent : r.1.consistent
  context : e.same_context r.1
  monotone : e.flags_monotone r.1
  base_cleared : r.1._need_to_set_up = false
  deformation_present : r.1._deformation_sptr.isSome = true
  forward_flags : e._transformation_direction = TransformationDirection.FORWARD →
    r.1._need_to_set_up_forward = false ∧ r.1._need_to_set_up_adjoint = e._need_to_set_up_adjoint
  adjoint_flags : e._transformation_direction = TransformationDirection.ADJOINT →
    r.1._need_to_set_up_adjoint = false ∧ r.1._need_to_set_up_forward = e._need_to_set_up_forward
  completes : e._transformation_direction = TransformationDirection.FORWARD ∨
    e._interpolation_type ≠ InterpolationType.SINC → r.2 = none
  views_fresh : e._need_to_set_up = true →
    r.1._reference_image_nifti_sptr = some (canonical X ref) ∧
    r.1._floating_image_nifti_sptr = some (canonical X flo)
  views_kept : e._need_to_set_up = false →
    r.1._reference_image_nifti_sptr = e._reference_image_nifti_sptr ∧
    r.1._floating_image_nifti_sptr = e._floating_image_nifti_sptr
  output : r.2 = none → ∃ out, r.1._output_image_nifti_sptr = some out ∧
    r.1._output_image_sptr = some (ImageData.fill X ref.clone out)
  floating_copy : ∃ floating, r.1._floating_image_nifti_sptr = some floating ∧
    floating_arguments r.1.calls = floating_arguments e.calls ++
      (if r.2.isNone then [floating.clone.get_raw_nifti_sptr] else [])

/-! ## Concrete data for worked instances -/

/-- A three-dimensional `float` image of `nx * ny * nz` voxels with unit spacing, every
voxel holding the bytes `b b b b`. -/
def example_image (nx ny nz b : Nat) : NiftiImageData :=
  { _nifti_image :=
      { nifti_image.blank with
        ndim := 3, nx := nx, ny := ny, nz := nz, nt := 1, nu := 1, nv := 1, nw := 1,
        dim := [3, nx, ny, nz, 1, 1, 1, 1], nvox := nx * ny * nz, nbyper := 4, datatype := 16,
        dx := float_one, dy := float_one, dz := float_one,
        pixdim := [float_one, float_one, float_one, float_one, 0, 0, 0, 0],
        scl_slope := float_one,
        data := some (List.replicate (4 * (nx * ny * nz)) b) } }

/-- The image `example_image nx ny nz 0` with text in its header: an `intent_name` array
that holds the two letters `c c` and then, after the NUL, two stale bytes, a `descrip` array
of 80 bytes `d`, and an `aux_file` array of 24 zero bytes. -/
def example_named_image (nx ny nz c : Nat) : NiftiImageData :=
  { _nifti_image :=
      { (example_image nx ny nz 0)._nifti_image with
        intent_name := [c, c, 0, 33, 33] ++ List.replicate 11 0,
        descrip := List.replicate 80 100,
        aux_file := List.replicate 24 0 } }

/-- Stand-ins for the collaborators: the composer returns its grid, the forward routine
writes `0xFF` bytes into the warped image, the adjoint transform leaves its outputs as they
are, and a non-canonical image converts to a single-voxel canonical image. -/
def example_externals : Externals Unit :=
  { NiftiImageData_from_ImageData := fun _ => example_image 1 1 1 0,
    ImageData_fill := fun o _ => o,
    compose_single_deformation := fun _ grid => grid,
    reg_resampleImage := fun _ warped _ _ _ =>
      { warped with data := warped.data.map (fun d => List.replicate d.length 255) },
    TransformImageAdjoint := fun _ _ _ warped warped_weights =>
      { warped := warped, warped_weights := warped_weights } }

/-- A fresh engine: reference grid 2x1x1, floating grid 1x1x1 (both canonical), no
transformation, padding 0. -/
def example_engine (interp : InterpolationType) (dir : TransformationDirection) : Engine Unit :=
  Engine.fresh (some (.nifti (example_image 2 1 1 0))) (some (.nifti (example_image 1 1 1 7))) []
    interp 0 dir

namespace heap

/-- What `reg_resampleImage(nifti_image *floatingImage, nifti_image *warpedImage,
nifti_image *deformationFieldImage, ...)` leaves in the three images it is handed; none of
the three parameters is `const`. -/
structure ResampleEffect where
  floating : nifti_image
  warped : nifti_image
  deformation : nifti_image

/-- What `TransformImageAdjoint(nifti_image *sourceImage, nifti_image *sourceWeights,
nifti_image *warpedImage, nifti_image *warpedWeights)` leaves in the four images it is
handed. -/
structure AdjointEffect where
  source : nifti_image
  source_weights : nifti_image
  warped : nifti_image
  warped_weights : nifti_image

/-- The collaborators whose code is outside the file under study, with what they do to the
objects they can reach.  A parameter that is a `const` reference is only read; an image
behind a non-`const` pointer gets a new content that may depend on everything the routine
was given.  A collaborator reaches the images behind the pointers of the call and no others;
the setters of the transformer only record what they are given. -/
structure Externals (O : Type) where
  /-- The constructor `NiftiImageData(const ImageData&)`. -/
  NiftiImageData_from_ImageData : ImageData O → NiftiImageData
  /-- The member `ImageData::fill(const ImageData&)` of a non-canonical image: its new
  content. -/
  ImageData_fill : O → NiftiImageData → O
  /-- The static `NiftiImageData3DDeformation::compose_single_deformation(transformations,
  grid)`; both parameters are `const`. -/
  compose_single_deformation : List Transformation → NiftiImageData → NiftiImageData
  /-- The constructor `BSplineTransformation(nifti_image *image, num_levels, spacing)`: what
  it leaves in the image it is handed. -/
  BSplineTransformation_image : nifti_image → Nat → List float → nifti_image
  /-- NiftyReg `reg_resampleImage(floating, warped, deformation, nullptr, interpolation,
  padding)`. -/
  reg_resampleImage : nifti_image → nifti_image → nifti_image → InterpolationType → float →
    ResampleEffect
  /-- NiftyMoMo `TransformImageAdjoint(source, source_weights, warped, warped_weights)` on a
  configured transformer. -/
  TransformImageAdjoint : BSplineTransformation → nifti_image → nifti_image → nifti_image →
    nifti_image → AdjointEffect

/-- The member `fill(const ImageData&)` of a supplied image (see `ImageData.fill`). -/
def Externals.fill {O : Type} (X : Externals O) : ImageData O → NiftiImageData → ImageData O
  | .nifti im, src => .nifti { _nifti_image := { im._nifti_image with data := src._nifti_image.data } }
  | .other im, src => .other (X.ImageData_fill im src)

/-- The state of a `NiftyResample<float>` object together with the image objects it can
reach.  The members are those of `sirf.Engine`; a smart pointer is the address of an object
in the store, or `none` when it is null.  `next` is the address the next new object is
given (addresses are never reused), and `floating_arguments` is a ghost log of the objects
that were handed to a collaborator as its non-`const` floating image, each with the content it
had when it was handed over. -/
structure Engine (O : Type) where
  store : Nat → Option (ImageData O)
  next : Nat
  _reference_image_sptr : Option Nat
  _floating_image_sptr : Option Nat
  _transformations : List Transformation
  _interpolation_type : InterpolationType
  _padding_value : float
  _transformation_direction : TransformationDirection
  _need_to_set_up : Bool
  _need_to_set_up_forward : Bool
  _need_to_set_up_adjoint : Bool
  _output_image_sptr : Option Nat
  _reference_image_nifti_sptr : Option Nat
  _floating_image_nifti_sptr : Option Nat
  _output_image_nifti_sptr : Option Nat
  _deformation_sptr : Option Nat
  _adjoint_transformer_sptr : Option BSplineTransformation
  _adjoint_input_weights_sptr : Option Nat
  _adjoint_output_weights_sptr : Option Nat
  floating_arguments : List (Nat × nifti_image)

/-- A new object with content `v` is made; its address is the old value of `next`. -/
def Engine.allocate {O : Type} (e : Engine O) (v : ImageData O) : Engine O :=
  { e with store := fun a => if a = e.next then some v else e.store a, next := e.next + 1 }

/-- The object at address `a` gets the content `v`. -/
def Engine.write {O : Type} (e : Engine O) (a : Nat) (v : ImageData O) : Engine O :=
  { e with store := fun b => if b = a then some v else e.store b }

/-- The object a smart pointer to `ImageData` points to, if it points to one. -/
def Engine.deref {O : Type} (e : Engine O) (p : Option Nat) : Option (ImageData O) :=
  match p with
  | none => none
  | some a => e.store a

/-- The object a smart pointer to `NiftiImageData<dataType>` points to, if it points to
one. -/
def Engine.deref_nifti {O : Type} (e : Engine O) (p : Option Nat) : Option NiftiImageData :=
  match e.deref p with
  | some (.nifti im) => some im
  | _ => none

/-- The result of a member function: the state it leaves and the exception it raised,
if any. -/
abbrev Outcome (O : Type) := Engine O × Option Exception

/-- Sequencing of statements: the rest runs only if no exception was raised. -/
def Outcome.andThen {O : Type} (r : Outcome O) (k : Engine O → Outcome O) : Outcome O :=
  match r with
  | (e, none) => k e
  | (e, some x) => (e, some x)

/-- The cast `std::dynamic_pointer_cast<const NiftiImageData<dataType> >`: succeeds only
on a pointer to an object of the canonical class, and yields a pointer to that very
object. -/
def dynamic_pointer_cast {O : Type} (e : Engine O) (p : Option Nat) : Option Nat :=
  match e.deref p with
  | some (.nifti _) => p
  | _ => none

/-- See `sirf.check_parameters`. -/
def check_parameters {O : Type} (e : Engine O) : Option Exception :=
  match e._reference_image_sptr, e._floating_image_sptr with
  | some _, some _ => none
  | _, _ => some Exception.UninitializedContextError

/-- The member `NiftyResample::set_up_input_images`. -/
def set_up_input_images {O : Type} (X : Externals O) (e : Engine O) : Outcome O :=
  let e := { e with _reference_image_nifti_sptr := dynamic_pointer_cast e e._reference_image_sptr }
  let e := { e with _floating_image_nifti_sptr := dynamic_pointer_cast e e._floating_image_sptr }
  let r : Outcome O :=
    match e._reference_image_nifti_sptr with
    | some _ => (e, none)
    | none =>
      match e.deref e._reference_image_sptr with
      | none => (e, some Exception.null_pointer)
      | some im =>
        let made := e.next
        let e := e.allocate (.nifti (X.NiftiImageData_from_ImageData im))
        ({ e with _reference_image_nifti_sptr := some made }, none)
  r.andThen fun e =>
    match e._floating_image_nifti_sptr with
    | some _ => (e, none)
    | none =>
      match e.deref e._floating_image_sptr with
      | none => (e, some Exception.null_pointer)
      | some im =>
        let made := e.next
        let e := e.allocate (.nifti (X.NiftiImageData_from_ImageData im))
        ({ e with _floating_image_nifti_sptr := some made }, none)

/-- The member `NiftyResample::set_up_output_image`. -/
def set_up_output_image {O : Type} (e : Engine O) : Outcome O :=
  match e.deref_nifti e._reference_image_nifti_sptr, e.deref_nifti e._floating_image_nifti_sptr with
  | some ref, some flo =>
    let output_ptr := set_up_output_image_ptr ref flo
    -- Create NiftiImageData from nifti_image
    let made := e.next
    let e := e.allocate (.nifti { _nifti_image := output_ptr })
    ({ e with _output_image_nifti_sptr := some made }, none)
  | _, _ => (e, some Exception.null_pointer)

/-- The member `NiftyResample::set_up`. -/
def set_up {O : Type} (X : Externals O) (e : Engine O) : Outcome O :=
  -- If set up has already been called, nothing to do.
  if !e._need_to_set_up then (e, none) else
  -- Check that all the required information has been entered
  match check_parameters e with
  | some x => (e, some x)
  | none =>
  -- Get reference and floating images as NiftiImageData
  (set_up_input_images X e).andThen fun e =>
  -- Setup output image
  (set_up_output_image e).andThen fun e =>
  -- If no transformations, use identity.
  let e := if e._transformations.length = 0
    then { e with _transformations := e._transformations ++ [AffineTransformation] }
    else e
  -- If forward, use the reference. If adjoint, use the floating
  let grid := if e._transformation_direction = TransformationDirection.FORWARD
    then e._reference_image_nifti_sptr
    else e._floating_image_nifti_sptr
  match e.deref_nifti grid with
  | none => (e, some Exception.null_pointer)
  | some grid =>
    let made := e.next
    let e := e.allocate (.nifti (X.compose_single_deformation e._transformations grid))
    let e := { e with _deformation_sptr := some made }
    ({ e with _need_to_set_up := false }, none)

/-- The member `NiftyResample::set_up_forward`. -/
def set_up_forward {O : Type} (X : Externals O) (e : Engine O) : Outcome O :=
  -- If set up has already been called, nothing to do.
  if !e._need_to_set_up_forward then (e, none) else
  -- Call base level
  (set_up X e).andThen fun e =>
  ({ e with _need_to_set_up_forward := false }, none)

/-- The member `NiftyResample::set_up_adjoint`. -/
def set_up_adjoint {O : Type} (X : Externals O) (e : Engine O) : Outcome O :=
  -- If set up has already been called, nothing to do.
  if !e._need_to_set_up_adjoint then (e, none) else
  -- Call base level
  (set_up X e).andThen fun e =>
  match e.deref_nifti e._deformation_sptr, e.deref_nifti e._floating_image_nifti_sptr,
      e.deref_nifti e._output_image_nifti_sptr with
  | some deformation, some floating, some output =>
    -- Get deformation spacing
    let control_point_grid_spacing : List float :=
      [deformation.get_raw_nifti_sptr.dx, deformation.get_raw_nifti_sptr.dy,
       deformation.get_raw_nifti_sptr.dz]
    -- Get the deformation field
    let def_ptr := deformation.get_raw_nifti_sptr
    -- Copy of floating image
    let flo := e.next
    let e := e.allocate (.nifti floating.clone)
    let flo_ptr := floating.clone.get_raw_nifti_sptr
    let t := BSplineTransformation.new flo_ptr 1 control_point_grid_spacing
    let e := e.write flo
      (.nifti { _nifti_image := X.BSplineTransformation_image flo_ptr 1 control_point_grid_spacing })
    let e := { e with floating_arguments := e.floating_arguments ++ [(flo, flo_ptr)] }
    let t := t.set_interpolation e._interpolation_type
    let t := t.SetParameters def_ptr.data false
    let t := t.SetPaddingValue e._padding_value
    let t := t.setDVF def_ptr
    let e := { e with _adjoint_transformer_sptr := some t }
    -- Set up the input and output weights
    let input_weights := e.next
    let e := e.allocate (.nifti floating.clone)
    let e := { e with _adjoint_input_weights_sptr := some input_weights }
    let e := e.write input_weights (.nifti (floating.clone.fill float_one))
    let output_weights := e.next
    let e := e.allocate (.nifti output.clone)
    let e := { e with _adjoint_output_weights_sptr := some output_weights }
    ({ e with _need_to_set_up_adjoint := false }, none)
  | _, _, _ => (e, some Exception.null_pointer)

/-- The member `NiftyResample::transformation_forward`. -/
def transformation_forward {O : Type} (X : Externals O) (e : Engine O) : Outcome O :=
  -- Call the set up
  (set_up_forward X e).andThen fun e =>
  match e.deref_nifti e._floating_image_nifti_sptr, e._output_image_nifti_sptr,
      e.deref_nifti e._output_image_nifti_sptr, e._deformation_sptr,
      e.deref_nifti e._deformation_sptr with
  | some floating, some output_at, some output, some deformation_at, some deformation =>
    -- need to copy
    let flo := e.next
    let e := e.allocate (.nifti floating.clone)
    let flo_ptr := floating.clone.get_raw_nifti_sptr
    let r := X.reg_resampleImage flo_ptr output.get_raw_nifti_sptr
      deformation.get_raw_nifti_sptr e._interpolation_type e._padding_value
    let e := e.write flo (.nifti { _nifti_image := r.floating })
    let e := e.write output_at (.nifti { _nifti_image := r.warped })
    let e := e.write deformation_at (.nifti { _nifti_image := r.deformation })
    ({ e with floating_arguments := e.floating_arguments ++ [(flo, flo_ptr)] }, none)
  | _, _, _, _, _ => (e, some Exception.null_pointer)

/-- The member `NiftyResample::transformation_adjoint`. -/
def transformation_adjoint {O : Type} (X : Externals O) (e : Engine O) : Outcome O :=
  -- Call the set up
  (set_up_adjoint X e).andThen fun e =>
  match e.deref_nifti e._floating_image_nifti_sptr, e._output_image_nifti_sptr,
      e.deref_nifti e._output_image_nifti_sptr with
  | some floating, some output_at, some output =>
    -- Copy of floating image
    let flo := e.next
    let e := e.allocate (.nifti floating.clone)
    let flo_ptr := floating.clone.get_raw_nifti_sptr
    -- set output to zero
    let output := output.fill float_zero
    let e := e.write output_at (.nifti output)
    -- SINC currently not supported in NiftyMoMo
    if e._interpolation_type = InterpolationType.SINC then (e, some Exception.UnsupportedInterpolationError) else
    match e._adjoint_transformer_sptr, e._adjoint_input_weights_sptr,
        e.deref_nifti e._adjoint_input_weights_sptr, e._adjoint_output_weights_sptr,
        e.deref_nifti e._adjoint_output_weights_sptr with
    | some transformer, some input_weights_at, some input_weights, some output_weights_at,
        some output_weights =>
      let r := X.TransformImageAdjoint transformer flo_ptr input_weights.get_raw_nifti_sptr
        output.get_raw_nifti_sptr output_weights.get_raw_nifti_sptr
      let e := e.write flo (.nifti { _nifti_image := r.source })
      let e := e.write input_weights_at (.nifti { _nifti_image := r.source_weights })
      let e := e.write output_at (.nifti { _nifti_image := r.warped })
      let e := e.write output_weights_at (.nifti { _nifti_image := r.warped_weights })
      ({ e with floating_arguments := e.floating_arguments ++ [(flo, flo_ptr)] }, none)
    | _, _, _, _, _ => (e, some Exception.null_pointer)
  | _, _, _ => (e, some Exception.null_pointer)

/-- The member `NiftyResample::process`. -/
def process {O : Type} (X : Externals O) (e : Engine O) : Outcome O :=
  (set_up X e).andThen fun e =>
  -- If we're resampling with NiftyReg
  (if e._transformation_direction = TransformationDirection.FORWARD
    then transformation_forward X e
    else transformation_adjoint X e).andThen fun e =>
  -- The output should be a clone of the reference image, with data filled in from the nifti image
  match e.deref e._reference_image_sptr, e.deref_nifti e._output_image_nifti_sptr with
  | some reference, some output =>
    let made := e.next
    let e := e.allocate reference.clone
    let e := { e with _output_image_sptr := some made }
    (e.write made (X.fill reference.clone output), none)
  | _, _ => (e, some Exception.null_pointer)

/-- The canonical image of a supplied image: the image itself when it is of the canonical
class, the image the converting constructor makes of it otherwise. -/
def Externals.canonical {O : Type} (X : Externals O) : ImageData O → NiftiImageData
  | .nifti im => im
  | .other im => X.NiftiImageData_from_ImageData (.other im)

/-- The pointer `p` points to an object of the canonical class that exists. -/
def Engine.holds_nifti {O : Type} (e : Engine O) (p : Option Nat) : Prop :=
  match p with
  | none => False
  | some a => a < e.next ∧ (e.deref_nifti (some a)).isSome = true

/-- The pointer `p` points to an object of the canonical class that exists and is not one of
the two objects at `r` and `f`. -/
def Engine.owns {O : Type} (e : Engine O) (r f : Nat) (p : Option Nat) : Prop :=
  match p with
  | none => False
  | some a => a < e.next ∧ a ≠ r ∧ a ≠ f ∧ (e.deref_nifti (some a)).isSome = true

/-- The engine's context names the caller's reference image, the object at `r`, and the
caller's floating image, the object at `f`; both exist; and what the cleared flags promise
is there: with the base flag cleared, the canonical views of the two images, and an output
image and a deformation field that are objects of the engine's own, not the caller's; with
the adjoint flag cleared, also a transformer and two weight images of the engine's own. -/
def Engine.separated {O : Type} (e : Engine O) (r f : Nat) : Prop :=
  e._reference_image_sptr = some r ∧ e._floating_image_sptr = some f ∧
  r < e.next ∧ f < e.next ∧ (e.store r).isSome = true ∧ (e.store f).isSome = true ∧
  (e._need_to_set_up = false →
    e.holds_nifti e._reference_image_nifti_sptr ∧ e.holds_nifti e._floating_image_nifti_sptr ∧
    e.owns r f e._output_image_nifti_sptr ∧ e.owns r f e._deformation_sptr) ∧
  (e._need_to_set_up_forward = false → e._need_to_set_up = false) ∧
  (e._need_to_set_up_adjoint = false →
    e._need_to_set_up = false ∧ e._adjoint_transformer_sptr.isSome = true ∧
    e.owns r f e._adjoint_input_weights_sptr ∧ e.owns r f e._adjoint_output_weights_sptr)

instance {O : Type} (e : Engine O) (p : Option Nat) : Decidable (e.holds_nifti p) := by
  unfold Engine.holds_nifti
  cases p <;> infer_instance

instance {O : Type} (e : Engine O) (r f : Nat) (p : Option Nat) :
    Decidable (e.owns r f p) := by
  unfold Engine.owns
  cases p <;> infer_instance

instance {O : Type} (e : Engine O) (r f : Nat) : Decidable (e.separated r f) := by
  unfold Engine.separated
  infer_instance

/-- The state `s` was reached from the state `e` without touching the caller's images: the
objects at `r` and `f` are as they were, the context still names them (`separated`), no
address was reused, direction and interpolation kind are the same, a cleared base flag is
still cleared and the canonical view of the floating image is then the same object, and
every object that was meanwhile handed to a collaborator as its floating image was made in
between and held the content `copy` when it was handed over. -/
structure Engine.Kept {O : Type} (e s : Engine O) (r f : Nat) (copy : nifti_image) : Prop where
  separated : s.separated r f
  next_le : e.next ≤ s.next
  reference_object : s.store r = e.store r
  floating_object : s.store f = e.store f
  direction : s._transformation_direction = e._transformation_direction
  interpolation : s._interpolation_type = e._interpolation_type
  base_ready : e._need_to_set_up = false → s._need_to_set_up = false
  floating_view : e._need_to_set_up = false →
    s._floating_image_nifti_sptr = e._floating_image_nifti_sptr
  handed : ∃ l, s.floating_arguments = e.floating_arguments ++ l ∧
    ∀ p, p ∈ l → e.next ≤ p.1 ∧ p.1 < s.next ∧ p.2 = copy

/-- Stand-ins for the collaborators that write through every non-`const` pointer they are
handed: each image behind such a pointer comes back with all its bytes set to `0xFF`.  The
composer returns its grid and a non-canonical image converts to a single-voxel canonical
image. -/
def example_externals : Externals Unit :=
  let scribble : nifti_image → nifti_image := fun im =>
    { im with data := im.data.map (fun d => List.replicate d.length 255) }
  { NiftiImageData_from_ImageData := fun _ => example_image 1 1 1 0,
    ImageData_fill := fun o _ => o,
    compose_single_deformation := fun _ grid => grid,
    BSplineTransformation_image := fun image _ _ => scribble image,
    reg_resampleImage := fun floating warped deformation _ _ =>
      { floating := scribble floating, warped := scribble warped,
        deformation := scribble deformation },
    TransformImageAdjoint := fun _ source source_weights warped warped_weights =>
      { source := scribble source, source_weights := scribble source_weights,
        warped := scribble warped, warped_weights := scribble warped_weights } }

/-- A fresh engine over a store of two objects: the caller's reference image (2x1x1, at
address 0) and the caller's floating image (1x1x1, every byte `7`, at address 1), both of the
canonical class. -/
def example_engine (interp : InterpolationType) (dir : TransformationDirection) : Engine Unit :=
  { store := fun a =>
      if a = 0 then some (.nifti (example_image 2 1 1 0))
      else if a = 1 then some (.nifti (example_image 1 1 1 7)) else none,
    next := 2,
    _reference_image_sptr := some 0, _floating_image_sptr := some 1, _transformations := [],
    _interpolation_type := interp, _padding_value := 0, _transformation_direction := dir,
    _need_to_set_up := true, _need_to_set_up_forward := true, _need_to_set_up_adjoint := true,
    _output_image_sptr := none,
    _reference_image_nifti_sptr := none, _floating_image_nifti_sptr := none,
    _output_image_nifti_sptr := none, _deformation_sptr := none,
    _adjoint_transformer_sptr := none, _adjoint_input_weights_sptr := none,
    _adjoint_output_weights_sptr := none, floating_arguments := [] }

/-- The payload of the object at an address, if it is an object of the canonical class. -/
def Engine.payload {O : Type} (e : Engine O) (a : Nat) : Option (List Nat) :=
  match e.store a with
  | some (.nifti im) => im._nifti_image.data
  | _ => none

end heap

/-! ## The C interface to STIR images (`cSTIR/ci_stir.cpp`) -/

/-- Modelled from the spec: `ExecutionStatus` (header `data_handle.h`, not among the sources
at hand) belongs to the object-handle layer that the spec leaves to external collaborators;
it records the error a call ended with. -/
structure ExecutionStatus where
  _error : String
deriving DecidableEq, Repr

/-- Modelled from the spec: `DataHandle` (header `data_handle.h`, not among the sources at
hand) belongs to the object-handle layer that the spec leaves to external collaborators; as
its `set(data, status)` calls show, a handle carries a data pointer and an execution status,
either of which may be null. -/
structure DataHandle (D : Type) where
  _data : Option D
  _status : Option ExecutionStatus

/-- A STIR `Coordinate3D<int>`; its components are numbered from 1, so `c[1]` is `z`, `c[2]` is
`y` and `c[3]` is `x`. -/
structure Coordinate3D where
  z : Int
  y : Int
  x : Int
deriving DecidableEq, Repr

/-- The index range of a STIR three-dimensional array: a regular box with its smallest and
largest index, or any other finite set of index triples `(z, y, x)`. -/
inductive IndexRange
  | regular (min_indices max_indices : Coordinate3D)
  | irregular (indices : List (Int × Int × Int))
deriving DecidableEq, Repr

/-- A loop whose body runs for `k = 0, 1, ..., n - 1`, on the state `s`. -/
def count_loop {σ : Type} (n : Nat) (body : Nat → σ → σ) (s : σ) : σ :=
  (List.range n).foldl (fun s k => body k s) s

/-- The statement `for (int v = lo; v <= hi; v++) body`, run on the state `s`. -/
def for_range {σ : Type} (lo hi : Int) (body : Int → σ → σ) (s : σ) : σ :=
  count_loop (hi + 1 - lo).toNat (fun k => body (lo + (k : Int))) s

/-- The index triples of an index range, in storage order (`z` slowest, `x` fastest). -/
def IndexRange.indices : IndexRange → List (Int × Int × Int)
  | .regular mn mx =>
    (List.range (mx.z + 1 - mn.z).toNat).flatMap fun a =>
      (List.range (mx.y + 1 - mn.y).toNat).flatMap fun b =>
        (List.range (mx.x + 1 - mn.x).toNat).map fun c =>
          (mn.z + (a : Int), mn.y + (b : Int), mn.x + (c : Int))
  | .irregular l => l

/-- A STIR `Image3DF` (a discretised density over `float` voxels) as far as the interface
functions look at it: its index range, its origin and grid spacing, and the voxel value
`image[z][y][x]` at every index. -/
structure Image3DF (F : Type) where
  index_range : IndexRange
  origin : List F
  grid_spacing : List F
  voxel : Int → Int → Int → F

/-- The STIR member `get_regular_range(min, max)`: the bounds of a regular index range, and
failure for any other. -/
def Image3DF.get_regular_range {F : Type} (image : Image3DF F) :
    Option (Coordinate3D × Coordinate3D) :=
  match image.index_range with
  | .regular mn mx => some (mn, mx)
  | .irregular _ => none

/-- The assignment `image[z][y][x] = v`. -/
def Image3DF.set_voxel {F : Type} (image : Image3DF F) (z y x : Int) (v : F) : Image3DF F :=
  { image with voxel := fun z1 y1 x1 => if z1 = z ∧ y1 = y ∧ x1 = x then v else image.voxel z1 y1 x1 }

/-- The voxel values of an image, in storage order. -/
def Image3DF.values {F : Type} (image : Image3DF F) : List F :=
  image.index_range.indices.map fun i => image.voxel i.1 i.2.1 i.2.2

/-- The STIR member `has_same_characteristics`: same index range, origin and grid spacing. -/
def Image3DF.has_same_characteristics {F : Type} [DecidableEq F] (a b : Image3DF F) : Bool :=
  decide (a.index_range = b.index_range ∧ a.origin = b.origin ∧ a.grid_spacing = b.grid_spacing)

/-- The STIR member `find_max()`: the largest voxel value, `0` for an empty image. -/
def Image3DF.find_max {F : Type} [LinearOrderedField F] (image : Image3DF F) : F :=
  match image.values with
  | [] => 0
  | v :: vs => vs.foldl max v

/-- The STIR member `find_min()`: the smallest voxel value, `0` for an empty image. -/
def Image3DF.find_min {F : Type} [LinearOrderedField F] (image : Image3DF F) : F :=
  match image.values with
  | [] => 0
  | v :: vs => vs.foldl min v

/-- The STIR operation `image -= other` on images with the same index range. -/
def Image3DF.sub {F : Type} [LinearOrderedField F] (image other : Image3DF F) : Image3DF F :=
  { image with voxel := fun z y x => image.voxel z y x - other.voxel z y x }

/-- The STIR member `clone()`: an independent copy. -/
def Image3DF.clone {F : Type} (image : Image3DF F) : Image3DF F := image

/-- The interface function `cSTIR_getImageData(ptr_im, ptr_data)`: the content of the
caller's `double` array after the call.  `to_double` is the conversion of a `float` to
`double`; a write past the end of the array is dropped. -/
def cSTIR_getImageData {F D : Type} (to_double : F → D) (ptr_image : Option (Image3DF F))
    (data : List D) : List D :=
  match ptr_image with
  | none => data
  | some image =>
    match image.get_regular_range with
    | none => data
    | some (min_indices, max_indices) =>
      (for_range min_indices.z max_indices.z (fun z st =>
        for_range min_indices.y max_indices.y (fun y st =>
          for_range min_indices.x max_indices.x (fun x st =>
            (st.1.set st.2 (to_double (image.voxel z y x)), st.2 + 1)) st) st) (data, 0)).1

/-- The interface function `cSTIR_setImageData(ptr_im, ptr_data)`: the image behind the
handle after the call.  `to_float` is the conversion of a `double` to `float` that the
assignment `image[z][y][x] = data[i]` makes; a read past the end of the array writes nothing. -/
def cSTIR_setImageData {F D : Type} (to_float : D → F) (ptr_image : Option (Image3DF F))
    (data : List D) : Option (Image3DF F) :=
  match ptr_image with
  | none => none
  | some image =>
    match image.get_regular_range with
    | none => some image
    | some (min_indices, max_indices) =>
      some (for_range min_indices.z max_indices.z (fun z st =>
        for_range min_indices.y max_indices.y (fun y st =>
          for_range min_indices.x max_indices.x (fun x st =>
            (match data[st.2]? with
             | some d => st.1.set_voxel z y x (to_float d)
             | none => st.1, st.2 + 1)) st) st) (image, 0)).1

/-- What a call of `cSTIR_imagesDifference` leaves: the handle it returns and the two images
behind the argument handles, which the function holds by reference and may write to. -/
structure ImagesDifference (F D : Type) where
  handle : DataHandle D
  first_image : Image3DF F
  second_image : Image3DF F

/-- The interface function `cSTIR_imagesDifference(first, second, rimsize)` on two handles
that hold images.  `float` arithmetic is taken as exact arithmetic in an ordered field `F`;
`truncate_rim` is the STIR routine of that name and `to_double` the conversion of the
`float` quotient to the `double` result. -/
def cSTIR_imagesDifference {F D : Type} [LinearOrderedField F]
    (truncate_rim : Image3DF F → Int → Image3DF F) (to_double : F → D)
    (first_image second_image : Image3DF F) (rimsize : Int) : ImagesDifference F D :=
  if !first_image.has_same_characteristics second_image then
    { handle :=
        { _data := none,
          _status := some { _error := "input images do not have the same characteristics" } },
      first_image := first_image, second_image := second_image }
  else
    let first_image := if rimsize ≥ 0 then truncate_rim first_image rimsize else first_image
    let second_image := if rimsize ≥ 0 then truncate_rim second_image rimsize else second_image
    let reference_max := first_image.find_max
    let reference_min := first_image.find_min
    let amplitude := if |reference_max| > |reference_min| then |reference_max| else |reference_min|
    let image := first_image.clone
    let image := image.sub second_image
    let max_error := image.find_max
    let min_error := image.find_min
    let max_abs_error := |min_error|
    let max_abs_error := if max_error > max_abs_error then max_error else max_abs_error
    { handle := { _data := some (to_double (max_abs_error / amplitude)), _status := none },
      first_image := first_image, second_image := second_image }

/-! ## The flat array layout and the number conversions -/

/-- The index triple that the nested loops of `cSTIR_getImageData` and `cSTIR_setImageData`
visit in their `n`-th innermost iteration, the inner loops running over `ny` rows of `nx`
voxels. -/
def storage_index (min_indices : Coordinate3D) (ny nx n : Nat) : Int × Int × Int :=
  (min_indices.z + ((n / (ny * nx) : Nat) : Int),
   min_indices.y + ((n % (ny * nx) / nx : Nat) : Int),
   min_indices.x + ((n % (ny * nx) % nx : Nat) : Int))

/-- The place of voxel `(z, y, x)` in the flat array: `((z - zmin) * ny + (y - ymin)) * nx +
(x - xmin)`. -/
def flat_offset (min_indices : Coordinate3D) (ny nx : Nat) (z y x : Int) : Nat :=
  ((z - min_indices.z).toNat * ny + (y - min_indices.y).toNat) * nx + (x - min_indices.x).toNat

/-- The number of binary digits of `a`, for `a < 2 ^ fuel`. -/
def bit_length : Nat → Nat → Nat
  | 0, _ => 0
  | fuel + 1, a => if a = 0 then 0 else bit_length fuel (a / 2) + 1

/-- The conversion `(float)d` of a `double` that holds the integer `d`, as IEEE 754 does it:
the nearest number with a 24-bit significand, ties going to the even significand.  (No
overflow: meant for magnitudes below `2 ^ 127`.) -/
def double_to_float (d : Int) : Int :=
  let a := d.natAbs
  let k := bit_length 1024 a - 24
  let q := a / 2 ^ k
  let r := a % 2 ^ k
  let q := if 2 ^ k < 2 * r ∨ (2 * r = 2 ^ k ∧ q % 2 = 1) then q + 1 else q
  d.sign * ((q * 2 ^ k : Nat) : Int)

/-- The conversion `(double)f` of a `float` that holds the integer `f`: exact. -/
def float_to_double (f : Int) : Int := f

/-! ## Concrete data for the C interface -/

/-- A one-voxel image with index range `[0..0] x [0..0] x [0..0]`, holding integers. -/
def example_voxel_image : Image3DF Int :=
  { index_range := .regular ⟨0, 0, 0⟩ ⟨0, 0, 0⟩, origin := [0, 0, 0], grid_spacing := [1, 1, 1],
    voxel := fun _ _ _ => 0 }

/-- A 1 x 2 x 3 image with index range `[0..0] x [-1..0] x [5..7]`, holding integers. -/
def example_slab_image : Image3DF Int :=
  { index_range := .regular ⟨0, -1, 5⟩ ⟨0, 0, 7⟩, origin := [0, 0, 0], grid_spacing := [1, 1, 1],
    voxel := fun _ _ _ => 0 }

/-- A truncation that clears every voxel, to stand in for `truncate_rim`. -/
def example_truncate_rim (image : Image3DF ℚ) (_rimsize : Int) : Image3DF ℚ :=
  { image with voxel := fun _ _ _ => 0 }

/-- A 1 x 1 x 2 image over the rationals with index range `[0..0] x [0..0] x [0..1]`, holding
the values `p` and `q`. -/
def example_pair_image (p q : ℚ) : Image3DF ℚ :=
  { index_range := .regular ⟨0, 0, 0⟩ ⟨0, 0, 1⟩, origin := [0, 0, 0], grid_spacing := [1, 1, 1],
    voxel := fun _ _ x => if x = 0 then p else q }

/-- A one-voxel image over the rationals, with a different index range. -/
def example_single_image (p : ℚ) : Image3DF ℚ :=
  { index_range := .regular ⟨0, 0, 0⟩ ⟨0, 0, 0⟩, origin := [0, 0, 0], grid_spacing := [1, 1, 1],
    voxel := fun _ _ _ => p }

/-! # Theorems -/

/-! ## Basic facts about the set-up functions -/

theorem set_up_skip {O : Type} (X : Externals O) (e : Engine O)
    (h : e._need_to_set_up = false) : set_up X e = (e, none) := by
  simp [set_up, h]

theorem set_up_work {O : Type} (X : Externals O) (e : Engine O) (ref flo : ImageData O)
    (h : e._need_to_set_up = true) (href : e._reference_image_sptr = some ref)
    (hflo : e._floating_image_sptr = some flo) :
    set_up X e = (after_set_up X e ref flo, none) := by
  cases ref <;> cases flo <;> cases hd : e._transformation_direction <;>
    by_cases ht : e._transformations.length = 0 <;>
    simp [set_up, h, href, hflo, hd, ht, check_parameters, set_up_input_images, set_up_output_image,
      Outcome.andThen, dynamic_pointer_cast, after_set_up, canonical, conversion_calls,
      effective_transformations, composition_grid, set_up_output_image_ptr, nifti_image.set_text_memory,
      NiftiImageData.get_num_voxels, NiftiImageData.get_raw_nifti_sptr, nifti_copy_nim_info]

theorem set_up_eq {O : Type} (X : Externals O) (e : Engine O) (ref flo : ImageData O)
    (href : e._reference_image_sptr = some ref) (hflo : e._floating_image_sptr = some flo) :
    set_up X e = (if e._need_to_set_up = true then after_set_up X e ref flo else e, none) := by
  by_cases h : e._need_to_set_up = true
  · simp [h, set_up_work X e ref flo h href hflo]
  · simp [h, set_up_skip X e (by simpa using h)]

theorem set_up_forward_skip {O : Type} (X : Externals O) (e : Engine O)
    (h : e._need_to_set_up_forward = false) : set_up_forward X e = (e, none) := by
  simp [set_up_forward, h]

theorem set_up_adjoint_skip {O : Type} (X : Externals O) (e : Engine O)
    (h : e._need_to_set_up_adjoint = false) : set_up_adjoint X e = (e, none) := by
  simp [set_up_adjoint, h]

theorem compositions_append {O : Type} (a b : List (Call O)) :
    compositions (a ++ b) = compositions a ++ compositions b := by
  simp [compositions]

theorem compositions_conversion_calls {O : Type} (im : ImageData O) :
    compositions (conversion_calls im) = [] := by
  cases im <;> simp [compositions, conversion_calls, Call.composed]

theorem compositions_after_set_up {O : Type} (X : Externals O) (e : Engine O)
    (ref flo : ImageData O) :
    compositions (after_set_up X e ref flo).calls = compositions e.calls ++
      [(effective_transformations e._transformations,
        composition_grid X e._transformation_direction ref flo)] := by
  simp [after_set_up, compositions_append, compositions_conversion_calls]
  simp [compositions, Call.composed]

theorem adjoint_transforms_append {O : Type} (a b : List (Call O)) :
    adjoint_transforms (a ++ b) = adjoint_transforms a ++ adjoint_transforms b := by
  simp [adjoint_transforms]

theorem adjoint_transforms_conversion_calls {O : Type} (im : ImageData O) :
    adjoint_transforms (conversion_calls im) = [] := by
  cases im <;> simp [adjoint_transforms, conversion_calls, Call.adjoint_output]

theorem adjoint_transforms_after_set_up {O : Type} (X : Externals O) (e : Engine O)
    (ref flo : ImageData O) :
    adjoint_transforms (after_set_up X e ref flo).calls = adjoint_transforms e.calls := by
  simp [after_set_up, adjoint_transforms_append, adjoint_transforms_conversion_calls]
  simp [adjoint_transforms, Call.adjoint_output]

/-! ## The output header -/

theorem to_unsigned_of_range (i : Int) (h0 : 0 ≤ i) (h1 : i < 2 ^ 32) :
    to_unsigned i = i.toNat := by
  unfold to_unsigned
  rw [Int.emod_eq_of_lt h0 h1]

theorem c_str_strcpy (dst src : List Nat) : c_str (strcpy dst src) = c_str src := by
  unfold strcpy
  generalize dst.drop ((c_str src).length + 1) = rest
  induction src with
  | nil => simp [c_str]
  | cons c cs ih =>
    by_cases hc : c = 0
    · simp [c_str, hc]
    · simp only [c_str] at ih
      simp [c_str, hc, ih]

theorem c_str_append_of_mem (a b : List Nat) (h : 0 ∈ a) : c_str (a ++ b) = c_str a := by
  induction a with
  | nil => simp at h
  | cons c cs ih =>
    by_cases hc : c = 0
    · simp [c_str, hc]
    · have hcs : 0 ∈ cs := by
        rcases List.mem_cons.mp h with h | h
        · exact absurd h.symm hc
        · exact h
      simp only [c_str] at ih
      simp [c_str, hc, ih hcs]

theorem c_str_length_lt (a : List Nat) (h : 0 ∈ a) : (c_str a).length < a.length := by
  induction a with
  | nil => simp at h
  | cons c cs ih =>
    by_cases hc : c = 0
    · simp [c_str, hc]
    · have hcs : 0 ∈ cs := by
        rcases List.mem_cons.mp h with h | h
        · exact absurd h.symm hc
        · exact h
      have := ih hcs
      simp only [c_str] at this
      simp [c_str, hc, this]

theorem c_str_zero_padded (a : List Nat) (n : Nat) (hn : 0 < n) :
    c_str (c_str a ++ List.replicate n 0) = c_str a := by
  obtain ⟨m, rfl⟩ : ∃ m, n = m + 1 := ⟨n - 1, by omega⟩
  rw [List.replicate_succ]
  generalize List.replicate m 0 = rest
  induction a with
  | nil => simp [c_str]
  | cons c cs ih =>
    by_cases hc : c = 0
    · simp [c_str, hc]
    · simp only [c_str] at ih
      simp [c_str, hc, ih]

theorem strcpy_zeroed (n : Nat) (rest src : List Nat) (h : (c_str src).length < n) :
    strcpy (List.replicate n 0 ++ rest) src
      = (c_str src ++ List.replicate (n - (c_str src).length) 0) ++ rest := by
  unfold strcpy
  generalize c_str src = s at *
  have h1 : (List.replicate n 0 ++ rest).drop (s.length + 1)
      = List.replicate (n - (s.length + 1)) 0 ++ rest := by
    rw [List.drop_append_of_le_length (by simp; omega), List.drop_replicate]
  have h2 : n - s.length = (n - (s.length + 1)) + 1 := by omega
  rw [h1, h2, List.replicate_succ]
  simp

/-- The text fields of the output header when the reference arrays have their declared
sizes and the floating image's `intent_name` array holds a NUL. -/
theorem output_text_memory (rn rd ra fn frest : List Nat) (hrn : rn.length = 16)
    (hfn : fn.length = 16) (hf0 : 0 ∈ fn) :
    strcpy (memset_zero rn 16 ++ (rd ++ ra)) (fn ++ frest)
      = (c_str fn ++ List.replicate (16 - (c_str fn).length) 0) ++ (rd ++ ra) ∧
    (c_str fn ++ List.replicate (16 - (c_str fn).length) 0).length = 16 := by
  have hk : (c_str fn).length < 16 := hfn ▸ c_str_length_lt fn hf0
  have hm : memset_zero rn 16 = List.replicate 16 0 := by
    simp [memset_zero, List.drop_eq_nil_of_le (Nat.le_of_eq hrn)]
  have hs := strcpy_zeroed 16 (rd ++ ra) (fn ++ frest) (by rw [c_str_append_of_mem fn frest hf0]; exact hk)
  rw [c_str_append_of_mem fn frest hf0] at hs
  refine ⟨by rw [hm]; exact hs, ?_⟩
  simp
  omega

/-- Why the floating image's name has to end inside its array: with a name of 16 letters
and no NUL, `strcpy` runs on, and its terminating NUL lands on the first byte of the output's
`descrip`, which is then no longer the reference image's. -/
theorem set_up_output_image_ptr_overrun :
    (set_up_output_image_ptr (example_named_image 2 1 1 114)
      { _nifti_image := { (example_named_image 1 1 1 102)._nifti_image with
          intent_name := List.replicate 16 102, descrip := List.replicate 80 0 } }).descrip
      = 0 :: List.replicate 79 100 ∧
    (example_named_image 2 1 1 114)._nifti_image.descrip = List.replicate 80 100 := by
  decide

/-- Claim C5.  Hybrid output header: the raw output image built by `set_up_output_image`
from a reference image `R` and a floating image `F` has `cal_min`, `cal_max`, `scl_slope`,
`scl_inter`, `datatype`, `nbyper`, `intent_code`, `intent_p1`, `intent_p2` and the
`intent_name` of `F` (the C string of `F`, the rest of the 16 bytes being zero, not what
`R` had there); every other header field (dimension sizes with the 4th and 5th dimensions,
voxel spacing, orientation codes, quaternion and matrices, `intent_p3`, texts, file names,
extensions) is that of `R`; `nvox` is the voxel count of `R`; and the data buffer holds
`nvox * F.nbyper` bytes, all zero.  The hypotheses say that the headers are well formed:
`F.nbyper` is a non-negative C `int`, the arrays `intent_name[16]` and `descrip[80]` of `R`
and `intent_name[16]` of `F` have their declared sizes, and the `intent_name` array of `F`
holds a NUL, so that `strcpy` stays inside the 16 bytes. -/
theorem C5_hybrid_output_header (R F : NiftiImageData)
    (h0 : 0 ≤ F._nifti_image.nbyper) (h1 : F._nifti_image.nbyper < 2 ^ 31)
    (hRn : R._nifti_image.intent_name.length = 16) (hRd : R._nifti_image.descrip.length = 80)
    (hFn : F._nifti_image.intent_name.length = 16) (hF0 : 0 ∈ F._nifti_image.intent_name) :
    let out := set_up_output_image_ptr R F
    let r := R._nifti_image
    let f := F._nifti_image
    (out.cal_min = f.cal_min ∧ out.cal_max = f.cal_max ∧ out.scl_slope = f.scl_slope ∧
      out.scl_inter = f.scl_inter ∧ out.datatype = f.datatype ∧ out.nbyper = f.nbyper ∧
      out.intent_code = f.intent_code ∧ out.intent_p1 = f.intent_p1 ∧
      out.intent_p2 = f.intent_p2 ∧ c_str out.intent_name = c_str f.intent_name ∧
      out.intent_name
        = c_str f.intent_name ++ List.replicate (16 - (c_str f.intent_name).length) 0) ∧
    (out.ndim = r.ndim ∧ out.nx = r.nx ∧ out.ny = r.ny ∧ out.nz = r.nz ∧ out.nt = r.nt ∧
      out.nu = r.nu ∧ out.nv = r.nv ∧ out.nw = r.nw ∧ out.dim = r.dim) ∧
    (out.dx = r.dx ∧ out.dy = r.dy ∧ out.dz = r.dz ∧ out.dt = r.dt ∧ out.du = r.du ∧
      out.dv = r.dv ∧ out.dw = r.dw ∧ out.pixdim = r.pixdim) ∧
    (out.qform_code = r.qform_code ∧ out.sform_code = r.sform_code ∧
      out.quatern_b = r.quatern_b ∧ out.quatern_c = r.quatern_c ∧ out.quatern_d = r.quatern_d ∧
      out.qoffset_x = r.qoffset_x ∧ out.qoffset_y = r.qoffset_y ∧ out.qoffset_z = r.qoffset_z ∧
      out.qfac = r.qfac ∧ out.qto_xyz = r.qto_xyz ∧ out.qto_ijk = r.qto_ijk ∧
      out.sto_xyz = r.sto_xyz ∧ out.sto_ijk = r.sto_ijk) ∧
    (out.freq_dim = r.freq_dim ∧ out.phase_dim = r.phase_dim ∧ out.slice_dim = r.slice_dim ∧
      out.slice_code = r.slice_code ∧ out.slice_start = r.slice_start ∧
      out.slice_end = r.slice_end ∧ out.slice_duration = r.slice_duration ∧
      out.toffset = r.toffset ∧ out.xyz_units = r.xyz_units ∧ out.time_units = r.time_units ∧
      out.nifti_type = r.nifti_type ∧ out.intent_p3 = r.intent_p3 ∧ out.descrip = r.descrip ∧
      out.aux_file = r.aux_file ∧ out.fname = r.fname ∧ out.iname = r.iname ∧
      out.iname_offset = r.iname_offset ∧ out.swapsize = r.swapsize ∧
      out.byteorder = r.byteorder ∧ out.num_ext = r.num_ext ∧ out.ext_list = r.ext_list ∧
      out.analyze75_orient = r.analyze75_orient) ∧
    out.nvox = R.get_num_voxels ∧
    out.data = some (List.replicate (out.nvox * f.nbyper.toNat) 0) := by
  have hu : to_unsigned F._nifti_image.nbyper = F._nifti_image.nbyper.toNat :=
    to_unsigned_of_range _ h0 (by omega)
  obtain ⟨ht, hlen⟩ := output_text_memory R._nifti_image.intent_name R._nifti_image.descrip
    R._nifti_image.aux_file F._nifti_image.intent_name
    (F._nifti_image.descrip ++ F._nifti_image.aux_file) hRn hFn hF0
  have hk : (c_str F._nifti_image.intent_name).length < 16 := hFn ▸ c_str_length_lt _ hF0
  have hname := @List.take_left' _ _ (R._nifti_image.descrip ++ R._nifti_image.aux_file) _ hlen
  have hrest := @List.drop_left' _ _ (R._nifti_image.descrip ++ R._nifti_image.aux_file) _ hlen
  have hd := @List.take_left' _ _ R._nifti_image.aux_file _ hRd
  have haux : ((c_str F._nifti_image.intent_name
      ++ List.replicate (16 - (c_str F._nifti_image.intent_name).length) 0)
      ++ (R._nifti_image.descrip ++ R._nifti_image.aux_file)).drop 96
      = R._nifti_image.aux_file := by
    rw [← List.append_assoc]
    exact List.drop_left' (by rw [List.length_append, hlen, hRd])
  have hc := c_str_zero_padded F._nifti_image.intent_name
    (16 - (c_str F._nifti_image.intent_name).length) (by omega)
  simp only [List.append_assoc] at ht hname hrest haux
  simp only [set_up_output_image_ptr, nifti_image.set_text_memory, nifti_image.text_memory,
    nifti_copy_nim_info, NiftiImageData.get_raw_nifti_sptr, NiftiImageData.get_num_voxels,
    List.append_assoc, ht, hname, hrest, hd, haux, hc, hu, calloc]
  simp

/-- Claim C5 at concrete images: reference 2x1x1 named "ref" with a description, floating
1x1x1 named "flo" with four bytes per voxel. -/
theorem C5_hybrid_output_header_witness :
    (0 : Int) ≤ (example_named_image 1 1 1 102)._nifti_image.nbyper ∧
    (example_named_image 1 1 1 102)._nifti_image.nbyper < 2 ^ 31 ∧
    (example_named_image 2 1 1 114)._nifti_image.intent_name.length = 16 ∧
    (example_named_image 2 1 1 114)._nifti_image.descrip.length = 80 ∧
    (example_named_image 1 1 1 102)._nifti_image.intent_name.length = 16 ∧
    0 ∈ (example_named_image 1 1 1 102)._nifti_image.intent_name ∧
    (set_up_output_image_ptr (example_named_image 2 1 1 114)
      (example_named_image 1 1 1 102)).intent_name
      = c_str (example_named_image 1 1 1 102)._nifti_image.intent_name
        ++ List.replicate
          (16 - (c_str (example_named_image 1 1 1 102)._nifti_image.intent_name).length) 0 ∧
    (set_up_output_image_ptr (example_named_image 2 1 1 114)
      (example_named_image 1 1 1 102)).data = some [0, 0, 0, 0, 0, 0, 0, 0] ∧
    (set_up_output_image_ptr (example_named_image 2 1 1 114)
      (example_named_image 1 1 1 102)).nvox = 2 :=
  ⟨by decide, by decide, by decide, by decide, by decide, by decide,
    (C5_hybrid_output_header (example_named_image 2 1 1 114) (example_named_image 1 1 1 102)
      (by decide) (by decide) (by decide) (by decide) (by decide) (by decide)).1.2.2.2.2.2.2.2.2.2.2,
    (C5_hybrid_output_header (example_named_image 2 1 1 114) (example_named_image 1 1 1 102)
      (by decide) (by decide) (by decide) (by decide) (by decide) (by decide)).2.2.2.2.2.2,
    (C5_hybrid_output_header (example_named_image 2 1 1 114) (example_named_image 1 1 1 102)
      (by decide) (by decide) (by decide) (by decide) (by decide) (by decide)).2.2.2.2.2.1⟩

/-! ## The forward path -/

theorem process_first_forward {O : Type} (X : Externals O) (e : Engine O) (ref flo : ImageData O)
    (h0 : e._need_to_set_up = true) (h1 : e._need_to_set_up_forward = true)
    (href : e._reference_image_sptr = some ref) (hflo : e._floating_image_sptr = some flo)
    (hdir : e._transformation_direction = TransformationDirection.FORWARD) :
    process X e = (after_first_forward X e ref flo, none) := by
  have hs := set_up_work X e ref flo h0 href hflo
  have hskip : set_up X (after_set_up X e ref flo) = (after_set_up X e ref flo, none) :=
    set_up_skip X _ rfl
  simp [process, hs, Outcome.andThen, transformation_forward, set_up_forward, hskip,
    after_first_forward]
  simp [after_set_up, hdir, h1, href, NiftiImageData.clone, NiftiImageData.get_raw_nifti_sptr,
    ImageData.clone, hskip, transformation_forward, set_up_forward, set_up, Outcome.andThen]

theorem process_ready_forward {O : Type} (X : Externals O) (e : Engine O) (ref : ImageData O)
    (floating output deformation : NiftiImageData)
    (h0 : e._need_to_set_up = false) (h1 : e._need_to_set_up_forward = false)
    (href : e._reference_image_sptr = some ref)
    (hf : e._floating_image_nifti_sptr = some floating)
    (ho : e._output_image_nifti_sptr = some output)
    (hd : e._deformation_sptr = some deformation)
    (hdir : e._transformation_direction = TransformationDirection.FORWARD) :
    process X e = (after_ready_forward X e ref floating output deformation, none) := by
  simp [process, set_up_skip X e h0, set_up_forward_skip X e h1, Outcome.andThen,
    transformation_forward, hdir, hf, ho, hd, href, after_ready_forward, NiftiImageData.clone,
    NiftiImageData.get_raw_nifti_sptr, ImageData.clone]

/-- Claim C1.  Idempotent set-up: on an engine whose need-to-set-up flags are set, with a
reference and a floating image and direction forward, two consecutive `process` calls both
complete, the composer is run exactly once by the first call and not at all by the second,
and in the second call `set_up` and `set_up_forward` return the state untouched. -/
theorem C1_idempotent_setup {O : Type} (X : Externals O) (e : Engine O) (ref flo : ImageData O)
    (h0 : e._need_to_set_up = true) (h1 : e._need_to_set_up_forward = true)
    (href : e._reference_image_sptr = some ref) (hflo : e._floating_image_sptr = some flo)
    (hdir : e._transformation_direction = TransformationDirection.FORWARD) :
    (process X e).2 = none ∧ (process X (process X e).1).2 = none ∧
    (compositions (process X e).1.calls).length = (compositions e.calls).length + 1 ∧
    (compositions (process X (process X e).1).1.calls).length
      = (compositions e.calls).length + 1 ∧
    set_up X (process X e).1 = ((process X e).1, none) ∧
    set_up_forward X (process X e).1 = ((process X e).1, none) := by
  have hp := process_first_forward X e ref flo h0 h1 href hflo hdir
  have hq := process_ready_forward X (after_first_forward X e ref flo) ref (canonical X flo)
    { _nifti_image := X.reg_resampleImage (canonical X flo)._nifti_image
        (set_up_output_image_ptr (canonical X ref) (canonical X flo))
        (X.compose_single_deformation (effective_transformations e._transformations)
          (composition_grid X e._transformation_direction ref flo))._nifti_image
        e._interpolation_type e._padding_value }
    (X.compose_single_deformation (effective_transformations e._transformations)
      (composition_grid X e._transformation_direction ref flo))
    rfl rfl (by simpa [after_first_forward, after_set_up] using href) rfl rfl rfl
    (by simpa [after_first_forward, after_set_up] using hdir)
  rw [hp]
  simp only [hq]
  refine ⟨trivial, trivial, ?_, ?_, set_up_skip X _ rfl, set_up_forward_skip X _ rfl⟩
  · have := compositions_after_set_up X e ref flo
    simp [after_first_forward, compositions_append, this]
    simp [compositions, Call.composed]
  · have := compositions_after_set_up X e ref flo
    simp [after_ready_forward, after_first_forward, compositions_append, this]
    simp [compositions, Call.composed]

/-- Claim C1 at a concrete engine: reference 2x1x1, floating 1x1x1, linear, forward. -/
theorem C1_idempotent_setup_witness :
    (example_engine InterpolationType.LINEAR TransformationDirection.FORWARD)._need_to_set_up = true ∧
    (example_engine InterpolationType.LINEAR TransformationDirection.FORWARD)._need_to_set_up_forward
      = true ∧
    (compositions (process example_externals (process example_externals
      (example_engine InterpolationType.LINEAR TransformationDirection.FORWARD)).1).1.calls).length
      = 1 :=
  ⟨rfl, rfl, (C1_idempotent_setup example_externals
    (example_engine InterpolationType.LINEAR TransformationDirection.FORWARD)
    (.nifti (example_image 2 1 1 0)) (.nifti (example_image 1 1 1 7)) rfl rfl rfl rfl rfl).2.2.2.1⟩

/-! ## The claims about set-up -/

/-- Claim C2.  When `set_up` does its work on a context with a reference and a floating
image, it completes and runs the composer once; an empty transformation list reaches the
composer as the one-element list holding a default-constructed (identity) affine
transformation, a non-empty list reaches it unchanged. -/
theorem C2_list_handed_to_composer {O : Type} (X : Externals O) (e : Engine O)
    (ref flo : ImageData O) (h0 : e._need_to_set_up = true)
    (href : e._reference_image_sptr = some ref) (hflo : e._floating_image_sptr = some flo) :
    (set_up X e).2 = none ∧
    ∃ grid,
      (e._transformations = [] →
        compositions (set_up X e).1.calls
          = compositions e.calls ++ [([AffineTransformation], grid)]) ∧
      (e._transformations ≠ [] →
        compositions (set_up X e).1.calls = compositions e.calls ++ [(e._transformations, grid)]) := by
  rw [set_up_work X e ref flo h0 href hflo]
  refine ⟨rfl, composition_grid X e._transformation_direction ref flo, ?_, ?_⟩
  · intro h
    simp [compositions_after_set_up, effective_transformations, h]
  · intro h
    have hl : ¬ e._transformations.length = 0 := by
      simpa [List.length_eq_zero] using h
    simp [compositions_after_set_up, effective_transformations, hl]

/-- Claim C2 at a concrete engine with an empty transformation list: the composer receives
a list of length one. -/
theorem C2_list_handed_to_composer_witness :
    (example_engine InterpolationType.LINEAR TransformationDirection.FORWARD)._need_to_set_up = true ∧
    (example_engine InterpolationType.LINEAR TransformationDirection.FORWARD)._transformations = [] ∧
    (compositions (set_up example_externals
      (example_engine InterpolationType.LINEAR TransformationDirection.FORWARD)).1.calls).map
        (fun c => c.1.length) = [1] := by
  obtain ⟨_, grid, h, _⟩ := C2_list_handed_to_composer example_externals
    (example_engine InterpolationType.LINEAR TransformationDirection.FORWARD)
    (.nifti (example_image 2 1 1 0)) (.nifti (example_image 1 1 1 7)) rfl rfl rfl
  refine ⟨rfl, rfl, ?_⟩
  rw [h rfl]
  rfl

/-- Claim C3.  When `set_up` does its work on a context with a reference and a floating
image, the grid handed to the composer is the canonical reference image if the direction is
forward and the canonical floating image if it is adjoint; the deformation field kept by the
engine is the composer's result on that grid. -/
theorem C3_composition_grid {O : Type} (X : Externals O) (e : Engine O)
    (ref flo : ImageData O) (h0 : e._need_to_set_up = true)
    (href : e._reference_image_sptr = some ref) (hflo : e._floating_image_sptr = some flo) :
    (set_up X e).1._reference_image_nifti_sptr = some (canonical X ref) ∧
    (set_up X e).1._floating_image_nifti_sptr = some (canonical X flo) ∧
    (e._transformation_direction = TransformationDirection.FORWARD →
      ∃ ts, compositions (set_up X e).1.calls = compositions e.calls ++ [(ts, canonical X ref)] ∧
        (set_up X e).1._deformation_sptr
          = some (X.compose_single_deformation ts (canonical X ref))) ∧
    (e._transformation_direction = TransformationDirection.ADJOINT →
      ∃ ts, compositions (set_up X e).1.calls = compositions e.calls ++ [(ts, canonical X flo)] ∧
        (set_up X e).1._deformation_sptr
          = some (X.compose_single_deformation ts (canonical X flo))) := by
  rw [set_up_work X e ref flo h0 href hflo]
  refine ⟨rfl, rfl, ?_, ?_⟩
  · intro h
    refine ⟨effective_transformations e._transformations, ?_, ?_⟩
    · simp [compositions_after_set_up, composition_grid, h]
    · simp [after_set_up, composition_grid, h]
  · intro h
    refine ⟨effective_transformations e._transformations, ?_, ?_⟩
    · simp [compositions_after_set_up, composition_grid, h]
    · simp [after_set_up, composition_grid, h]

/-- Claim C3 at concrete engines: the adjoint composition runs on the one-voxel floating
grid, the forward composition on the two-voxel reference grid. -/
theorem C3_composition_grid_witness :
    (example_engine InterpolationType.LINEAR TransformationDirection.ADJOINT)._need_to_set_up = true ∧
    (compositions (set_up example_externals
      (example_engine InterpolationType.LINEAR TransformationDirection.ADJOINT)).1.calls).map
        (fun c => c.2._nifti_image.nvox) = [1] ∧
    (compositions (set_up example_externals
      (example_engine InterpolationType.LINEAR TransformationDirection.FORWARD)).1.calls).map
        (fun c => c.2._nifti_image.nvox) = [2] := by
  obtain ⟨_, _, _, ha⟩ := C3_composition_grid example_externals
    (example_engine InterpolationType.LINEAR TransformationDirection.ADJOINT)
    (.nifti (example_image 2 1 1 0)) (.nifti (example_image 1 1 1 7)) rfl rfl rfl
  obtain ⟨ts, h, _⟩ := ha rfl
  refine ⟨rfl, ?_, rfl⟩
  rw [h]
  rfl

/-- Claim C8.  When the reference image or the floating image is not set and the base
need-to-set-up flag is set, `process` raises the uninitialised-context error and leaves the
engine exactly as it found it: no canonical image, no output image, no change to the
transformation list, no composition, no log entry, every flag as before. -/
theorem C8_unset_image_fails_before_set_up {O : Type} (X : Externals O) (e : Engine O)
    (h0 : e._need_to_set_up = true)
    (h : e._reference_image_sptr = none ∨ e._floating_image_sptr = none) :
    (process X e).2 = some Exception.UninitializedContextError ∧ (process X e).1 = e ∧
    (process X e).1.calls = e.calls ∧
    (process X e).1._transformations = e._transformations ∧
    (process X e).1._reference_image_nifti_sptr = e._reference_image_nifti_sptr ∧
    (process X e).1._floating_image_nifti_sptr = e._floating_image_nifti_sptr ∧
    (process X e).1._output_image_nifti_sptr = e._output_image_nifti_sptr ∧
    (process X e).1._deformation_sptr = e._deformation_sptr ∧
    (process X e).1._need_to_set_up = true ∧
    (process X e).1._need_to_set_up_forward = e._need_to_set_up_forward ∧
    (process X e).1._need_to_set_up_adjoint = e._need_to_set_up_adjoint := by
  have hp : process X e = (e, some Exception.UninitializedContextError) := by
    rcases h with h | h
    · simp [process, set_up, h0, check_parameters, h, Outcome.andThen]
    · cases hr : e._reference_image_sptr <;>
        simp [process, set_up, h0, check_parameters, h, hr, Outcome.andThen]
  rw [hp]
  exact ⟨rfl, rfl, rfl, rfl, rfl, rfl, rfl, rfl, h0, rfl, rfl⟩

/-- Claim C8 at a concrete fresh engine without a reference image. -/
theorem C8_unset_image_fails_before_set_up_witness :
    (Engine.fresh (O := Unit) none (some (.nifti (example_image 1 1 1 7))) []
      InterpolationType.LINEAR 0 TransformationDirection.FORWARD)._need_to_set_up = true ∧
    (process example_externals (Engine.fresh none (some (.nifti (example_image 1 1 1 7))) []
      InterpolationType.LINEAR 0 TransformationDirection.FORWARD)).2
      = some Exception.UninitializedContextError ∧
    (process example_externals (Engine.fresh none (some (.nifti (example_image 1 1 1 7))) []
      InterpolationType.LINEAR 0 TransformationDirection.FORWARD)).1.calls = [] :=
  ⟨rfl,
   (C8_unset_image_fails_before_set_up example_externals
      (Engine.fresh none (some (.nifti (example_image 1 1 1 7))) []
        InterpolationType.LINEAR 0 TransformationDirection.FORWARD) rfl (Or.inl rfl)).1,
   (C8_unset_image_fails_before_set_up example_externals
      (Engine.fresh none (some (.nifti (example_image 1 1 1 7))) []
        InterpolationType.LINEAR 0 TransformationDirection.FORWARD) rfl (Or.inl rfl)).2.2.1⟩

/-! ## Zero-filled buffers -/

theorem fill_bytes_zero (n : Nat) : fill_bytes n (float_bytes float_zero) = List.replicate (4 * n) 0 := by
  induction n with
  | zero => rfl
  | succ n ih =>
    have h4 : 4 * (n + 1) = 4 + 4 * n := by ring
    rw [fill_bytes, ih, h4, List.replicate_add]
    rfl

theorem float_of_bytes_replicate_zero (k : Nat) : float_of_bytes (List.replicate k 0) = 0 := by
  have h : ∀ j, (List.replicate k 0).getD j 0 = 0 := by
    intro j
    by_cases hj : j < k
    · simp [List.getD, List.getElem?_replicate, hj]
    · simp [List.getD, List.getElem?_replicate, hj]
  simp [float_of_bytes, h]

theorem fill_zero_all_zero (im : NiftiImageData) : (im.fill float_zero)._nifti_image.all_zero := by
  constructor
  · simp [NiftiImageData.fill, fill_bytes_zero]
  · intro i hi
    have hi2 : i < im._nifti_image.nvox := hi
    have hlen : 4 * i + 4 ≤ 4 * im._nifti_image.nvox := by omega
    simp only [NiftiImageData.fill, nifti_image.voxel, fill_bytes_zero, List.length_replicate,
      hlen, if_true, List.drop_replicate, List.take_replicate, float_of_bytes_replicate_zero]
    rfl

/-! ## The adjoint path -/

theorem set_up_adjoint_work {O : Type} (X : Externals O) (e : Engine O)
    (deformation floating output : NiftiImageData)
    (h0 : e._need_to_set_up = false) (h2 : e._need_to_set_up_adjoint = true)
    (hd : e._deformation_sptr = some deformation)
    (hf : e._floating_image_nifti_sptr = some floating)
    (ho : e._output_image_nifti_sptr = some output) :
    set_up_adjoint X e = (after_set_up_adjoint e deformation floating output, none) := by
  simp [set_up_adjoint, h2, set_up_skip X e h0, Outcome.andThen, hd, hf, ho, after_set_up_adjoint,
    adjoint_transformer, NiftiImageData.clone, NiftiImageData.get_raw_nifti_sptr]

theorem transformation_adjoint_ready {O : Type} (X : Externals O) (e : Engine O)
    (floating output : NiftiImageData) (transformer : BSplineTransformation)
    (input_weights output_weights : NiftiImageData)
    (h2 : e._need_to_set_up_adjoint = false)
    (hf : e._floating_image_nifti_sptr = some floating)
    (ho : e._output_image_nifti_sptr = some output)
    (ht : e._adjoint_transformer_sptr = some transformer)
    (hi : e._adjoint_input_weights_sptr = some input_weights)
    (hw : e._adjoint_output_weights_sptr = some output_weights) :
    transformation_adjoint X e =
      if e._interpolation_type = InterpolationType.SINC
      then ({ e with _output_image_nifti_sptr := some (output.fill float_zero) },
            some Exception.UnsupportedInterpolationError)
      else (after_adjoint X e floating output transformer input_weights output_weights, none) := by
  by_cases hs : e._interpolation_type = InterpolationType.SINC <;>
  simp [transformation_adjoint, set_up_adjoint_skip X e h2, Outcome.andThen, hf, ho, ht, hi, hw, hs,
    after_adjoint, NiftiImageData.clone, NiftiImageData.get_raw_nifti_sptr]

theorem transformation_adjoint_of_set_up_adjoint {O : Type} (X : Externals O) (s t : Engine O)
    (h : set_up_adjoint X s = (t, none)) (h2 : t._need_to_set_up_adjoint = false) :
    transformation_adjoint X s = transformation_adjoint X t := by
  unfold transformation_adjoint
  rw [h, set_up_adjoint_skip X t h2]

theorem adjoint_prepare {O : Type} (X : Externals O) (e : Engine O) (ref flo : ImageData O)
    (hc : e.consistent) (href : e._reference_image_sptr = some ref)
    (hflo : e._floating_image_sptr = some flo) :
    ∃ s t floating output transformer input_weights output_weights,
      set_up X e = (s, none) ∧ set_up_adjoint X s = (t, none) ∧
      s._transformation_direction = e._transformation_direction ∧
      set_up_adjoint X e = (t, none) ∧
      AdjointPrepared e t floating output transformer input_weights output_weights := by
  obtain ⟨hbase, _, hadj⟩ := hc
  cases h0 : e._need_to_set_up with
  | true =>
    cases h2 : e._need_to_set_up_adjoint with
    | false => simp [h0, h2] at hadj
    | true =>
      refine ⟨after_set_up X e ref flo,
        after_set_up_adjoint (after_set_up X e ref flo)
          (X.compose_single_deformation (effective_transformations e._transformations)
            (composition_grid X e._transformation_direction ref flo))
          (canonical X flo)
          { _nifti_image := set_up_output_image_ptr (canonical X ref) (canonical X flo) },
        canonical X flo,
        { _nifti_image := set_up_output_image_ptr (canonical X ref) (canonical X flo) },
        adjoint_transformer (after_set_up X e ref flo)
          (X.compose_single_deformation (effective_transformations e._transformations)
            (composition_grid X e._transformation_direction ref flo))
          (canonical X flo),
        (canonical X flo).fill float_one,
        { _nifti_image := set_up_output_image_ptr (canonical X ref) (canonical X flo) },
        set_up_work X e ref flo h0 href hflo,
        set_up_adjoint_work X _ _ _ _ rfl (by simpa [after_set_up] using h2) rfl rfl rfl, rfl, ?_, ?_⟩
      · simp [set_up_adjoint, h2, set_up_work X e ref flo h0 href hflo, Outcome.andThen]
        simp [after_set_up, after_set_up_adjoint, adjoint_transformer, NiftiImageData.clone,
          NiftiImageData.get_raw_nifti_sptr]
      have hcomp := compositions_after_set_up X e ref flo
      have hadjt := adjoint_transforms_after_set_up X e ref flo
      constructor <;> first
        | rfl
        | (intro h; simp [h0] at h; done)
        | (intro _; have hl := congrArg List.length hcomp; simpa [after_set_up_adjoint] using hl)
        | simpa [after_set_up_adjoint] using hadjt
  | false =>
    obtain ⟨-, hf, ho, hd⟩ := hbase h0
    obtain ⟨floating, hf⟩ := Option.isSome_iff_exists.mp hf
    obtain ⟨output, ho⟩ := Option.isSome_iff_exists.mp ho
    obtain ⟨deformation, hd⟩ := Option.isSome_iff_exists.mp hd
    cases h2 : e._need_to_set_up_adjoint with
    | true =>
      refine ⟨e, after_set_up_adjoint e deformation floating output, floating, output,
        adjoint_transformer e deformation floating, floating.fill float_one, output,
        set_up_skip X e h0, set_up_adjoint_work X e deformation floating output h0 h2 hd hf ho,
        rfl, set_up_adjoint_work X e deformation floating output h0 h2 hd hf ho, ?_⟩
      constructor <;> first
        | rfl
        | (simp [after_set_up_adjoint]; done)
        | simp [after_set_up_adjoint, h0, h2, hf, ho]
    | false =>
      obtain ⟨-, ht, hi, hw⟩ := hadj h2
      obtain ⟨transformer, ht⟩ := Option.isSome_iff_exists.mp ht
      obtain ⟨input_weights, hi⟩ := Option.isSome_iff_exists.mp hi
      obtain ⟨output_weights, hw⟩ := Option.isSome_iff_exists.mp hw
      refine ⟨e, e, floating, output, transformer, input_weights, output_weights,
        set_up_skip X e h0, set_up_adjoint_skip X e h2, rfl, set_up_adjoint_skip X e h2, ?_⟩
      constructor <;> first
        | rfl
        | assumption
        | (intros; rfl)
        | simp [h0]

theorem process_adjoint_eq {O : Type} (X : Externals O) (e : Engine O) (ref flo : ImageData O)
    (hc : e.consistent) (href : e._reference_image_sptr = some ref)
    (hflo : e._floating_image_sptr = some flo) :
    ∃ t floating output transformer input_weights output_weights,
      AdjointPrepared e t floating output transformer input_weights output_weights ∧
      (set_up_adjoint X (set_up X e).1).1 = t ∧
      transformation_adjoint X e =
        (if e._interpolation_type = InterpolationType.SINC
        then ({ t with _output_image_nifti_sptr := some (output.fill float_zero) },
              some Exception.UnsupportedInterpolationError)
        else (after_adjoint X t floating output transformer input_weights output_weights, none)) ∧
      (e._transformation_direction = TransformationDirection.ADJOINT → process X e =
        if e._interpolation_type = InterpolationType.SINC
        then ({ t with _output_image_nifti_sptr := some (output.fill float_zero) },
              some Exception.UnsupportedInterpolationError)
        else ({ after_adjoint X t floating output transformer input_weights output_weights with
                _output_image_sptr := some (ImageData.fill X ref.clone
                  { _nifti_image := (X.TransformImageAdjoint transformer floating._nifti_image
                      input_weights._nifti_image (output.fill float_zero)._nifti_image
                      output_weights._nifti_image).warped }) }, none)) := by
  obtain ⟨s, t, f, o, tr, iw, ow, hs, hst, hsd, het, hp⟩ :=
    adjoint_prepare X e ref flo hc href hflo
  have hr := transformation_adjoint_ready X t f o tr iw ow hp.need_to_set_up_adjoint
    hp.floating_nifti hp.output_nifti hp.adjoint_transformer hp.adjoint_input_weights
    hp.adjoint_output_weights
  refine ⟨t, f, o, tr, iw, ow, hp, by rw [hs, hst], ?_, ?_⟩
  · rw [transformation_adjoint_of_set_up_adjoint X e t het hp.need_to_set_up_adjoint, hr]
    simp only [hp.interpolation_type]
  · intro hdir
    have hta := transformation_adjoint_of_set_up_adjoint X s t hst hp.need_to_set_up_adjoint
    have hsd2 : ¬ s._transformation_direction = TransformationDirection.FORWARD := by
      rw [hsd, hdir]; simp
    by_cases hi : e._interpolation_type = InterpolationType.SINC
    · have hti : t._interpolation_type = InterpolationType.SINC := by
        rw [hp.interpolation_type]; exact hi
      simp [process, hs, Outcome.andThen, hsd2, hta, hr, hi, hti]
    · have hti : ¬ t._interpolation_type = InterpolationType.SINC := by
        rw [hp.interpolation_type]; exact hi
      have href2 : t._reference_image_sptr = some ref := by rw [hp.reference_image]; exact href
      simp [process, hs, Outcome.andThen, hsd2, hta, hr, hi, hti, after_adjoint, href2]

/-! ## What an arbitrary engine state hands to the adjoint transform -/

theorem adjoint_transforms_set_up {O : Type} (X : Externals O) (e : Engine O) :
    adjoint_transforms (set_up X e).1.calls = adjoint_transforms e.calls := by
  cases h0 : e._need_to_set_up with
  | false => rw [set_up_skip X e h0]
  | true =>
    cases href : e._reference_image_sptr with
    | none => simp [set_up, h0, check_parameters, href]
    | some ref =>
      cases hflo : e._floating_image_sptr with
      | none => simp [set_up, h0, check_parameters, href, hflo]
      | some flo =>
        rw [set_up_work X e ref flo h0 href hflo]
        exact adjoint_transforms_after_set_up X e ref flo

theorem adjoint_transforms_set_up_adjoint {O : Type} (X : Externals O) (e : Engine O) :
    adjoint_transforms (set_up_adjoint X e).1.calls = adjoint_transforms e.calls := by
  cases h2 : e._need_to_set_up_adjoint with
  | false => rw [set_up_adjoint_skip X e h2]
  | true =>
    have hs := adjoint_transforms_set_up X e
    unfold set_up_adjoint
    rcases hr : set_up X e with ⟨s, _ | x⟩
    · rw [hr] at hs
      simp only [h2, Outcome.andThen]
      simp only [Bool.not_true, Bool.false_eq_true, if_false]
      split <;> exact hs
    · rw [hr] at hs
      simpa [h2, Outcome.andThen] using hs

theorem adjoint_transforms_transformation_adjoint {O : Type} (X : Externals O) (e : Engine O) :
    ∃ l, adjoint_transforms (transformation_adjoint X e).1.calls = adjoint_transforms e.calls ++ l ∧
      l.length ≤ 1 ∧ ∀ w, w ∈ l → w.all_zero := by
  have hs := adjoint_transforms_set_up_adjoint X e
  unfold transformation_adjoint
  rcases hr : set_up_adjoint X e with ⟨t, _ | x⟩
  · rw [hr] at hs
    simp only [Outcome.andThen]
    split
    · rename_i floating output hf ho
      by_cases hi : t._interpolation_type = InterpolationType.SINC
      · exact ⟨[], by simpa [hi] using hs, by simp, by simp⟩
      · simp only [hi, if_false]
        split
        · refine ⟨[(output.fill float_zero).get_raw_nifti_sptr], ?_, by simp, ?_⟩
          · simp [adjoint_transforms_append, hs]
            simp [adjoint_transforms, Call.adjoint_output]
          · intro w hw
            simp only [List.mem_singleton] at hw
            rw [hw]
            exact fill_zero_all_zero output
        · exact ⟨[], by simpa using hs, by simp, by simp⟩
    · exact ⟨[], by simpa using hs, by simp, by simp⟩
  · rw [hr] at hs
    exact ⟨[], by simpa [Outcome.andThen] using hs, by simp, by simp⟩

/-! ## The claims about the adjoint path -/

/-- Counterexample to claim C4 as stated.  With a 2x1x1 reference image, a 1x1x1 floating
image, direction adjoint and linear interpolation, `process` completes and the image it
produces has the dimensions 2x1x1 and the 2 voxels of the reference image, not the 1x1x1
and the single voxel of the floating image. -/
theorem C4_counterexample :
    (process example_externals
      (example_engine InterpolationType.LINEAR TransformationDirection.ADJOINT)).2 = none ∧
    (((process example_externals (example_engine InterpolationType.LINEAR
        TransformationDirection.ADJOINT)).1._output_image_sptr.bind ImageData.raw).map
          (fun h => (h.nx, h.ny, h.nz, h.nvox))) = some (2, 1, 1, 2) ∧
    (((example_engine InterpolationType.LINEAR
        TransformationDirection.ADJOINT)._reference_image_sptr.bind ImageData.raw).map
          (fun h => (h.nx, h.ny, h.nz, h.nvox))) = some (2, 1, 1, 2) ∧
    (((example_engine InterpolationType.LINEAR
        TransformationDirection.ADJOINT)._floating_image_sptr.bind ImageData.raw).map
          (fun h => (h.nx, h.ny, h.nz, h.nvox))) = some (1, 1, 1, 1) := by
  decide

/-- Claim C4, amended.  On a consistent engine whose context has a reference and a floating
image, direction adjoint and an interpolation other than SINC, `process` completes and the
image it produces is on the reference grid: it is the clone of the reference image refilled
with the voxel data of the resampled canonical output, so when the reference image is of
the canonical class the produced image has the dimension fields, the voxel spacing and the
voxel count of the reference image. -/
theorem C4_adjoint_output_on_reference_grid {O : Type} (X : Externals O) (e : Engine O)
    (ref flo : ImageData O) (hc : e.consistent)
    (href : e._reference_image_sptr = some ref) (hflo : e._floating_image_sptr = some flo)
    (hdir : e._transformation_direction = TransformationDirection.ADJOINT)
    (hi : e._interpolation_type ≠ InterpolationType.SINC) :
    (process X e).2 = none ∧
    ∃ out, (process X e).1._output_image_nifti_sptr = some out ∧
      (process X e).1._output_image_sptr = some (ImageData.fill X ref.clone out) ∧
      ∀ r, ref = ImageData.nifti r →
        ∃ o, (process X e).1._output_image_sptr = some (ImageData.nifti o) ∧
          o._nifti_image.data = out._nifti_image.data ∧
          o._nifti_image.ndim = r._nifti_image.ndim ∧ o._nifti_image.nx = r._nifti_image.nx ∧
          o._nifti_image.ny = r._nifti_image.ny ∧ o._nifti_image.nz = r._nifti_image.nz ∧
          o._nifti_image.nt = r._nifti_image.nt ∧ o._nifti_image.nu = r._nifti_image.nu ∧
          o._nifti_image.nv = r._nifti_image.nv ∧ o._nifti_image.nw = r._nifti_image.nw ∧
          o._nifti_image.dim = r._nifti_image.dim ∧ o._nifti_image.nvox = r._nifti_image.nvox ∧
          o._nifti_image.dx = r._nifti_image.dx ∧ o._nifti_image.dy = r._nifti_image.dy ∧
          o._nifti_image.dz = r._nifti_image.dz ∧ o._nifti_image.pixdim = r._nifti_image.pixdim := by
  obtain ⟨t, f, o, tr, iw, ow, hp, -, -, hproc⟩ := process_adjoint_eq X e ref flo hc href hflo
  have hproc := hproc hdir
  rw [if_neg hi] at hproc
  rw [hproc]
  refine ⟨rfl, _, rfl, rfl, ?_⟩
  intro r hr
  subst hr
  exact ⟨_, rfl, rfl, rfl, rfl, rfl, rfl, rfl, rfl, rfl, rfl, rfl, rfl, rfl, rfl, rfl, rfl⟩

/-- Claim C4 as amended, at a concrete fresh engine with linear interpolation. -/
theorem C4_adjoint_output_on_reference_grid_witness :
    (example_engine InterpolationType.LINEAR TransformationDirection.ADJOINT).consistent ∧
    (process example_externals
      (example_engine InterpolationType.LINEAR TransformationDirection.ADJOINT)).2 = none :=
  ⟨by decide, (C4_adjoint_output_on_reference_grid example_externals
    (example_engine InterpolationType.LINEAR TransformationDirection.ADJOINT)
    (.nifti (example_image 2 1 1 0)) (.nifti (example_image 1 1 1 7)) (by decide) rfl rfl rfl
    (by decide)).1⟩

/-- Claim C6.  On a consistent engine whose context has a reference and a floating image and
direction adjoint, `process` raises the unsupported-interpolation error exactly when the
interpolation kind is SINC; with any other kind (nearest, linear, cubic) it raises nothing
and runs the adjoint transform once. -/
theorem C6_sinc_unsupported_on_adjoint {O : Type} (X : Externals O) (e : Engine O)
    (ref flo : ImageData O) (hc : e.consistent)
    (href : e._reference_image_sptr = some ref) (hflo : e._floating_image_sptr = some flo)
    (hdir : e._transformation_direction = TransformationDirection.ADJOINT) :
    ((process X e).2 = some Exception.UnsupportedInterpolationError ↔
      e._interpolation_type = InterpolationType.SINC) ∧
    (e._interpolation_type ≠ InterpolationType.SINC →
      (process X e).2 = none ∧
      (adjoint_transforms (process X e).1.calls).length
        = (adjoint_transforms e.calls).length + 1) := by
  obtain ⟨t, f, o, tr, iw, ow, hp, -, -, hproc⟩ := process_adjoint_eq X e ref flo hc href hflo
  have hproc := hproc hdir
  by_cases hi : e._interpolation_type = InterpolationType.SINC
  · rw [hproc]
    simp [hi]
  · rw [hproc]
    simp [hi, after_adjoint, adjoint_transforms_append, hp.no_adjoint_transform]
    simp [adjoint_transforms, Call.adjoint_output]

/-- Claim C6 at a concrete fresh engine with cubic interpolation. -/
theorem C6_sinc_unsupported_on_adjoint_witness :
    (example_engine InterpolationType.CUBICSPLINE TransformationDirection.ADJOINT).consistent ∧
    (process example_externals
      (example_engine InterpolationType.CUBICSPLINE TransformationDirection.ADJOINT)).2 = none ∧
    (adjoint_transforms (process example_externals
      (example_engine InterpolationType.CUBICSPLINE TransformationDirection.ADJOINT)).1.calls).length
      = 1 :=
  ⟨by decide,
    ((C6_sinc_unsupported_on_adjoint example_externals
      (example_engine InterpolationType.CUBICSPLINE TransformationDirection.ADJOINT)
      (.nifti (example_image 2 1 1 0)) (.nifti (example_image 1 1 1 7)) (by decide) rfl rfl rfl).2
      (by decide)).1,
    ((C6_sinc_unsupported_on_adjoint example_externals
      (example_engine InterpolationType.CUBICSPLINE TransformationDirection.ADJOINT)
      (.nifti (example_image 2 1 1 0)) (.nifti (example_image 1 1 1 7)) (by decide) rfl rfl rfl).2
      (by decide)).2⟩

/-- Counterexample to claim C7 as stated.  A fresh engine (reference 2x1x1, floating 1x1x1,
no transformation) asked for the adjoint with SINC interpolation fails with the
unsupported-interpolation error, but only after set-up has run: the base and adjoint flags
went from set to cleared, an identity was appended to the empty transformation list, the
composer was run once, and a deformation field, a transformer and an output buffer now
exist. -/
theorem C7_counterexample :
    (process example_externals
      (example_engine InterpolationType.SINC TransformationDirection.ADJOINT)).2
      = some Exception.UnsupportedInterpolationError ∧
    (example_engine InterpolationType.SINC TransformationDirection.ADJOINT)._need_to_set_up = true ∧
    (process example_externals
      (example_engine InterpolationType.SINC TransformationDirection.ADJOINT)).1._need_to_set_up
      = false ∧
    (example_engine InterpolationType.SINC TransformationDirection.ADJOINT)._need_to_set_up_adjoint
      = true ∧
    (process example_externals (example_engine InterpolationType.SINC
      TransformationDirection.ADJOINT)).1._need_to_set_up_adjoint = false ∧
    (example_engine InterpolationType.SINC TransformationDirection.ADJOINT)._transformations.length
      = 0 ∧
    (process example_externals (example_engine InterpolationType.SINC
      TransformationDirection.ADJOINT)).1._transformations.length = 1 ∧
    (compositions
      (example_engine InterpolationType.SINC TransformationDirection.ADJOINT).calls).length = 0 ∧
    (compositions (process example_externals (example_engine InterpolationType.SINC
      TransformationDirection.ADJOINT)).1.calls).length = 1 ∧
    (example_engine InterpolationType.SINC
      TransformationDirection.ADJOINT)._deformation_sptr.isSome = false ∧
    (process example_externals (example_engine InterpolationType.SINC
      TransformationDirection.ADJOINT)).1._deformation_sptr.isSome = true ∧
    (process example_externals (example_engine InterpolationType.SINC
      TransformationDirection.ADJOINT)).1._adjoint_transformer_sptr.isSome = true ∧
    (process example_externals (example_engine InterpolationType.SINC
      TransformationDirection.ADJOINT)).1._output_image_nifti_sptr.isSome = true := by
  decide

/-- Claim C7, amended.  On a consistent engine whose context has a reference and a floating
image, `process` with direction adjoint and SINC interpolation fails with the
unsupported-interpolation error before the adjoint transform is run, but after the adjoint
set-up and the zero-filling of the output buffer: the state it leaves is the state `t` after
`set_up` and `set_up_adjoint`, with the output buffer overwritten by zeros.  In `t` the base
and adjoint flags are cleared; the reference and floating images, interpolation kind, padding
value, direction, forward flag and published output image are those before the call, and no
adjoint transform has been run.  If the base and adjoint flags were already cleared, `t` is
the state before the call (so flags, transformation list, deformation field, transformer and
weight images are unchanged and nothing is composed), and the zero-filled output buffer is
the only change. -/
theorem C7_sinc_error_after_set_up {O : Type} (X : Externals O) (e : Engine O)
    (ref flo : ImageData O) (hc : e.consistent)
    (href : e._reference_image_sptr = some ref) (hflo : e._floating_image_sptr = some flo)
    (hdir : e._transformation_direction = TransformationDirection.ADJOINT)
    (hsinc : e._interpolation_type = InterpolationType.SINC) :
    ∃ t output,
      (set_up_adjoint X (set_up X e).1).1 = t ∧ t._output_image_nifti_sptr = some output ∧
      process X e = ({ t with _output_image_nifti_sptr := some (output.fill float_zero) },
        some Exception.UnsupportedInterpolationError) ∧
      (output.fill float_zero)._nifti_image.all_zero ∧
      t._need_to_set_up = false ∧ t._need_to_set_up_adjoint = false ∧
      t._need_to_set_up_forward = e._need_to_set_up_forward ∧
      t._reference_image_sptr = e._reference_image_sptr ∧
      t._floating_image_sptr = e._floating_image_sptr ∧
      t._interpolation_type = e._interpolation_type ∧
      t._padding_value = e._padding_value ∧
      t._transformation_direction = e._transformation_direction ∧
      t._output_image_sptr = e._output_image_sptr ∧
      adjoint_transforms (process X e).1.calls = adjoint_transforms e.calls ∧
      (e._need_to_set_up = false → compositions (process X e).1.calls = compositions e.calls) ∧
      (e._need_to_set_up = false → e._need_to_set_up_adjoint = false → t = e) := by
  obtain ⟨t, f, o, tr, iw, ow, hp, ht, -, hproc⟩ := process_adjoint_eq X e ref flo hc href hflo
  have hproc := hproc hdir
  rw [if_pos hsinc] at hproc
  refine ⟨t, o, ht, hp.output_nifti, hproc, fill_zero_all_zero o, hp.need_to_set_up,
    hp.need_to_set_up_adjoint, hp.need_to_set_up_forward, hp.reference_image, hp.floating_image,
    hp.interpolation_type, hp.padding_value, hp.transformation_direction, hp.output_image, ?_, ?_,
    hp.same_if_ready⟩
  · rw [hproc]
    exact hp.no_adjoint_transform
  · intro h
    rw [hproc]
    exact hp.not_composed_if_ready h

/-- Claim C7 as amended, at a concrete fresh engine with SINC interpolation. -/
theorem C7_sinc_error_after_set_up_witness :
    (example_engine InterpolationType.SINC TransformationDirection.ADJOINT).consistent ∧
    (process example_externals
      (example_engine InterpolationType.SINC TransformationDirection.ADJOINT)).2
      = some Exception.UnsupportedInterpolationError ∧
    adjoint_transforms (process example_externals
      (example_engine InterpolationType.SINC TransformationDirection.ADJOINT)).1.calls = [] := by
  obtain ⟨t, o, -, -, hproc, -, -, -, -, -, -, -, -, -, -, hcalls, -, -⟩ :=
    C7_sinc_error_after_set_up example_externals
      (example_engine InterpolationType.SINC TransformationDirection.ADJOINT)
      (.nifti (example_image 2 1 1 0)) (.nifti (example_image 1 1 1 7)) (by decide) rfl rfl rfl rfl
  refine ⟨by decide, ?_, hcalls⟩
  rw [hproc]

/-- Claim C10.  In any engine state, whatever the output buffer held before, every output
image that `transformation_adjoint` hands to the adjoint transform has a buffer of zero
bytes, so each of its voxels is `0.f`, and at most one such call is made; on a consistent
engine with a reference and a floating image and an interpolation other than SINC exactly
one such call is made and nothing is raised. -/
theorem C10_adjoint_output_zeroed {O : Type} (X : Externals O) (e : Engine O) :
    (∃ l, adjoint_transforms (transformation_adjoint X e).1.calls = adjoint_transforms e.calls ++ l ∧
      l.length ≤ 1 ∧ ∀ w, w ∈ l → w.all_zero) ∧
    (∀ ref flo, e.consistent → e._reference_image_sptr = some ref →
      e._floating_image_sptr = some flo → e._interpolation_type ≠ InterpolationType.SINC →
      (transformation_adjoint X e).2 = none ∧
      ∃ w, adjoint_transforms (transformation_adjoint X e).1.calls
          = adjoint_transforms e.calls ++ [w] ∧ w.all_zero) := by
  refine ⟨adjoint_transforms_transformation_adjoint X e, ?_⟩
  intro ref flo hc href hflo hi
  obtain ⟨t, f, o, tr, iw, ow, hp, -, hta, -⟩ := process_adjoint_eq X e ref flo hc href hflo
  rw [if_neg hi] at hta
  rw [hta]
  refine ⟨rfl, (o.fill float_zero)._nifti_image, ?_, fill_zero_all_zero o⟩
  simp [after_adjoint, adjoint_transforms_append, hp.no_adjoint_transform]
  simp [adjoint_transforms, Call.adjoint_output]

/-- Claim C10 at a concrete fresh engine: the one output image handed over holds eight
zero bytes. -/
theorem C10_adjoint_output_zeroed_witness :
    (adjoint_transforms (transformation_adjoint example_externals
      (example_engine InterpolationType.LINEAR TransformationDirection.ADJOINT)).1.calls).map
        (fun w => w.data) = [some [0, 0, 0, 0, 0, 0, 0, 0]] ∧
    ∃ l, adjoint_transforms (transformation_adjoint example_externals
        (example_engine InterpolationType.LINEAR TransformationDirection.ADJOINT)).1.calls
        = adjoint_transforms
          (example_engine InterpolationType.LINEAR TransformationDirection.ADJOINT).calls ++ l ∧
      l.length ≤ 1 ∧ ∀ w, w ∈ l → w.all_zero :=
  ⟨rfl, (C10_adjoint_output_zeroed example_externals
    (example_engine InterpolationType.LINEAR TransformationDirection.ADJOINT)).1⟩

/-! ## Geometry reconciliation -/

theorem constructions_append {O : Type} (a b : List (Call O)) :
    constructions (a ++ b) = constructions a ++ constructions b := by
  simp [constructions]

theorem set_up_input_images_eq {O : Type} (X : Externals O) (e : Engine O) (ref flo : ImageData O)
    (href : e._reference_image_sptr = some ref) (hflo : e._floating_image_sptr = some flo) :
    set_up_input_images X e =
      ({ e with
          _reference_image_nifti_sptr := some (canonical X ref),
          _floating_image_nifti_sptr := some (canonical X flo),
          calls := e.calls ++ conversion_calls ref ++ conversion_calls flo }, none) := by
  cases ref <;> cases flo <;>
    simp [set_up_input_images, href, hflo, Outcome.andThen, dynamic_pointer_cast, canonical,
      conversion_calls]

/-- Claim C11.  Geometry reconciliation in `set_up_input_images`, separately for the
reference and for the floating image: a supplied image that is already of the canonical
class becomes the canonical view itself and no image is constructed for it; a supplied image
of another class gets a newly constructed canonical image, built from that supplied image,
as its canonical view.  The function raises nothing and touches nothing else. -/
theorem C11_geometry_reconciliation {O : Type} (X : Externals O) (e : Engine O)
    (ref flo : ImageData O)
    (href : e._reference_image_sptr = some ref) (hflo : e._floating_image_sptr = some flo) :
    (set_up_input_images X e).2 = none ∧
    (∀ im, ref = ImageData.nifti im →
      (set_up_input_images X e).1._reference_image_nifti_sptr = some im ∧
      ref ∉ constructions ((set_up_input_images X e).1.calls.drop e.calls.length)) ∧
    (∀ im, ref = ImageData.other im →
      (set_up_input_images X e).1._reference_image_nifti_sptr
        = some (X.NiftiImageData_from_ImageData ref) ∧
      ref ∈ constructions ((set_up_input_images X e).1.calls.drop e.calls.length)) ∧
    (∀ im, flo = ImageData.nifti im →
      (set_up_input_images X e).1._floating_image_nifti_sptr = some im ∧
      flo ∉ constructions ((set_up_input_images X e).1.calls.drop e.calls.length)) ∧
    (∀ im, flo = ImageData.other im →
      (set_up_input_images X e).1._floating_image_nifti_sptr
        = some (X.NiftiImageData_from_ImageData flo) ∧
      flo ∈ constructions ((set_up_input_images X e).1.calls.drop e.calls.length)) ∧
    (constructions ((set_up_input_images X e).1.calls.drop e.calls.length)).length
      = (if (dynamic_pointer_cast (some ref)).isNone then 1 else 0)
        + (if (dynamic_pointer_cast (some flo)).isNone then 1 else 0) ∧
    (set_up_input_images X e).1 =
      { (set_up_input_images X e).1 with
        _reference_image_sptr := e._reference_image_sptr,
        _floating_image_sptr := e._floating_image_sptr,
        _transformations := e._transformations,
        _interpolation_type := e._interpolation_type,
        _padding_value := e._padding_value,
        _transformation_direction := e._transformation_direction,
        _need_to_set_up := e._need_to_set_up,
        _need_to_set_up_forward := e._need_to_set_up_forward,
        _need_to_set_up_adjoint := e._need_to_set_up_adjoint,
        _output_image_sptr := e._output_image_sptr,
        _output_image_nifti_sptr := e._output_image_nifti_sptr,
        _deformation_sptr := e._deformation_sptr,
        _adjoint_transformer_sptr := e._adjoint_transformer_sptr,
        _adjoint_input_weights_sptr := e._adjoint_input_weights_sptr,
        _adjoint_output_weights_sptr := e._adjoint_output_weights_sptr } := by
  rw [set_up_input_images_eq X e ref flo href hflo]
  cases ref <;> cases flo <;>
    simp [canonical, conversion_calls, constructions, Call.constructed_from,
      dynamic_pointer_cast, List.append_assoc]

/-- Claim C11 at a concrete engine: a canonical reference image and a floating image of
another class; one canonical image is constructed, from the floating image. -/
theorem C11_geometry_reconciliation_witness :
    (set_up_input_images example_externals
      (Engine.fresh (some (.nifti (example_image 2 1 1 0))) (some (.other ())) []
        InterpolationType.LINEAR 0 TransformationDirection.FORWARD)).2 = none ∧
    (constructions (set_up_input_images example_externals
      (Engine.fresh (some (.nifti (example_image 2 1 1 0))) (some (.other ())) []
        InterpolationType.LINEAR 0 TransformationDirection.FORWARD)).1.calls).length = 1 :=
  ⟨(C11_geometry_reconciliation example_externals
      (Engine.fresh (some (.nifti (example_image 2 1 1 0))) (some (.other ())) []
        InterpolationType.LINEAR 0 TransformationDirection.FORWARD)
      (.nifti (example_image 2 1 1 0)) (.other ()) rfl rfl).1,
   (C11_geometry_reconciliation example_externals
      (Engine.fresh (some (.nifti (example_image 2 1 1 0))) (some (.other ())) []
        InterpolationType.LINEAR 0 TransformationDirection.FORWARD)
      (.nifti (example_image 2 1 1 0)) (.other ()) rfl rfl).2.2.2.2.2.1⟩


/-! ## Uniform buffers -/

theorem set_up_adjoint_eq {O : Type} (X : Externals O) (e : Engine O) (ref flo : ImageData O)
    (hc : e.consistent) (href : e._reference_image_sptr = some ref)
    (hflo : e._floating_image_sptr = some flo) (h2 : e._need_to_set_up_adjoint = true) :
    ∃ s deformation floating output,
      set_up X e = (s, none) ∧
      s._deformation_sptr = some deformation ∧ s._floating_image_nifti_sptr = some floating ∧
      s._output_image_nifti_sptr = some output ∧
      s._interpolation_type = e._interpolation_type ∧ s._padding_value = e._padding_value ∧
      set_up_adjoint X e = (after_set_up_adjoint s deformation floating output, none) ∧
      (e._need_to_set_up = true →
        floating = canonical X flo ∧
        output = { _nifti_image := set_up_output_image_ptr (canonical X ref) (canonical X flo) }) := by
  cases h0 : e._need_to_set_up with
  | true =>
    refine ⟨after_set_up X e ref flo,
      X.compose_single_deformation (effective_transformations e._transformations)
        (composition_grid X e._transformation_direction ref flo),
      canonical X flo,
      { _nifti_image := set_up_output_image_ptr (canonical X ref) (canonical X flo) },
      set_up_work X e ref flo h0 href hflo, rfl, rfl, rfl, rfl, rfl, ?_, fun _ => ⟨rfl, rfl⟩⟩
    simp [set_up_adjoint, h2, set_up_work X e ref flo h0 href hflo, Outcome.andThen]
    simp [after_set_up, after_set_up_adjoint, adjoint_transformer, NiftiImageData.clone,
      NiftiImageData.get_raw_nifti_sptr]
  | false =>
    obtain ⟨-, hf, ho, hd⟩ := hc.1 h0
    obtain ⟨floating, hf⟩ := Option.isSome_iff_exists.mp hf
    obtain ⟨output, ho⟩ := Option.isSome_iff_exists.mp ho
    obtain ⟨deformation, hd⟩ := Option.isSome_iff_exists.mp hd
    exact ⟨e, deformation, floating, output, set_up_skip X e h0, hd, hf, ho, rfl, rfl,
      set_up_adjoint_work X e deformation floating output h0 h2 hd hf ho, fun h => by simp at h⟩

/-- Claim C16.  When `set_up_adjoint` does its work on a consistent engine with a reference
and a floating image, it completes and the transformer it stores is configured from the
context and the cache: built on a copy of the canonical floating image, with one level and
with the voxel spacing `(dx, dy, dz)` of the composed deformation field as control-point
grid spacing; its parameters are the raw data of the deformation field (not displacements),
its interpolation kind and padding value are those of the context, and its deformation
vector field is the composed deformation field. -/
theorem C16_adjoint_transformer_configuration {O : Type} (X : Externals O) (e : Engine O)
    (ref flo : ImageData O) (hc : e.consistent)
    (href : e._reference_image_sptr = some ref) (hflo : e._floating_image_sptr = some flo)
    (h2 : e._need_to_set_up_adjoint = true) :
    (set_up_adjoint X e).2 = none ∧
    ∃ deformation floating transformer,
      (set_up_adjoint X e).1._deformation_sptr = some deformation ∧
      (set_up_adjoint X e).1._floating_image_nifti_sptr = some floating ∧
      (set_up_adjoint X e).1._adjoint_transformer_sptr = some transformer ∧
      (set_up_adjoint X e).1._need_to_set_up_adjoint = false ∧
      transformer.image = floating.clone.get_raw_nifti_sptr ∧
      transformer.num_levels = 1 ∧
      transformer.control_point_grid_spacing
        = [deformation.get_raw_nifti_sptr.dx, deformation.get_raw_nifti_sptr.dy,
           deformation.get_raw_nifti_sptr.dz] ∧
      transformer.parameters = some (deformation.get_raw_nifti_sptr.data, false) ∧
      transformer.interpolation = some e._interpolation_type ∧
      transformer.padding_value = some e._padding_value ∧
      transformer.dvf = some deformation.get_raw_nifti_sptr := by
  obtain ⟨s, d, f, o, -, hd, hf, -, hi, hp, heq, -⟩ := set_up_adjoint_eq X e ref flo hc href hflo h2
  rw [heq]
  refine ⟨rfl, d, f, adjoint_transformer s d f, hd, hf, rfl, rfl, rfl, rfl, rfl, rfl, ?_, ?_, rfl⟩
  · simp [adjoint_transformer, BSplineTransformation.setDVF, BSplineTransformation.SetPaddingValue,
      BSplineTransformation.SetParameters, BSplineTransformation.set_interpolation, hi]
  · simp [adjoint_transformer, BSplineTransformation.setDVF, BSplineTransformation.SetPaddingValue,
      hp]

/-- Claim C16 at a concrete fresh engine with cubic interpolation and padding 0. -/
theorem C16_adjoint_transformer_configuration_witness :
    (example_engine InterpolationType.CUBICSPLINE TransformationDirection.ADJOINT).consistent ∧
    (set_up_adjoint example_externals
      (example_engine InterpolationType.CUBICSPLINE TransformationDirection.ADJOINT)).2 = none :=
  ⟨by decide, (C16_adjoint_transformer_configuration example_externals
    (example_engine InterpolationType.CUBICSPLINE TransformationDirection.ADJOINT)
    (.nifti (example_image 2 1 1 0)) (.nifti (example_image 1 1 1 7)) (by decide) rfl rfl rfl).1⟩

theorem floating_arguments_append {O : Type} (a b : List (Call O)) :
    floating_arguments (a ++ b) = floating_arguments a ++ floating_arguments b := by
  simp [floating_arguments]

theorem floating_arguments_conversion_calls {O : Type} (im : ImageData O) :
    floating_arguments (conversion_calls im) = [] := by
  cases im <;> simp [floating_arguments, conversion_calls, Call.floating_argument]

theorem floating_arguments_after_set_up {O : Type} (X : Externals O) (e : Engine O)
    (ref flo : ImageData O) :
    floating_arguments (after_set_up X e ref flo).calls = floating_arguments e.calls := by
  simp [after_set_up, floating_arguments_append, floating_arguments_conversion_calls]
  simp [floating_arguments, Call.floating_argument]

theorem set_up_consistent {O : Type} (X : Externals O) (e : Engine O) (ref flo : ImageData O)
    (hc : e.consistent) (href : e._reference_image_sptr = some ref)
    (hflo : e._floating_image_sptr = some flo) :
    ∃ s, set_up X e = (s, none) ∧ s.consistent ∧ s._need_to_set_up = false ∧
      s._need_to_set_up_forward = e._need_to_set_up_forward ∧
      s._need_to_set_up_adjoint = e._need_to_set_up_adjoint ∧
      e.same_context s ∧ s._output_image_sptr = e._output_image_sptr ∧
      floating_arguments s.calls = floating_arguments e.calls ∧
      (e._need_to_set_up = true →
        s._reference_image_nifti_sptr = some (canonical X ref) ∧
        s._floating_image_nifti_sptr = some (canonical X flo)) ∧
      (e._need_to_set_up = false → s = e) := by
  cases h0 : e._need_to_set_up with
  | true =>
    refine ⟨after_set_up X e ref flo, set_up_work X e ref flo h0 href hflo, ?_, rfl, rfl, rfl,
      ⟨rfl, rfl, rfl, rfl, rfl⟩, rfl, ?_, fun _ => ⟨rfl, rfl⟩, fun h => by simp at h⟩
    · obtain ⟨-, hfwd, hadj⟩ := hc
      refine ⟨fun _ => ⟨rfl, rfl, rfl, rfl⟩, fun _ => rfl, fun h => ?_⟩
      have := (hadj h).1
      simp [h0] at this
    · exact floating_arguments_after_set_up X e ref flo
  | false =>
    exact ⟨e, set_up_skip X e h0, hc, h0, rfl, rfl, ⟨rfl, rfl, rfl, rfl, rfl⟩, rfl, rfl,
      fun h => by simp at h, fun _ => rfl⟩


theorem set_up_forward_consistent {O : Type} (X : Externals O) (s : Engine O)
    (h0 : s._need_to_set_up = false) :
    set_up_forward X s = ({ s with _need_to_set_up_forward := false }, none) := by
  cases h1 : s._need_to_set_up_forward with
  | true => simp [set_up_forward, h1, set_up_skip X s h0, Outcome.andThen]
  | false =>
    rw [set_up_forward_skip X s h1]
    cases s
    simp at h1
    simp [h1]

theorem process_forward_step {O : Type} (X : Externals O) (e : Engine O) (ref flo : ImageData O)
    (hc : e.consistent) (href : e._reference_image_sptr = some ref)
    (hflo : e._floating_image_sptr = some flo)
    (hdir : e._transformation_direction = TransformationDirection.FORWARD) :
    ProcessStep X e ref flo (process X e) := by
  obtain ⟨s, hs, hsc, hs0, hs1, hs2, hctx, hout, hfa, hfresh, hkept⟩ :=
    set_up_consistent X e ref flo hc href hflo
  obtain ⟨hr, hf, ho, hd⟩ := hsc.1 hs0
  obtain ⟨rimg, hr⟩ := Option.isSome_iff_exists.mp hr
  obtain ⟨f, hf⟩ := Option.isSome_iff_exists.mp hf
  obtain ⟨o, ho⟩ := Option.isSome_iff_exists.mp ho
  obtain ⟨d, hd⟩ := Option.isSome_iff_exists.mp hd
  obtain ⟨hc1, hc2, hc3, hc4, hc5⟩ := hctx
  have hsdir : s._transformation_direction = TransformationDirection.FORWARD := by
    rw [hc5]; exact hdir
  have hsref : s._reference_image_sptr = some ref := by rw [hc1]; exact href
  have hp : process X e = (after_ready_forward X { s with _need_to_set_up_forward := false } ref
      f o d, none) := by
    simp [process, hs, Outcome.andThen, hsdir, transformation_forward,
      set_up_forward_consistent X s hs0, hf, ho, hd, hsref, after_ready_forward,
      NiftiImageData.clone, NiftiImageData.get_raw_nifti_sptr, ImageData.clone]
  rw [hp]
  have hadj := hsc.2.2
  constructor
  · refine ⟨fun _ => ⟨?_, ?_, rfl, ?_⟩, fun _ => hs0, fun h => ?_⟩
    · simp [after_ready_forward, hr]
    · simp [after_ready_forward, hf]
    · simp [after_ready_forward, hd]
    · exact hadj h
  · exact ⟨hc1, hc2, hc3, hc4, hc5⟩
  · exact ⟨fun _ => hs0, fun _ => rfl, fun h => by
      show s._need_to_set_up_adjoint = false
      rw [hs2]; exact h⟩
  · exact hs0
  · simp [after_ready_forward, hd]
  · exact fun _ => ⟨rfl, hs2⟩
  · intro h
    rw [hdir] at h
    exact absurd h (by decide)
  · exact fun _ => rfl
  · intro h
    obtain ⟨h1, h2⟩ := hfresh h
    exact ⟨h1, h2⟩
  · intro h
    rw [hkept h]
    exact ⟨rfl, rfl⟩
  · intro _
    exact ⟨_, rfl, rfl⟩
  · refine ⟨f, hf, ?_⟩
    simp [after_ready_forward, floating_arguments_append, hfa, NiftiImageData.clone,
      NiftiImageData.get_raw_nifti_sptr]
    simp [floating_arguments, Call.floating_argument]


theorem set_up_adjoint_consistent {O : Type} (X : Externals O) (s : Engine O)
    (hc : s.consistent) (h0 : s._need_to_set_up = false) :
    ∃ t, set_up_adjoint X s = (t, none) ∧ t.consistent ∧ t._need_to_set_up = false ∧
      t._need_to_set_up_adjoint = false ∧
      t._need_to_set_up_forward = s._need_to_set_up_forward ∧ s.same_context t ∧
      t._reference_image_nifti_sptr = s._reference_image_nifti_sptr ∧
      t._floating_image_nifti_sptr = s._floating_image_nifti_sptr ∧
      t._deformation_sptr = s._deformation_sptr ∧
      t._output_image_sptr = s._output_image_sptr ∧ t.calls = s.calls := by
  cases h2 : s._need_to_set_up_adjoint with
  | false =>
    exact ⟨s, set_up_adjoint_skip X s h2, hc, h0, h2, rfl, ⟨rfl, rfl, rfl, rfl, rfl⟩, rfl, rfl,
      rfl, rfl, rfl⟩
  | true =>
    obtain ⟨hr, hf, ho, hd⟩ := hc.1 h0
    obtain ⟨f, hf⟩ := Option.isSome_iff_exists.mp hf
    obtain ⟨o, ho⟩ := Option.isSome_iff_exists.mp ho
    obtain ⟨d, hd⟩ := Option.isSome_iff_exists.mp hd
    refine ⟨after_set_up_adjoint s d f o, set_up_adjoint_work X s d f o h0 h2 hd hf ho, ?_, h0, rfl,
      rfl, ⟨rfl, rfl, rfl, rfl, rfl⟩, rfl, rfl, rfl, rfl, rfl⟩
    refine ⟨fun _ => ⟨hr, ?_, ?_, ?_⟩, hc.2.1, fun _ => ⟨h0, rfl, rfl, rfl⟩⟩
    · simp [after_set_up_adjoint, hf]
    · simp [after_set_up_adjoint, ho]
    · simp [after_set_up_adjoint, hd]

theorem process_adjoint_step {O : Type} (X : Externals O) (e : Engine O) (ref flo : ImageData O)
    (hc : e.consistent) (href : e._reference_image_sptr = some ref)
    (hflo : e._floating_image_sptr = some flo)
    (hdir : e._transformation_direction = TransformationDirection.ADJOINT) :
    ProcessStep X e ref flo (process X e) := by
  obtain ⟨s, hs, hsc, hs0, hs1, hs2, hctx, hout, hfa, hfresh, hkept⟩ :=
    set_up_consistent X e ref flo hc href hflo
  obtain ⟨t, ht, htc, ht0, ht2, ht1, htctx, htr, htf, htd, htout, htcalls⟩ :=
    set_up_adjoint_consistent X s hsc hs0
  obtain ⟨hr, hf, ho, hd⟩ := htc.1 ht0
  obtain ⟨-, htr2, hiw, how⟩ := htc.2.2 ht2
  obtain ⟨f, hf⟩ := Option.isSome_iff_exists.mp hf
  obtain ⟨o, ho⟩ := Option.isSome_iff_exists.mp ho
  obtain ⟨tr, htr2⟩ := Option.isSome_iff_exists.mp htr2
  obtain ⟨iw, hiw⟩ := Option.isSome_iff_exists.mp hiw
  obtain ⟨ow, how⟩ := Option.isSome_iff_exists.mp how
  obtain ⟨hc1, hc2, hc3, hc4, hc5⟩ := hctx
  obtain ⟨hd1, hd2, hd3, hd4, hd5⟩ := htctx
  have hsdir : ¬ s._transformation_direction = TransformationDirection.FORWARD := by
    rw [hc5, hdir]; decide
  have htref : t._reference_image_sptr = some ref := by rw [hd1, hc1]; exact href
  have hta := transformation_adjoint_of_set_up_adjoint X s t ht ht2
  have hready := transformation_adjoint_ready X t f o tr iw ow ht2 hf ho htr2 hiw how
  have hti : t._interpolation_type = e._interpolation_type := by rw [hd3, hc3]
  have hfat : floating_arguments t.calls = floating_arguments e.calls := by rw [htcalls, hfa]
  have hviews1 : e._need_to_set_up = true →
      t._reference_image_nifti_sptr = some (canonical X ref) ∧
      t._floating_image_nifti_sptr = some (canonical X flo) := by
    intro h
    rw [htr, htf]
    exact hfresh h
  have hviews2 : e._need_to_set_up = false →
      t._reference_image_nifti_sptr = e._reference_image_nifti_sptr ∧
      t._floating_image_nifti_sptr = e._floating_image_nifti_sptr := by
    intro h
    rw [htr, htf, hkept h]
    exact ⟨rfl, rfl⟩
  have hmono : e.flags_monotone t :=
    ⟨fun _ => ht0, fun h => by rw [ht1, hs1]; exact h, fun _ => ht2⟩
  have hctxt : e.same_context t :=
    ⟨by rw [hd1, hc1], by rw [hd2, hc2], hti, by rw [hd4, hc4], by rw [hd5, hc5]⟩
  by_cases hi : e._interpolation_type = InterpolationType.SINC
  · have htsinc : t._interpolation_type = InterpolationType.SINC := by rw [hti]; exact hi
    have hp : process X e = ({ t with _output_image_nifti_sptr := some (o.fill float_zero) },
        some Exception.UnsupportedInterpolationError) := by
      simp [process, hs, Outcome.andThen, hsdir, hta, hready, htsinc]
    rw [hp]
    constructor
    · exact ⟨fun _ => ⟨hr, by simp [hf], rfl, hd⟩, htc.2.1, htc.2.2⟩
    · exact hctxt
    · exact hmono
    · exact ht0
    · exact hd
    · intro h; rw [hdir] at h; exact absurd h (by decide)
    · exact fun _ => ⟨ht2, by rw [ht1, hs1]⟩
    · intro h
      rcases h with h | h
      · rw [hdir] at h; exact absurd h (by decide)
      · exact absurd hi h
    · exact hviews1
    · exact hviews2
    · intro h; simp at h
    · exact ⟨f, hf, by simpa using hfat⟩
  · have htsinc : ¬ t._interpolation_type = InterpolationType.SINC := by rw [hti]; exact hi
    have hp : process X e = ({ after_adjoint X t f o tr iw ow with
        _output_image_sptr := some (ImageData.fill X ref.clone
          { _nifti_image := (X.TransformImageAdjoint tr f._nifti_image iw._nifti_image
              (o.fill float_zero)._nifti_image ow._nifti_image).warped }) }, none) := by
      simp [process, hs, Outcome.andThen, hsdir, hta, hready, htsinc, after_adjoint, htref]
    rw [hp]
    constructor
    · refine ⟨fun _ => ⟨hr, ?_, rfl, hd⟩, htc.2.1, fun _ => ⟨ht0, ?_, ?_, rfl⟩⟩
      · simp [after_adjoint, hf]
      · simp [after_adjoint, htr2]
      · simp [after_adjoint, hiw]
    · exact hctxt
    · exact hmono
    · exact ht0
    · exact hd
    · intro h; rw [hdir] at h; exact absurd h (by decide)
    · exact fun _ => ⟨ht2, by
        show t._need_to_set_up_forward = e._need_to_set_up_forward
        rw [ht1, hs1]⟩
    · exact fun _ => rfl
    · exact hviews1
    · exact hviews2
    · exact fun _ => ⟨_, rfl, rfl⟩
    · refine ⟨f, hf, ?_⟩
      simp [after_adjoint, floating_arguments_append, hfat, NiftiImageData.clone,
        NiftiImageData.get_raw_nifti_sptr]
      simp [floating_arguments, Call.floating_argument]

theorem process_step {O : Type} (X : Externals O) (e : Engine O) (ref flo : ImageData O)
    (hc : e.consistent) (href : e._reference_image_sptr = some ref)
    (hflo : e._floating_image_sptr = some flo) :
    ProcessStep X e ref flo (process X e) := by
  cases hdir : e._transformation_direction with
  | FORWARD => exact process_forward_step X e ref flo hc href hflo hdir
  | ADJOINT => exact process_adjoint_step X e ref flo hc href hflo hdir


/-! ## Frame and cache-state claims -/

theorem process_n_invariant {O : Type} (X : Externals O) (e : Engine O) (ref flo : ImageData O)
    (hc : e.consistent) (href : e._reference_image_sptr = some ref)
    (hflo : e._floating_image_sptr = some flo) (n : Nat) :
    (process_n X n e).1.consistent ∧ e.same_context (process_n X n e).1 ∧
    e.flags_monotone (process_n X n e).1 ∧
    (e._transformation_direction = TransformationDirection.FORWARD ∨
      e._interpolation_type ≠ InterpolationType.SINC → (process_n X n e).2 = none) := by
  induction n with
  | zero => exact ⟨hc, ⟨rfl, rfl, rfl, rfl, rfl⟩, ⟨id, id, id⟩, fun _ => rfl⟩
  | succ n ih =>
    obtain ⟨ihc, ⟨c1, c2, c3, c4, c5⟩, ⟨m0, m1, m2⟩, ihok⟩ := ih
    rcases hr : process_n X n e with ⟨s, _ | x⟩
    · rw [hr] at ihc c1 c2 c3 c4 c5 m0 m1 m2
      have hstep := process_step X s ref flo ihc (by rw [c1]; exact href) (by rw [c2]; exact hflo)
      obtain ⟨d1, d2, d3, d4, d5⟩ := hstep.context
      obtain ⟨k0, k1, k2⟩ := hstep.monotone
      have hp : process_n X (n + 1) e = process X s := by
        simp [process_n, hr, Outcome.andThen]
      rw [hp]
      refine ⟨hstep.consistent, ⟨by rw [d1, c1], by rw [d2, c2], by rw [d3, c3], by rw [d4, c4],
        by rw [d5, c5]⟩, ⟨fun h => k0 (m0 h), fun h => k1 (m1 h), fun h => k2 (m2 h)⟩, ?_⟩
      intro h
      apply hstep.completes
      rw [c5, c3]
      exact h
    · have hp : process_n X (n + 1) e = (s, some x) := by
        simp [process_n, hr, Outcome.andThen]
      rw [hr] at ihc c1 c2 c3 c4 c5 m0 m1 m2 ihok
      rw [hp]
      refine ⟨ihc, ⟨c1, c2, c3, c4, c5⟩, ⟨m0, m1, m2⟩, ?_⟩
      intro h
      have := ihok h
      simp at this

/-- Claim C15.  Cache-state invariant.  Start from an engine whose three need-to-set-up flags
are set and whose context has a reference and a floating image, and make any number of
`process` calls without touching the context.  In every state so reached: if the forward flag
or the adjoint flag is cleared then the base flag is cleared and a composed deformation field
is present; the next call sets no flag that is cleared; and as long as the direction is
forward or the interpolation is not SINC every call completes normally.  A first adjoint call
(interpolation not SINC) completes and clears the base and adjoint flags but leaves the
forward flag set. -/
theorem C15_cache_state_invariant {O : Type} (X : Externals O) (e : Engine O)
    (ref flo : ImageData O)
    (h0 : e._need_to_set_up = true) (h1 : e._need_to_set_up_forward = true)
    (h2 : e._need_to_set_up_adjoint = true)
    (href : e._reference_image_sptr = some ref) (hflo : e._floating_image_sptr = some flo) :
    (∀ n,
      ((process_n X n e).1._need_to_set_up_forward = false ∨
        (process_n X n e).1._need_to_set_up_adjoint = false →
        (process_n X n e).1._need_to_set_up = false ∧
        (process_n X n e).1._deformation_sptr.isSome = true) ∧
      ((process_n X n e).1._need_to_set_up = false →
        (process_n X (n + 1) e).1._need_to_set_up = false) ∧
      ((process_n X n e).1._need_to_set_up_forward = false →
        (process_n X (n + 1) e).1._need_to_set_up_forward = false) ∧
      ((process_n X n e).1._need_to_set_up_adjoint = false →
        (process_n X (n + 1) e).1._need_to_set_up_adjoint = false) ∧
      (e._transformation_direction = TransformationDirection.FORWARD ∨
        e._interpolation_type ≠ InterpolationType.SINC → (process_n X n e).2 = none)) ∧
    (e._transformation_direction = TransformationDirection.ADJOINT →
      e._interpolation_type ≠ InterpolationType.SINC →
      (process X e).2 = none ∧ (process X e).1._need_to_set_up = false ∧
      (process X e).1._need_to_set_up_adjoint = false ∧
      (process X e).1._need_to_set_up_forward = true) := by
  have hc : e.consistent := by
    refine ⟨fun h => ?_, fun h => ?_, fun h => ?_⟩
    · rw [h0] at h; exact absurd h (by decide)
    · rw [h1] at h; exact absurd h (by decide)
    · rw [h2] at h; exact absurd h (by decide)
  constructor
  · intro n
    obtain ⟨ihc, ⟨c1, c2, c3, c4, c5⟩, -, ihok⟩ := process_n_invariant X e ref flo hc href hflo n
    refine ⟨?_, ?_, ?_, ?_, ihok⟩
    · intro h
      have hbase : (process_n X n e).1._need_to_set_up = false := by
        rcases h with h | h
        · exact ihc.2.1 h
        · exact (ihc.2.2 h).1
      exact ⟨hbase, (ihc.1 hbase).2.2.2⟩
    all_goals
      rcases hr : process_n X n e with ⟨s, _ | x⟩
      · rw [hr] at ihc c1 c2
        have hstep := process_step X s ref flo ihc (by rw [c1]; exact href) (by rw [c2]; exact hflo)
        have hp : process_n X (n + 1) e = process X s := by
          simp [process_n, hr, Outcome.andThen]
        rw [hp]
        first
          | exact hstep.monotone.1
          | exact hstep.monotone.2.1
          | exact hstep.monotone.2.2
      · have hp : process_n X (n + 1) e = (s, some x) := by
          simp [process_n, hr, Outcome.andThen]
        rw [hp]
        exact id
  · intro hdir hi
    have hstep := process_step X e ref flo hc href hflo
    obtain ⟨a1, a2⟩ := hstep.adjoint_flags hdir
    exact ⟨hstep.completes (Or.inr hi), hstep.base_cleared, a1, by rw [a2]; exact h1⟩

/-- Claim C15 at a concrete fresh engine in the adjoint direction, after three calls. -/
theorem C15_cache_state_invariant_witness :
    (example_engine InterpolationType.LINEAR TransformationDirection.ADJOINT)._need_to_set_up
      = true ∧
    (process_n example_externals 3
      (example_engine InterpolationType.LINEAR TransformationDirection.ADJOINT)).2 = none ∧
    (process_n example_externals 3 (example_engine InterpolationType.LINEAR
      TransformationDirection.ADJOINT)).1._need_to_set_up_forward = true ∧
    (process_n example_externals 3 (example_engine InterpolationType.LINEAR
      TransformationDirection.ADJOINT)).1._need_to_set_up_adjoint = false :=
  ⟨rfl, ((C15_cache_state_invariant example_externals
    (example_engine InterpolationType.LINEAR TransformationDirection.ADJOINT)
    (.nifti (example_image 2 1 1 0)) (.nifti (example_image 1 1 1 7)) rfl rfl rfl rfl rfl).1 3
      ).2.2.2.2 (Or.inr (by decide)), by decide, by decide⟩


/-! ## Counted loops -/

theorem count_loop_zero {σ : Type} (body : Nat → σ → σ) (s : σ) : count_loop 0 body s = s := rfl

theorem count_loop_succ {σ : Type} (n : Nat) (body : Nat → σ → σ) (s : σ) :
    count_loop (n + 1) body s = body n (count_loop n body s) := by
  simp [count_loop, List.range_succ, List.foldl_append]

theorem count_loop_congr {σ : Type} (n : Nat) (b1 b2 : Nat → σ → σ) (s : σ)
    (h : ∀ k, k < n → ∀ t, b1 k t = b2 k t) : count_loop n b1 s = count_loop n b2 s := by
  induction n with
  | zero => rfl
  | succ n ih =>
    rw [count_loop_succ, count_loop_succ, ih (fun k hk t => h k (by omega) t), h n (by omega)]

theorem count_loop_add {σ : Type} (m n : Nat) (body : Nat → σ → σ) (s : σ) :
    count_loop (m + n) body s = count_loop n (fun k => body (m + k)) (count_loop m body s) := by
  induction n with
  | zero => rfl
  | succ n ih =>
    rw [← Nat.add_assoc, count_loop_succ, count_loop_succ, ih]

theorem count_loop_mul {σ : Type} (a b : Nat) (g : Nat → Nat → σ → σ) (s : σ) :
    count_loop a (fun i t => count_loop b (fun j u => g i j u) t) s
      = count_loop (a * b) (fun k t => g (k / b) (k % b) t) s := by
  induction a with
  | zero => simp [count_loop_zero]
  | succ a ih =>
    rw [count_loop_succ, ih, Nat.succ_mul, count_loop_add]
    apply count_loop_congr
    intro k hk t
    have hb : 0 < b := by omega
    have h1 : (a * b + k) / b = a := by
      rw [Nat.add_comm, Nat.add_mul_div_right _ _ hb, Nat.div_eq_of_lt hk]
      omega
    have h2 : (a * b + k) % b = k := by
      rw [Nat.add_comm, Nat.add_mul_mod_self_right, Nat.mod_eq_of_lt hk]
    rw [h1, h2]

theorem count_loop_mul_mul {σ : Type} (a b c : Nat) (g : Nat → Nat → Nat → σ → σ) (s : σ) :
    count_loop a (fun i t => count_loop b (fun j u => count_loop c (fun k v => g i j k v) u) t) s
      = count_loop (a * (b * c))
          (fun n t => g (n / (b * c)) (n % (b * c) / c) (n % (b * c) % c) t) s := by
  have h : ∀ i, ∀ t, count_loop b (fun j u => count_loop c (fun k v => g i j k v) u) t
      = count_loop (b * c) (fun m u => g i (m / c) (m % c) u) t := by
    intro i t
    exact count_loop_mul b c (fun j k v => g i j k v) t
  rw [count_loop_congr a _ (fun i t => count_loop (b * c) (fun m u => g i (m / c) (m % c) u) t) s
    (fun i _ t => h i t)]
  exact count_loop_mul a (b * c) (fun i m u => g i (m / c) (m % c) u) s


/-! ## The flat image buffer -/

theorem storage_index_injective (mn : Coordinate3D) (ny nx j k : Nat)
    (h : storage_index mn ny nx j = storage_index mn ny nx k) : j = k := by
  simp only [storage_index, Prod.mk.injEq, add_right_inj, Nat.cast_inj] at h
  obtain ⟨h1, h2, h3⟩ := h
  have hj := Nat.div_add_mod j (ny * nx)
  have hk := Nat.div_add_mod k (ny * nx)
  have hj2 := Nat.div_add_mod (j % (ny * nx)) nx
  have hk2 := Nat.div_add_mod (k % (ny * nx)) nx
  rw [h2, h3] at hj2
  have hr : j % (ny * nx) = k % (ny * nx) := by omega
  rw [h1, hr] at hj
  omega

theorem storage_index_flat_offset (mn : Coordinate3D) (ny nx : Nat) (z y x : Int)
    (hz : mn.z ≤ z) (hy : mn.y ≤ y) (hy2 : y < mn.y + ny) (hx : mn.x ≤ x) (hx2 : x < mn.x + nx) :
    storage_index mn ny nx (flat_offset mn ny nx z y x) = (z, y, x) := by
  obtain ⟨a, ha⟩ : ∃ a : Nat, z - mn.z = a := ⟨(z - mn.z).toNat, by omega⟩
  obtain ⟨b, hb⟩ : ∃ b : Nat, y - mn.y = b := ⟨(y - mn.y).toNat, by omega⟩
  obtain ⟨c, hc⟩ : ∃ c : Nat, x - mn.x = c := ⟨(x - mn.x).toNat, by omega⟩
  have hb2 : b < ny := by omega
  have hc2 : c < nx := by omega
  have hnx : 0 < nx := by omega
  have hlt : b * nx + c < ny * nx := by
    calc b * nx + c < b * nx + nx := by omega
      _ = (b + 1) * nx := by ring
      _ ≤ ny * nx := Nat.mul_le_mul_right nx (by omega)
  have hoff : flat_offset mn ny nx z y x = a * (ny * nx) + (b * nx + c) := by
    simp only [flat_offset, ha, hb, hc, Int.toNat_ofNat]
    ring
  have hdiv : (a * (ny * nx) + (b * nx + c)) / (ny * nx) = a := by
    rw [Nat.add_comm, Nat.add_mul_div_right _ _ (by omega), Nat.div_eq_of_lt hlt]
    omega
  have hmod : (a * (ny * nx) + (b * nx + c)) % (ny * nx) = b * nx + c := by
    rw [Nat.add_comm, Nat.add_mul_mod_self_right, Nat.mod_eq_of_lt hlt]
  have hdiv2 : (b * nx + c) / nx = b := by
    rw [Nat.add_comm, Nat.add_mul_div_right _ _ hnx, Nat.div_eq_of_lt hc2]
    omega
  have hmod2 : (b * nx + c) % nx = c := by
    rw [Nat.add_comm, Nat.add_mul_mod_self_right, Nat.mod_eq_of_lt hc2]
  simp only [storage_index, hoff, hdiv, hmod, hdiv2, hmod2, Prod.mk.injEq]
  omega

theorem flat_offset_lt (mn : Coordinate3D) (nz ny nx : Nat) (z y x : Int)
    (hz : mn.z ≤ z) (hz2 : z < mn.z + nz) (hy : mn.y ≤ y) (hy2 : y < mn.y + ny)
    (hx : mn.x ≤ x) (hx2 : x < mn.x + nx) :
    flat_offset mn ny nx z y x < nz * (ny * nx) := by
  obtain ⟨a, ha⟩ : ∃ a : Nat, z - mn.z = a := ⟨(z - mn.z).toNat, by omega⟩
  obtain ⟨b, hb⟩ : ∃ b : Nat, y - mn.y = b := ⟨(y - mn.y).toNat, by omega⟩
  obtain ⟨c, hc⟩ : ∃ c : Nat, x - mn.x = c := ⟨(x - mn.x).toNat, by omega⟩
  have ha2 : a < nz := by omega
  have hb2 : b < ny := by omega
  have hc2 : c < nx := by omega
  simp only [flat_offset, ha, hb, hc, Int.toNat_ofNat]
  calc (a * ny + b) * nx + c < (a * ny + b) * nx + nx := by omega
    _ = (a * ny + (b + 1)) * nx := by ring
    _ ≤ (a * ny + ny) * nx := Nat.mul_le_mul_right nx (by omega)
    _ = (a + 1) * (ny * nx) := by ring
    _ ≤ nz * (ny * nx) := Nat.mul_le_mul_right _ (by omega)


theorem cSTIR_setImageData_flat {F D : Type} (to_float : D → F) (image : Image3DF F)
    (mn mx : Coordinate3D) (hreg : image.get_regular_range = some (mn, mx)) (data : List D) :
    cSTIR_setImageData to_float (some image) data =
      some (count_loop ((mx.z + 1 - mn.z).toNat * ((mx.y + 1 - mn.y).toNat * (mx.x + 1 - mn.x).toNat))
        (fun n (st : Image3DF F × Nat) =>
          (match data[st.2]? with
           | some d =>
             st.1.set_voxel (storage_index mn (mx.y + 1 - mn.y).toNat (mx.x + 1 - mn.x).toNat n).1
               (storage_index mn (mx.y + 1 - mn.y).toNat (mx.x + 1 - mn.x).toNat n).2.1
               (storage_index mn (mx.y + 1 - mn.y).toNat (mx.x + 1 - mn.x).toNat n).2.2 (to_float d)
           | none => st.1, st.2 + 1)) (image, 0)).1 := by
  simp only [cSTIR_setImageData, hreg, for_range]
  rw [count_loop_mul_mul _ _ _ (fun a b c (st : Image3DF F × Nat) =>
    (match data[st.2]? with
     | some d => st.1.set_voxel (mn.z + (a : Int)) (mn.y + (b : Int)) (mn.x + (c : Int)) (to_float d)
     | none => st.1, st.2 + 1))]
  rfl

theorem cSTIR_getImageData_flat {F D : Type} (to_double : F → D) (image : Image3DF F)
    (mn mx : Coordinate3D) (hreg : image.get_regular_range = some (mn, mx)) (data : List D) :
    cSTIR_getImageData to_double (some image) data =
      (count_loop ((mx.z + 1 - mn.z).toNat * ((mx.y + 1 - mn.y).toNat * (mx.x + 1 - mn.x).toNat))
        (fun n (st : List D × Nat) =>
          (st.1.set st.2 (to_double (image.voxel
            (storage_index mn (mx.y + 1 - mn.y).toNat (mx.x + 1 - mn.x).toNat n).1
            (storage_index mn (mx.y + 1 - mn.y).toNat (mx.x + 1 - mn.x).toNat n).2.1
            (storage_index mn (mx.y + 1 - mn.y).toNat (mx.x + 1 - mn.x).toNat n).2.2)), st.2 + 1))
        (data, 0)).1 := by
  simp only [cSTIR_getImageData, hreg, for_range]
  rw [count_loop_mul_mul _ _ _ (fun a b c (st : List D × Nat) =>
    (st.1.set st.2 (to_double (image.voxel (mn.z + (a : Int)) (mn.y + (b : Int))
      (mn.x + (c : Int)))), st.2 + 1))]
  rfl

theorem set_loop_invariant {F D : Type} (to_float : D → F) (image : Image3DF F)
    (idx : Nat → Int × Int × Int) (hinj : ∀ j k, idx j = idx k → j = k) (data : List D) (n : Nat)
    (hn : n ≤ data.length) :
    (count_loop n (fun k (st : Image3DF F × Nat) =>
        (match data[st.2]? with
         | some d => st.1.set_voxel (idx k).1 (idx k).2.1 (idx k).2.2 (to_float d)
         | none => st.1, st.2 + 1)) (image, 0)).2 = n ∧
    (count_loop n (fun k (st : Image3DF F × Nat) =>
        (match data[st.2]? with
         | some d => st.1.set_voxel (idx k).1 (idx k).2.1 (idx k).2.2 (to_float d)
         | none => st.1, st.2 + 1)) (image, 0)).1.index_range = image.index_range ∧
    (count_loop n (fun k (st : Image3DF F × Nat) =>
        (match data[st.2]? with
         | some d => st.1.set_voxel (idx k).1 (idx k).2.1 (idx k).2.2 (to_float d)
         | none => st.1, st.2 + 1)) (image, 0)).1.origin = image.origin ∧
    (count_loop n (fun k (st : Image3DF F × Nat) =>
        (match data[st.2]? with
         | some d => st.1.set_voxel (idx k).1 (idx k).2.1 (idx k).2.2 (to_float d)
         | none => st.1, st.2 + 1)) (image, 0)).1.grid_spacing = image.grid_spacing ∧
    (∀ k, k < n → (data[k]?).map to_float = some
      ((count_loop n (fun k (st : Image3DF F × Nat) =>
        (match data[st.2]? with
         | some d => st.1.set_voxel (idx k).1 (idx k).2.1 (idx k).2.2 (to_float d)
         | none => st.1, st.2 + 1)) (image, 0)).1.voxel (idx k).1 (idx k).2.1 (idx k).2.2)) ∧
    (∀ z y x, (∀ k, k < n → idx k ≠ (z, y, x)) →
      (count_loop n (fun k (st : Image3DF F × Nat) =>
        (match data[st.2]? with
         | some d => st.1.set_voxel (idx k).1 (idx k).2.1 (idx k).2.2 (to_float d)
         | none => st.1, st.2 + 1)) (image, 0)).1.voxel z y x = image.voxel z y x) := by
  induction n with
  | zero =>
    refine ⟨rfl, rfl, rfl, rfl, fun k hk => by omega, fun _ _ _ _ => rfl⟩
  | succ n ih =>
    obtain ⟨h1, h2, h3, h4, h5, h6⟩ := ih (by omega)
    obtain ⟨d, hd⟩ : ∃ d, data[n]? = some d := by
      rw [List.getElem?_eq_getElem (by omega)]
      exact ⟨_, rfl⟩
    rw [count_loop_succ]
    simp only [h1, hd]
    refine ⟨trivial, h2, h3, h4, ?_, ?_⟩
    · intro k hk
      by_cases hkn : k = n
      · subst hkn
        simp [hd, Image3DF.set_voxel]
      · have hne : idx k ≠ idx n := fun h => hkn (hinj k n h)
        have hne2 : ¬ ((idx k).1 = (idx n).1 ∧ (idx k).2.1 = (idx n).2.1 ∧
            (idx k).2.2 = (idx n).2.2) := by
          intro ⟨a, b, c⟩
          exact hne (Prod.ext a (Prod.ext b c))
        simp only [Image3DF.set_voxel, hne2, if_false]
        exact h5 k (by omega)
    · intro z y x hne
      have hne2 : ¬ (z = (idx n).1 ∧ y = (idx n).2.1 ∧ x = (idx n).2.2) := by
        intro ⟨a, b, c⟩
        exact hne n (by omega) (by rw [a, b, c])
      simp only [Image3DF.set_voxel, hne2, if_false]
      exact h6 z y x (fun k hk => hne k (by omega))

theorem get_loop_invariant {D : Type} (value : Nat → D) (data : List D) (n : Nat) :
    (count_loop n (fun k (st : List D × Nat) => (st.1.set st.2 (value k), st.2 + 1)) (data, 0)).2 = n ∧
    (count_loop n (fun k (st : List D × Nat) => (st.1.set st.2 (value k), st.2 + 1))
      (data, 0)).1.length = data.length ∧
    ∀ j, (count_loop n (fun k (st : List D × Nat) => (st.1.set st.2 (value k), st.2 + 1))
      (data, 0)).1[j]? = if j < n ∧ j < data.length then some (value j) else data[j]? := by
  induction n with
  | zero => exact ⟨rfl, rfl, fun j => by simp [count_loop_zero]⟩
  | succ n ih =>
    obtain ⟨h1, h2, h3⟩ := ih
    rw [count_loop_succ]
    simp only [h1]
    refine ⟨trivial, by simp [h2], ?_⟩
    intro j
    rw [List.getElem?_set, h2, h3]
    by_cases hj : n = j
    · subst hj
      by_cases hl : n < data.length
      · simp [hl]
      · simp [hl, List.getElem?_eq_none (Nat.le_of_not_lt hl)]
    · by_cases hjn : j < n
      · have : j < n + 1 := by omega
        simp [hj, hjn, this]
      · have : ¬ j < n + 1 := by omega
        simp [hj, hjn, this]


/-- Counterexample to claim C18 as stated.  On a one-voxel image, writing the `double` array
`[16777217.0]` with `cSTIR_setImageData` and reading it back with `cSTIR_getImageData`
returns `[16777216.0]`: the voxels are `float`, and `2^24 + 1` has no `float`
representation. -/
theorem C18_counterexample :
    example_voxel_image.get_regular_range = some (⟨0, 0, 0⟩, ⟨0, 0, 0⟩) ∧
    cSTIR_getImageData float_to_double
      (cSTIR_setImageData double_to_float (some example_voxel_image) [16777217]) [0]
      = [16777216] ∧
    (16777216 : Int) ≠ 16777217 := by
  decide

/-- Claim C18, amended.  For an image with the regular index range `[zmin..zmax] x
[ymin..ymax] x [xmin..xmax]` and a data array of length `nz * ny * nx`,
`cSTIR_setImageData` stores in voxel `(z, y, x)` the element at index `((z - zmin) * ny +
(y - ymin)) * nx + (x - xmin)` converted to `float`, keeps the index range and geometry, and
`cSTIR_getImageData` writes voxel `(z, y, x)` to that same index (`z` slowest, `x` fastest);
so writing an array and reading it back returns each element converted to `float` and back
to `double`, which is the array itself exactly when every element survives that conversion.
For an image without a regular range both functions leave the image and the array as they
are. -/
theorem C18_flat_buffer_round_trip {F D : Type} (to_float : D → F) (to_double : F → D)
    (image : Image3DF F) (mn mx : Coordinate3D)
    (hreg : image.get_regular_range = some (mn, mx)) (data buffer : List D)
    (hdata : data.length
      = (mx.z + 1 - mn.z).toNat * ((mx.y + 1 - mn.y).toNat * (mx.x + 1 - mn.x).toNat))
    (hbuffer : buffer.length = data.length) :
    (∃ written, cSTIR_setImageData to_float (some image) data = some written ∧
      written.index_range = image.index_range ∧ written.origin = image.origin ∧
      written.grid_spacing = image.grid_spacing ∧
      ∀ z y x, mn.z ≤ z → z ≤ mx.z → mn.y ≤ y → y ≤ mx.y → mn.x ≤ x → x ≤ mx.x →
        (data[flat_offset mn (mx.y + 1 - mn.y).toNat (mx.x + 1 - mn.x).toNat z y x]?).map to_float
          = some (written.voxel z y x)) ∧
    (∀ z y x, mn.z ≤ z → z ≤ mx.z → mn.y ≤ y → y ≤ mx.y → mn.x ≤ x → x ≤ mx.x →
      (cSTIR_getImageData to_double (some image) buffer)[
        flat_offset mn (mx.y + 1 - mn.y).toNat (mx.x + 1 - mn.x).toNat z y x]?
        = some (to_double (image.voxel z y x))) ∧
    cSTIR_getImageData to_double (cSTIR_setImageData to_float (some image) data) buffer
      = data.map (fun d => to_double (to_float d)) ∧
    ((∀ d, d ∈ data → to_double (to_float d) = d) →
      cSTIR_getImageData to_double (cSTIR_setImageData to_float (some image) data) buffer = data) ∧
    (∀ other : Image3DF F, other.get_regular_range = none →
      cSTIR_setImageData to_float (some other) data = some other ∧
      cSTIR_getImageData to_double (some other) buffer = buffer) := by
  have hset := cSTIR_setImageData_flat to_float image mn mx hreg data
  obtain ⟨-, i2, i3, i4, i5, -⟩ := set_loop_invariant to_float image
    (storage_index mn (mx.y + 1 - mn.y).toNat (mx.x + 1 - mn.x).toNat)
    (fun j k h => storage_index_injective mn _ _ j k h) data
    ((mx.z + 1 - mn.z).toNat * ((mx.y + 1 - mn.y).toNat * (mx.x + 1 - mn.x).toNat))
    (by omega)
  have hoff : ∀ z y x, mn.z ≤ z → z ≤ mx.z → mn.y ≤ y → y ≤ mx.y → mn.x ≤ x → x ≤ mx.x →
      flat_offset mn (mx.y + 1 - mn.y).toNat (mx.x + 1 - mn.x).toNat z y x
        < (mx.z + 1 - mn.z).toNat * ((mx.y + 1 - mn.y).toNat * (mx.x + 1 - mn.x).toNat) ∧
      storage_index mn (mx.y + 1 - mn.y).toNat (mx.x + 1 - mn.x).toNat
        (flat_offset mn (mx.y + 1 - mn.y).toNat (mx.x + 1 - mn.x).toNat z y x) = (z, y, x) := by
    intro z y x h1 h2 h3 h4 h5 h6
    exact ⟨flat_offset_lt mn _ _ _ z y x h1 (by omega) h3 (by omega) h5 (by omega),
      storage_index_flat_offset mn _ _ z y x h1 h3 (by omega) h5 (by omega)⟩
  have hget : ∀ (im : Image3DF F), im.get_regular_range = some (mn, mx) → ∀ j,
      (cSTIR_getImageData to_double (some im) buffer)[j]? =
        if j < (mx.z + 1 - mn.z).toNat * ((mx.y + 1 - mn.y).toNat * (mx.x + 1 - mn.x).toNat)
        then some (to_double (im.voxel
          (storage_index mn (mx.y + 1 - mn.y).toNat (mx.x + 1 - mn.x).toNat j).1
          (storage_index mn (mx.y + 1 - mn.y).toNat (mx.x + 1 - mn.x).toNat j).2.1
          (storage_index mn (mx.y + 1 - mn.y).toNat (mx.x + 1 - mn.x).toNat j).2.2))
        else none := by
    intro im him j
    rw [cSTIR_getImageData_flat to_double im mn mx him buffer]
    obtain ⟨-, -, g3⟩ := get_loop_invariant (fun n => to_double (im.voxel
      (storage_index mn (mx.y + 1 - mn.y).toNat (mx.x + 1 - mn.x).toNat n).1
      (storage_index mn (mx.y + 1 - mn.y).toNat (mx.x + 1 - mn.x).toNat n).2.1
      (storage_index mn (mx.y + 1 - mn.y).toNat (mx.x + 1 - mn.x).toNat n).2.2)) buffer
      ((mx.z + 1 - mn.z).toNat * ((mx.y + 1 - mn.y).toNat * (mx.x + 1 - mn.x).toNat))
    rw [g3 j]
    by_cases hj : j < (mx.z + 1 - mn.z).toNat * ((mx.y + 1 - mn.y).toNat * (mx.x + 1 - mn.x).toNat)
    · have hj2 : j < buffer.length := by omega
      simp [hj, hj2]
    · have hj2 : buffer.length ≤ j := by omega
      simp [hj, List.getElem?_eq_none hj2]
  have hround : cSTIR_getImageData to_double (cSTIR_setImageData to_float (some image) data) buffer
      = data.map (fun d => to_double (to_float d)) := by
    rw [hset]
    apply List.ext_getElem?
    intro j
    rw [hget _ (by simpa [Image3DF.get_regular_range, i2] using hreg) j, List.getElem?_map]
    by_cases hj : j < (mx.z + 1 - mn.z).toNat * ((mx.y + 1 - mn.y).toNat * (mx.x + 1 - mn.x).toNat)
    · have h5 := i5 j hj
      rw [if_pos hj]
      rw [List.getElem?_eq_getElem (by omega)] at h5 ⊢
      simp only [Option.map_some', Option.some.injEq] at h5 ⊢
      rw [h5]
    · rw [if_neg hj, List.getElem?_eq_none (by omega)]
      rfl
  refine ⟨⟨_, hset, i2, i3, i4, ?_⟩, ?_, hround, ?_, ?_⟩
  · intro z y x h1 h2 h3 h4 h5 h6
    obtain ⟨hlt, hidx⟩ := hoff z y x h1 h2 h3 h4 h5 h6
    have := i5 _ hlt
    rw [hidx] at this
    exact this
  · intro z y x h1 h2 h3 h4 h5 h6
    obtain ⟨hlt, hidx⟩ := hoff z y x h1 h2 h3 h4 h5 h6
    rw [hget image hreg, if_pos hlt, hidx]
  · intro hall
    rw [hround]
    conv_rhs => rw [← List.map_id data]
    exact List.map_congr_left (fun d hd => hall d hd)
  · intro other hother
    exact ⟨by simp [cSTIR_setImageData, hother], by simp [cSTIR_getImageData, hother]⟩

/-- Claim C18 as amended, at a concrete 1 x 2 x 3 image holding integers: six small values
come back as they went in, and the voxel `(0, 0, 6)` is element 4 of the array. -/
theorem C18_flat_buffer_round_trip_witness :
    example_slab_image.get_regular_range = some (⟨0, -1, 5⟩, ⟨0, 0, 7⟩) ∧
    cSTIR_getImageData float_to_double
      (cSTIR_setImageData double_to_float (some example_slab_image) [10, 11, 12, 13, 14, 15])
      [0, 0, 0, 0, 0, 0] = [10, 11, 12, 13, 14, 15] ∧
    flat_offset ⟨0, -1, 5⟩ 2 3 0 0 6 = 4 := by
  refine ⟨rfl, ?_, by decide⟩
  have h := (C18_flat_buffer_round_trip double_to_float float_to_double example_slab_image
    ⟨0, -1, 5⟩ ⟨0, 0, 7⟩ rfl [10, 11, 12, 13, 14, 15] [0, 0, 0, 0, 0, 0] (by decide) rfl).2.2.1
  rw [h]
  decide


/-! ## The image difference -/

/-- Claim C14.  For two images whose characteristics differ, whatever the rim size and
whatever `truncate_rim` would do, `cSTIR_imagesDifference` returns a handle that carries an
error status and no data, and both images are as they were: the function returns before the
rim truncation. -/
theorem C14_incompatible_images_reported {F D : Type} [LinearOrderedField F]
    (truncate_rim : Image3DF F → Int → Image3DF F) (to_double : F → D)
    (first_image second_image : Image3DF F) (rimsize : Int)
    (h : first_image.has_same_characteristics second_image = false) :
    (cSTIR_imagesDifference truncate_rim to_double first_image second_image rimsize).handle._status
      = some { _error := "input images do not have the same characteristics" } ∧
    (cSTIR_imagesDifference truncate_rim to_double first_image second_image rimsize).handle._data
      = none ∧
    (cSTIR_imagesDifference truncate_rim to_double first_image second_image rimsize).first_image
      = first_image ∧
    (cSTIR_imagesDifference truncate_rim to_double first_image second_image rimsize).second_image
      = second_image := by
  simp [cSTIR_imagesDifference, h]

/-- Claim C14 at concrete images with different index ranges and rim size 1. -/
theorem C14_incompatible_images_reported_witness :
    (example_pair_image 1 2).has_same_characteristics (example_single_image 1) = false ∧
    (cSTIR_imagesDifference example_truncate_rim (fun q : ℚ => q) (example_pair_image 1 2)
      (example_single_image 1) 1).handle._data = none :=
  ⟨by decide, (C14_incompatible_images_reported example_truncate_rim (fun q : ℚ => q)
    (example_pair_image 1 2) (example_single_image 1) 1 (by decide)).2.1⟩


theorem foldl_max_spec {F : Type} [LinearOrderedField F] (vs : List F) (v : F) :
    vs.foldl max v ∈ v :: vs ∧ ∀ l, l ∈ v :: vs → l ≤ vs.foldl max v := by
  induction vs generalizing v with
  | nil => simp
  | cons w ws ih =>
    obtain ⟨hmem, hle⟩ := ih (max v w)
    simp only [List.foldl_cons]
    constructor
    · rcases List.mem_cons.mp hmem with h | h
      · rw [h]
        rcases max_choice v w with hc | hc
        · rw [hc]; exact List.mem_cons_self _ _
        · rw [hc]; exact List.mem_cons_of_mem _ (List.mem_cons_self _ _)
      · exact List.mem_cons_of_mem _ (List.mem_cons_of_mem _ h)
    · intro l hl
      rcases List.mem_cons.mp hl with h | h
      · rw [h]
        exact le_trans (le_max_left v w) (hle _ (List.mem_cons_self _ _))
      · rcases List.mem_cons.mp h with h | h
        · rw [h]
          exact le_trans (le_max_right v w) (hle _ (List.mem_cons_self _ _))
        · exact hle l (List.mem_cons_of_mem _ h)

theorem foldl_min_spec {F : Type} [LinearOrderedField F] (vs : List F) (v : F) :
    vs.foldl min v ∈ v :: vs ∧ ∀ l, l ∈ v :: vs → vs.foldl min v ≤ l := by
  induction vs generalizing v with
  | nil => simp
  | cons w ws ih =>
    obtain ⟨hmem, hle⟩ := ih (min v w)
    simp only [List.foldl_cons]
    constructor
    · rcases List.mem_cons.mp hmem with h | h
      · rw [h]
        rcases min_choice v w with hc | hc
        · rw [hc]; exact List.mem_cons_self _ _
        · rw [hc]; exact List.mem_cons_of_mem _ (List.mem_cons_self _ _)
      · exact List.mem_cons_of_mem _ (List.mem_cons_of_mem _ h)
    · intro l hl
      rcases List.mem_cons.mp hl with h | h
      · rw [h]
        exact le_trans (hle _ (List.mem_cons_self _ _)) (min_le_left v w)
      · rcases List.mem_cons.mp h with h | h
        · rw [h]
          exact le_trans (hle _ (List.mem_cons_self _ _)) (min_le_right v w)
        · exact hle l (List.mem_cons_of_mem _ h)

theorem largest_abs_of_extremes {F : Type} [LinearOrderedField F] (L : List F) (M m : F)
    (hM : M ∈ L) (hMge : ∀ l, l ∈ L → l ≤ M) (hm : m ∈ L) (hmle : ∀ l, l ∈ L → m ≤ l) :
    ((∀ l, l ∈ L → |l| ≤ (if M > |m| then M else |m|)) ∧
      ∃ l, l ∈ L ∧ |l| = (if M > |m| then M else |m|)) ∧
    ((∀ l, l ∈ L → |l| ≤ (if |M| > |m| then |M| else |m|)) ∧
      ∃ l, l ∈ L ∧ |l| = (if |M| > |m| then |M| else |m|)) := by
  have hbound : ∀ R, M ≤ R → |m| ≤ R → ∀ l, l ∈ L → |l| ≤ R := by
    intro R h1 h2 l hl
    rw [abs_le]
    constructor
    · have := hmle l hl
      have := neg_abs_le m
      linarith
    · exact le_trans (hMge l hl) h1
  refine ⟨⟨?_, ?_⟩, ⟨?_, ?_⟩⟩
  · by_cases h : M > |m|
    · rw [if_pos h]
      exact hbound M le_rfl (le_of_lt h)
    · rw [if_neg h]
      exact hbound |m| (le_of_not_lt h) le_rfl
  · by_cases h : M > |m|
    · rw [if_pos h]
      exact ⟨M, hM, abs_of_pos (lt_of_le_of_lt (abs_nonneg m) h)⟩
    · rw [if_neg h]
      exact ⟨m, hm, rfl⟩
  · by_cases h : |M| > |m|
    · rw [if_pos h]
      exact hbound |M| (le_abs_self M) (le_of_lt h)
    · rw [if_neg h]
      exact hbound |m| (le_trans (le_abs_self M) (le_of_not_lt h)) le_rfl
  · by_cases h : |M| > |m|
    · rw [if_pos h]
      exact ⟨M, hM, rfl⟩
    · rw [if_neg h]
      exact ⟨m, hm, rfl⟩

theorem find_extremes_spec {F : Type} [LinearOrderedField F] (image : Image3DF F)
    (hne : image.values ≠ []) :
    (image.find_max ∈ image.values ∧ ∀ l, l ∈ image.values → l ≤ image.find_max) ∧
    (image.find_min ∈ image.values ∧ ∀ l, l ∈ image.values → image.find_min ≤ l) := by
  unfold Image3DF.find_max Image3DF.find_min
  cases hv : image.values with
  | nil => exact absurd hv hne
  | cons v vs => exact ⟨foldl_max_spec vs v, foldl_min_spec vs v⟩


/-- Claim C17.  For two images `a`, `b` with the same characteristics, a negative rim size and
`a` not identically zero, `cSTIR_imagesDifference` returns (with no error status, and
leaving both images alone) the quotient of `dmax = max(|min(a - b)|, max(a - b))` by
`amax = max(|max(a)|, |min(a)|)`.  Over exact arithmetic `dmax` is the largest absolute voxel
difference and `amax` the largest absolute voxel value of `a`, which is positive; so the
quotient is non-negative, and it is zero exactly when `a` and `b` agree at every voxel. -/
theorem C17_relative_largest_difference {F D : Type} [LinearOrderedField F]
    (truncate_rim : Image3DF F → Int → Image3DF F) (to_double : F → D)
    (a b : Image3DF F) (rimsize : Int)
    (hsame : a.has_same_characteristics b = true) (hrim : rimsize < 0)
    (hnz : ∃ i, i ∈ a.index_range.indices ∧ a.voxel i.1 i.2.1 i.2.2 ≠ 0) :
    ∃ dmax amax : F,
      (cSTIR_imagesDifference truncate_rim to_double a b rimsize).handle._data
        = some (to_double (dmax / amax)) ∧
      (cSTIR_imagesDifference truncate_rim to_double a b rimsize).handle._status = none ∧
      (cSTIR_imagesDifference truncate_rim to_double a b rimsize).first_image = a ∧
      (cSTIR_imagesDifference truncate_rim to_double a b rimsize).second_image = b ∧
      dmax = max |(a.clone.sub b).find_min| (a.clone.sub b).find_max ∧
      amax = max |a.find_max| |a.find_min| ∧
      (∀ i, i ∈ a.index_range.indices →
        |a.voxel i.1 i.2.1 i.2.2 - b.voxel i.1 i.2.1 i.2.2| ≤ dmax) ∧
      (∃ i, i ∈ a.index_range.indices ∧
        |a.voxel i.1 i.2.1 i.2.2 - b.voxel i.1 i.2.1 i.2.2| = dmax) ∧
      (∀ i, i ∈ a.index_range.indices → |a.voxel i.1 i.2.1 i.2.2| ≤ amax) ∧
      (∃ i, i ∈ a.index_range.indices ∧ |a.voxel i.1 i.2.1 i.2.2| = amax) ∧
      0 < amax ∧ 0 ≤ dmax / amax ∧
      (dmax / amax = 0 ↔
        ∀ i, i ∈ a.index_range.indices → a.voxel i.1 i.2.1 i.2.2 = b.voxel i.1 i.2.1 i.2.2) := by
  obtain ⟨i0, hi0, hv0⟩ := hnz
  have hane : a.values ≠ [] := by
    intro h
    have : a.voxel i0.1 i0.2.1 i0.2.2 ∈ a.values := List.mem_map.mpr ⟨i0, hi0, rfl⟩
    rw [h] at this
    exact absurd this (List.not_mem_nil _)
  have hdne : (a.clone.sub b).values ≠ [] := by
    intro h
    have : a.voxel i0.1 i0.2.1 i0.2.2 - b.voxel i0.1 i0.2.1 i0.2.2 ∈ (a.clone.sub b).values :=
      List.mem_map.mpr ⟨i0, hi0, rfl⟩
    rw [h] at this
    exact absurd this (List.not_mem_nil _)
  obtain ⟨⟨hMa, hMage⟩, ⟨hma, hmale⟩⟩ := find_extremes_spec a hane
  obtain ⟨⟨hMd, hMdge⟩, ⟨hmd, hmdle⟩⟩ := find_extremes_spec (a.clone.sub b) hdne
  obtain ⟨⟨hd1, hd2⟩, -⟩ := largest_abs_of_extremes _ _ _ hMd hMdge hmd hmdle
  obtain ⟨-, ⟨ha1, ha2⟩⟩ := largest_abs_of_extremes _ _ _ hMa hMage hma hmale
  have hdmax : (if (a.clone.sub b).find_max > |(a.clone.sub b).find_min|
      then (a.clone.sub b).find_max else |(a.clone.sub b).find_min|)
      = max |(a.clone.sub b).find_min| (a.clone.sub b).find_max := by
    by_cases h : (a.clone.sub b).find_max > |(a.clone.sub b).find_min|
    · rw [if_pos h, max_eq_right (le_of_lt h)]
    · rw [if_neg h, max_eq_left (le_of_not_lt h)]
  have hamax : (if |a.find_max| > |a.find_min| then |a.find_max| else |a.find_min|)
      = max |a.find_max| |a.find_min| := by
    by_cases h : |a.find_max| > |a.find_min|
    · rw [if_pos h, max_eq_left (le_of_lt h)]
    · rw [if_neg h, max_eq_right (le_of_not_lt h)]
  rw [hdmax] at hd1 hd2
  rw [hamax] at ha1 ha2
  have hrim2 : ¬ rimsize ≥ 0 := by omega
  have hdall : ∀ i, i ∈ a.index_range.indices →
      |a.voxel i.1 i.2.1 i.2.2 - b.voxel i.1 i.2.1 i.2.2|
        ≤ max |(a.clone.sub b).find_min| (a.clone.sub b).find_max :=
    fun i hi => hd1 _ (List.mem_map.mpr ⟨i, hi, rfl⟩)
  have haall : ∀ i, i ∈ a.index_range.indices →
      |a.voxel i.1 i.2.1 i.2.2| ≤ max |a.find_max| |a.find_min| :=
    fun i hi => ha1 _ (List.mem_map.mpr ⟨i, hi, rfl⟩)
  have hapos : 0 < max |a.find_max| |a.find_min| :=
    lt_of_lt_of_le (abs_pos.mpr hv0) (haall i0 hi0)
  have hdnonneg : 0 ≤ max |(a.clone.sub b).find_min| (a.clone.sub b).find_max :=
    le_trans (abs_nonneg _) (le_max_left _ _)
  refine ⟨max |(a.clone.sub b).find_min| (a.clone.sub b).find_max, max |a.find_max| |a.find_min|,
    ?_, ?_, ?_, ?_, rfl, rfl, hdall, ?_, haall, ?_, hapos, div_nonneg hdnonneg (le_of_lt hapos), ?_⟩
  · simp only [cSTIR_imagesDifference, hsame, hrim2, if_false, Bool.not_true, Bool.false_eq_true,
      hdmax, hamax]
  · simp [cSTIR_imagesDifference, hsame, hrim2]
  · simp [cSTIR_imagesDifference, hsame, hrim2]
  · simp [cSTIR_imagesDifference, hsame, hrim2]
  · obtain ⟨l, hl, hle⟩ := hd2
    obtain ⟨i, hi, hil⟩ := List.mem_map.mp hl
    exact ⟨i, hi, by rw [← hle, ← hil]; rfl⟩
  · obtain ⟨l, hl, hle⟩ := ha2
    obtain ⟨i, hi, hil⟩ := List.mem_map.mp hl
    exact ⟨i, hi, by rw [← hle, ← hil]⟩
  · rw [div_eq_zero_iff]
    constructor
    · intro h i hi
      rcases h with h | h
      · have h1 := hdall i hi
        rw [h] at h1
        have h2 : |a.voxel i.1 i.2.1 i.2.2 - b.voxel i.1 i.2.1 i.2.2| = 0 :=
          le_antisymm h1 (abs_nonneg _)
        exact sub_eq_zero.mp (abs_eq_zero.mp h2)
      · exact absurd h (ne_of_gt hapos)
    · intro h
      left
      obtain ⟨l, hl, hle⟩ := hd2
      obtain ⟨i, hi, hil⟩ := List.mem_map.mp hl
      rw [← hle, ← hil]
      show |a.voxel i.1 i.2.1 i.2.2 - b.voxel i.1 i.2.1 i.2.2| = 0
      rw [h i hi, sub_self, abs_zero]

/-- Claim C17 at concrete images over the rationals: `a = (3, -4)`, `b = (1, -1)` give the
largest absolute difference 3 over the largest absolute value 4. -/
theorem C17_relative_largest_difference_witness :
    (example_pair_image 3 (-4)).has_same_characteristics (example_pair_image 1 (-1)) = true ∧
    (cSTIR_imagesDifference example_truncate_rim (fun q : ℚ => q) (example_pair_image 3 (-4))
      (example_pair_image 1 (-1)) (-1)).handle._data = some (3 / 4) ∧
    (cSTIR_imagesDifference example_truncate_rim (fun q : ℚ => q) (example_pair_image 3 (-4))
      (example_pair_image 1 (-1)) (-1)).handle._status = none := by
  obtain ⟨dmax, amax, -, h2, -⟩ := C17_relative_largest_difference example_truncate_rim
    (fun q : ℚ => q) (example_pair_image 3 (-4)) (example_pair_image 1 (-1)) (-1) (by decide)
    (by decide) ⟨(0, 0, 0), by decide, by decide⟩
  exact ⟨by decide, by decide!, h2⟩


/-! ## The caller's images in the store of objects -/

namespace heap

theorem set_up_ready {O : Type} (X : Externals O) (e : Engine O)
    (h : e._need_to_set_up = false) : set_up X e = (e, none) := by
  simp [set_up, h]

theorem deref_nifti_some {O : Type} (e : Engine O) (a : Nat)
    (h : (e.deref_nifti (some a)).isSome = true) :
    ∃ im, e.store a = some (.nifti im) ∧ e.deref_nifti (some a) = some im := by
  rcases hs : e.store a with _ | (im | o)
  · simp [Engine.deref_nifti, Engine.deref, hs] at h
  · exact ⟨im, rfl, by simp [Engine.deref_nifti, Engine.deref, hs]⟩
  · simp [Engine.deref_nifti, Engine.deref, hs] at h

theorem holds_nifti_some {O : Type} (e : Engine O) (p : Option Nat) (h : e.holds_nifti p) :
    ∃ a im, p = some a ∧ a < e.next ∧ e.store a = some (.nifti im) ∧
      e.deref_nifti (some a) = some im := by
  cases p with
  | none => exact absurd h (by simp [Engine.holds_nifti])
  | some a =>
    obtain ⟨h1, h2⟩ := h
    obtain ⟨im, h3, h4⟩ := deref_nifti_some e a h2
    exact ⟨a, im, rfl, h1, h3, h4⟩

theorem owns_some {O : Type} (e : Engine O) (r f : Nat) (p : Option Nat) (h : e.owns r f p) :
    ∃ a im, p = some a ∧ a < e.next ∧ a ≠ r ∧ a ≠ f ∧ e.store a = some (.nifti im) ∧
      e.deref_nifti (some a) = some im := by
  cases p with
  | none => exact absurd h (by simp [Engine.owns])
  | some a =>
    obtain ⟨h1, h2, h3, h4⟩ := h
    obtain ⟨im, h5, h6⟩ := deref_nifti_some e a h4
    exact ⟨a, im, rfl, h1, h2, h3, h5, h6⟩

theorem holds_nifti_write {O : Type} (e : Engine O) (a : Nat) (v : NiftiImageData)
    (p : Option Nat) (h : e.holds_nifti p) : (e.write a (.nifti v)).holds_nifti p := by
  cases p with
  | none => exact absurd h (by simp [Engine.holds_nifti])
  | some b =>
    obtain ⟨h1, h2⟩ := h
    refine ⟨h1, ?_⟩
    by_cases hb : b = a
    · simp [Engine.write, Engine.deref_nifti, Engine.deref, hb]
    · simpa [Engine.write, Engine.deref_nifti, Engine.deref, hb] using h2

theorem owns_write {O : Type} (e : Engine O) (r f a : Nat) (v : NiftiImageData)
    (p : Option Nat) (h : e.owns r f p) : (e.write a (.nifti v)).owns r f p := by
  cases p with
  | none => exact absurd h (by simp [Engine.owns])
  | some b =>
    obtain ⟨h1, h2, h3, h4⟩ := h
    refine ⟨h1, h2, h3, ?_⟩
    by_cases hb : b = a
    · simp [Engine.write, Engine.deref_nifti, Engine.deref, hb]
    · simpa [Engine.write, Engine.deref_nifti, Engine.deref, hb] using h4

theorem holds_nifti_allocate {O : Type} (e : Engine O) (v : ImageData O)
    (p : Option Nat) (h : e.holds_nifti p) : (e.allocate v).holds_nifti p := by
  cases p with
  | none => exact absurd h (by simp [Engine.holds_nifti])
  | some b =>
    obtain ⟨h1, h2⟩ := h
    have hb : b ≠ e.next := by omega
    refine ⟨Nat.lt_succ_of_lt h1, ?_⟩
    simpa [Engine.allocate, Engine.deref_nifti, Engine.deref, hb] using h2

theorem owns_allocate {O : Type} (e : Engine O) (r f : Nat) (v : ImageData O)
    (p : Option Nat) (h : e.owns r f p) : (e.allocate v).owns r f p := by
  cases p with
  | none => exact absurd h (by simp [Engine.owns])
  | some b =>
    obtain ⟨h1, h2, h3, h4⟩ := h
    have hb : b ≠ e.next := by omega
    refine ⟨Nat.lt_succ_of_lt h1, h2, h3, ?_⟩
    simpa [Engine.allocate, Engine.deref_nifti, Engine.deref, hb] using h4

theorem separated_allocate {O : Type} (e : Engine O) (r f : Nat) (v : ImageData O)
    (hs : e.separated r f) : (e.allocate v).separated r f := by
  obtain ⟨h1, h2, h3, h4, h5, h6, h7, h8, h9⟩ := hs
  have hr : r ≠ e.next := by omega
  have hf : f ≠ e.next := by omega
  refine ⟨h1, h2, Nat.lt_succ_of_lt h3, Nat.lt_succ_of_lt h4, ?_, ?_, ?_, h8, ?_⟩
  · simpa [Engine.allocate, hr] using h5
  · simpa [Engine.allocate, hf] using h6
  · intro h
    obtain ⟨a, b, c, d⟩ := h7 h
    exact ⟨holds_nifti_allocate e v _ a, holds_nifti_allocate e v _ b,
      owns_allocate e r f v _ c, owns_allocate e r f v _ d⟩
  · intro h
    obtain ⟨a, b, c, d⟩ := h9 h
    exact ⟨a, b, owns_allocate e r f v _ c, owns_allocate e r f v _ d⟩

theorem separated_write {O : Type} (e : Engine O) (r f a : Nat) (v : NiftiImageData)
    (hs : e.separated r f) (hr : a ≠ r) (hf : a ≠ f) : (e.write a (.nifti v)).separated r f := by
  obtain ⟨h1, h2, h3, h4, h5, h6, h7, h8, h9⟩ := hs
  refine ⟨h1, h2, h3, h4, ?_, ?_, ?_, h8, ?_⟩
  · simpa [Engine.write, Ne.symm hr] using h5
  · simpa [Engine.write, Ne.symm hf] using h6
  · intro h
    obtain ⟨a1, b, c, d⟩ := h7 h
    exact ⟨holds_nifti_write e a v _ a1, holds_nifti_write e a v _ b,
      owns_write e r f a v _ c, owns_write e r f a v _ d⟩
  · intro h
    obtain ⟨a1, b, c, d⟩ := h9 h
    exact ⟨a1, b, owns_write e r f a v _ c, owns_write e r f a v _ d⟩

theorem set_up_fresh {O : Type} (X : Externals O) (e : Engine O) (r f : Nat)
    (hs : e.separated r f) (h : e._need_to_set_up = true) :
    ∃ s, set_up X e = (s, none) ∧ s._need_to_set_up = false ∧ s.separated r f ∧
      (∀ a, a < e.next → s.store a = e.store a) ∧ e.next ≤ s.next ∧
      s.floating_arguments = e.floating_arguments ∧
      s._transformation_direction = e._transformation_direction ∧
      s._interpolation_type = e._interpolation_type ∧
      s._need_to_set_up_forward = e._need_to_set_up_forward ∧
      s._need_to_set_up_adjoint = e._need_to_set_up_adjoint ∧
      ∃ im, e.store f = some im ∧
        s.deref_nifti s._floating_image_nifti_sptr = some (X.canonical im) := by
  obtain ⟨href, hflo, hr, hf, hsr, hsf, -, h1, h2⟩ := hs
  have hfw : e._need_to_set_up_forward = true := by
    cases hx : e._need_to_set_up_forward
    · rw [h1 hx] at h; cases h
    · rfl
  have had : e._need_to_set_up_adjoint = true := by
    cases hx : e._need_to_set_up_adjoint
    · rw [(h2 hx).1] at h; cases h
    · rfl
  obtain ⟨ri, hri⟩ := Option.isSome_iff_exists.mp hsr
  obtain ⟨fi, hfi⟩ := Option.isSome_iff_exists.mp hsf
  have n0 : r ≠ e.next := by omega
  have n1 : r ≠ e.next + 1 := by omega
  have n2 : r ≠ e.next + 2 := by omega
  have n3 : r ≠ e.next + 3 := by omega
  have m0 : f ≠ e.next := by omega
  have m1 : f ≠ e.next + 1 := by omega
  have m2 : f ≠ e.next + 2 := by omega
  have m3 : f ≠ e.next + 3 := by omega
  cases ri <;> cases fi <;> cases hd : e._transformation_direction <;>
    by_cases ht : e._transformations.length = 0
  all_goals
    simp [set_up, h, href, hflo, check_parameters, set_up_input_images, set_up_output_image,
      Outcome.andThen, dynamic_pointer_cast, Engine.deref, Engine.deref_nifti, Engine.allocate,
      hri, hfi, hd, ht, n0, n1, n2, n3, m0, m1, m2, m3, Engine.separated, Engine.holds_nifti,
      Engine.owns, Externals.canonical, hfw, had, Nat.add_assoc]
  all_goals
    refine ⟨by omega, ?_⟩
    intro a ha
    have a0 : a ≠ e.next := by omega
    have a1 : a ≠ e.next + 1 := by omega
    have a2 : a ≠ e.next + 2 := by omega
    have a3 : a ≠ e.next + 3 := by omega
    simp [a0, a1, a2, a3]

theorem Kept_trans {O : Type} (e s u : Engine O) (r f : Nat) (copy : nifti_image)
    (h1 : e.Kept s r f copy) (h2 : s.Kept u r f copy) : e.Kept u r f copy := by
  obtain ⟨l1, hl1, hp1⟩ := h1.handed
  obtain ⟨l2, hl2, hp2⟩ := h2.handed
  refine ⟨h2.separated, Nat.le_trans h1.next_le h2.next_le,
    h2.reference_object.trans h1.reference_object, h2.floating_object.trans h1.floating_object,
    h2.direction.trans h1.direction, h2.interpolation.trans h1.interpolation,
    fun h => h2.base_ready (h1.base_ready h),
    fun h => (h2.floating_view (h1.base_ready h)).trans (h1.floating_view h),
    l1 ++ l2, by rw [hl2, hl1, List.append_assoc], ?_⟩
  intro p hp
  rcases List.mem_append.mp hp with hp | hp
  · obtain ⟨a, b, c⟩ := hp1 p hp
    exact ⟨a, Nat.lt_of_lt_of_le b h2.next_le, c⟩
  · obtain ⟨a, b, c⟩ := hp2 p hp
    exact ⟨Nat.le_trans h1.next_le a, b, c⟩

theorem Kept_refl {O : Type} (e : Engine O) (r f : Nat) (copy : nifti_image)
    (hs : e.separated r f) : e.Kept e r f copy :=
  ⟨hs, Nat.le_refl _, rfl, rfl, rfl, rfl, id, fun _ => rfl, [], by simp, by simp⟩

theorem set_up_forward_eq {O : Type} (X : Externals O) (s : Engine O)
    (h0 : s._need_to_set_up = false) :
    set_up_forward X s = ({ s with _need_to_set_up_forward := false }, none) := by
  cases hfw : s._need_to_set_up_forward
  · simp only [set_up_forward, hfw]
    cases s
    simp_all
  · simp [set_up_forward, hfw, set_up_ready X s h0, Outcome.andThen]

theorem separated_forward_flag {O : Type} (s : Engine O) (r f : Nat) (hs : s.separated r f)
    (h0 : s._need_to_set_up = false) :
    ({ s with _need_to_set_up_forward := false } : Engine O).separated r f := by
  obtain ⟨h1, h2, h3, h4, h5, h6, h7, h8, h9⟩ := hs
  exact ⟨h1, h2, h3, h4, h5, h6, h7, fun _ => h0, h9⟩

theorem transformation_forward_body {O : Type} (X : Externals O) (s s1 : Engine O) (r f : Nat)
    (fl : NiftiImageData) (hset : set_up_forward X s = (s1, none))
    (hs : s1.separated r f) (h0 : s1._need_to_set_up = false)
    (hfl : s1.deref_nifti s1._floating_image_nifti_sptr = some fl) :
    ∃ u, transformation_forward X s = (u, none) ∧
      s1.Kept u r f fl.clone.get_raw_nifti_sptr ∧
      u.floating_arguments = s1.floating_arguments ++ [(s1.next, fl.clone.get_raw_nifti_sptr)] ∧
      u._output_image_sptr = s1._output_image_sptr := by
  have hs1 := hs
  obtain ⟨-, -, hr, hf, -, -, h7, -, -⟩ := hs
  obtain ⟨-, -, ho, hd⟩ := h7 h0
  obtain ⟨o, oi, hpo, holt, hor, hof, hso, hno⟩ := owns_some s1 r f _ ho
  obtain ⟨d, di, hpd, hdlt, hdr, hdf, hsd, hnd⟩ := owns_some s1 r f _ hd
  simp only [transformation_forward, hset, Outcome.andThen, hfl, hpo, hpd, hno, hnd]
  have hrn : r ≠ s1.next := by omega
  have hfn : f ≠ s1.next := by omega
  refine ⟨_, rfl, ⟨?_, ?_, ?_, ?_, rfl, rfl, id, fun _ => rfl, ?_⟩, rfl, rfl⟩
  · exact separated_write _ r f d _ (separated_write _ r f o _ (separated_write _ r f s1.next _
      (separated_allocate s1 r f _ hs1) (Ne.symm hrn) (Ne.symm hfn)) hor hof) hdr hdf
  · exact Nat.le_succ _
  · simp [Engine.write, Engine.allocate, Ne.symm hor, Ne.symm hdr, hrn]
  · simp [Engine.write, Engine.allocate, Ne.symm hof, Ne.symm hdf, hfn]
  · refine ⟨[(s1.next, fl.clone.get_raw_nifti_sptr)], rfl, ?_⟩
    intro p hp
    rw [List.mem_singleton] at hp
    subst hp
    exact ⟨Nat.le_refl _, Nat.lt_succ_self _, rfl⟩

theorem set_up_adjoint_body {O : Type} (X : Externals O) (s : Engine O) (r f : Nat)
    (fl : NiftiImageData) (hs : s.separated r f) (h0 : s._need_to_set_up = false)
    (h2 : s._need_to_set_up_adjoint = true)
    (hfl : s.deref_nifti s._floating_image_nifti_sptr = some fl) :
    ∃ t, set_up_adjoint X s = (t, none) ∧ t._need_to_set_up = false ∧
      t._need_to_set_up_adjoint = false ∧
      t.deref_nifti t._floating_image_nifti_sptr = some fl ∧
      t.separated r f ∧ t.next = s.next + 3 ∧ (∀ a, a < s.next → t.store a = s.store a) ∧
      t._transformation_direction = s._transformation_direction ∧
      t._interpolation_type = s._interpolation_type ∧
      t.floating_arguments = s.floating_arguments ++ [(s.next, fl.clone.get_raw_nifti_sptr)] ∧
      t._output_image_sptr = s._output_image_sptr ∧
      t._floating_image_nifti_sptr = s._floating_image_nifti_sptr := by
  obtain ⟨g1, g2, hr, hf, g5, g6, h7, g8, -⟩ := hs
  obtain ⟨hrn, hfn, ho, hd⟩ := h7 h0
  obtain ⟨b, bi, hpb, hblt, hsb, hnb⟩ := holds_nifti_some s _ hrn
  obtain ⟨a, ai, hpa, halt, hsa, hna⟩ := holds_nifti_some s _ hfn
  obtain ⟨o, oi, hpo, holt, hor, hof, hso, hno⟩ := owns_some s r f _ ho
  obtain ⟨d, di, hpd, hdlt, hdr, hdf, hsd, hnd⟩ := owns_some s r f _ hd
  have hai : ai = fl := by
    rw [hpa, hna] at hfl
    exact Option.some.inj hfl
  subst hai
  have hrn0 : r ≠ s.next := by omega
  have hfn0 : f ≠ s.next := by omega
  have hrn1 : r ≠ s.next + 1 := by omega
  have hfn1 : f ≠ s.next + 1 := by omega
  have hrn2 : r ≠ s.next + 2 := by omega
  have hfn2 : f ≠ s.next + 2 := by omega
  have ha0 : a ≠ s.next := by omega
  have ha1 : a ≠ s.next + 1 := by omega
  have ha2 : a ≠ s.next + 2 := by omega
  have hb0 : b ≠ s.next := by omega
  have hb1 : b ≠ s.next + 1 := by omega
  have hb2 : b ≠ s.next + 2 := by omega
  have ho0 : o ≠ s.next := by omega
  have ho1 : o ≠ s.next + 1 := by omega
  have ho2 : o ≠ s.next + 2 := by omega
  have hd0 : d ≠ s.next := by omega
  have hd1 : d ≠ s.next + 1 := by omega
  have hd2 : d ≠ s.next + 2 := by omega
  simp [set_up_adjoint, h2, h0, set_up_ready X s h0, Outcome.andThen, hpa, hpb, hpo, hpd, hsa, hsb,
    hso, hsd, Engine.deref_nifti, Engine.deref, Engine.write, Engine.allocate, Engine.separated,
    Engine.holds_nifti, Engine.owns, g1, g2, g5, g6, hrn0, hrn1, hrn2, hfn0, hfn1, hfn2, ha0, ha1,
    ha2, hb0, hb1, hb2, ho0, ho1, ho2, hd0, hd1, hd2, Nat.add_assoc, hor, hof, hdr, hdf]
  refine ⟨by omega, ?_⟩
  intro c hc
  have hc0 : c ≠ s.next := by omega
  have hc1 : c ≠ s.next + 1 := by omega
  have hc2 : c ≠ s.next + 2 := by omega
  simp [hc0, hc1, hc2]

theorem set_up_adjoint_kept {O : Type} (X : Externals O) (s : Engine O) (r f : Nat)
    (fl : NiftiImageData) (hs : s.separated r f) (h0 : s._need_to_set_up = false)
    (hfl : s.deref_nifti s._floating_image_nifti_sptr = some fl) :
    ∃ t, set_up_adjoint X s = (t, none) ∧ t._need_to_set_up = false ∧
      t._need_to_set_up_adjoint = false ∧
      t.deref_nifti t._floating_image_nifti_sptr = some fl ∧
      s.Kept t r f fl.clone.get_raw_nifti_sptr ∧
      t._output_image_sptr = s._output_image_sptr ∧
      (s._need_to_set_up_adjoint = false → t = s) := by
  cases h2 : s._need_to_set_up_adjoint
  · exact ⟨s, by simp [set_up_adjoint, h2], h0, h2, hfl, Kept_refl s r f _ hs, rfl, fun _ => rfl⟩
  · obtain ⟨t, e1, e2, e3, e4, e5, e6, e7, e8, e9, e10, e11, e12⟩ :=
      set_up_adjoint_body X s r f fl hs h0 h2 hfl
    have hr : r < s.next := hs.2.2.1
    have hf : f < s.next := hs.2.2.2.1
    refine ⟨t, e1, e2, e3, e4, ⟨e5, by omega, e7 r hr, e7 f hf, e8, e9, fun _ => e2, fun _ => e12,
      [(s.next, fl.clone.get_raw_nifti_sptr)], e10, ?_⟩, e11, fun h => by simp at h⟩
    intro p hp
    rw [List.mem_singleton] at hp
    subst hp
    exact ⟨Nat.le_refl _, by omega, rfl⟩

theorem transformation_adjoint_body {O : Type} (X : Externals O) (s t : Engine O) (r f : Nat)
    (fl : NiftiImageData) (hset : set_up_adjoint X s = (t, none))
    (ht : t.separated r f) (h0 : t._need_to_set_up = false)
    (h2 : t._need_to_set_up_adjoint = false)
    (hfl : t.deref_nifti t._floating_image_nifti_sptr = some fl) :
    ∃ u, transformation_adjoint X s
        = (u, if t._interpolation_type = InterpolationType.SINC
            then some Exception.UnsupportedInterpolationError else none) ∧
      t.Kept u r f fl.clone.get_raw_nifti_sptr ∧
      u._output_image_sptr = t._output_image_sptr ∧
      (t._interpolation_type ≠ InterpolationType.SINC →
        u.floating_arguments
          = t.floating_arguments ++ [(t.next, fl.clone.get_raw_nifti_sptr)]) := by
  have ht1 := ht
  obtain ⟨-, -, hr, hf, -, -, h7, -, -⟩ := ht
  obtain ⟨-, -, ho, -⟩ := h7 h0
  obtain ⟨o, oi, hpo, holt, hor, hof, hso, hno⟩ := owns_some t r f _ ho
  have hrn : r ≠ t.next := by omega
  have hfn : f ≠ t.next := by omega
  simp only [transformation_adjoint, hset, Outcome.andThen, hfl, hpo, hno]
  have hE2 := separated_write _ r f o (oi.fill float_zero)
    (separated_allocate t r f (.nifti fl.clone) ht1) hor hof
  have hsr : ((t.allocate (.nifti fl.clone)).write o (.nifti (oi.fill float_zero))).store r
      = t.store r := by
    simp [Engine.write, Engine.allocate, Ne.symm hor, hrn]
  have hsf : ((t.allocate (.nifti fl.clone)).write o (.nifti (oi.fill float_zero))).store f
      = t.store f := by
    simp [Engine.write, Engine.allocate, Ne.symm hof, hfn]
  generalize hE : (t.allocate (.nifti fl.clone)).write o (.nifti (oi.fill float_zero)) = E2
    at hE2 hsr hsf ⊢
  have hi : E2._interpolation_type = t._interpolation_type := by rw [← hE]; rfl
  have hd : E2._transformation_direction = t._transformation_direction := by rw [← hE]; rfl
  have hn : E2.next = t.next + 1 := by rw [← hE]; rfl
  have hl : E2.floating_arguments = t.floating_arguments := by rw [← hE]; rfl
  have hout : E2._output_image_sptr = t._output_image_sptr := by rw [← hE]; rfl
  have ha : E2._need_to_set_up_adjoint = false := by rw [← hE]; exact h2
  by_cases hsinc : t._interpolation_type = InterpolationType.SINC
  · simp only [hi, hsinc, if_true]
    exact ⟨E2, rfl, ⟨hE2, by omega, hsr, hsf, hd, hi, fun h => by rw [← hE]; exact h,
      fun _ => by rw [← hE]; rfl, [], by simp [hl], by simp⟩, hout,
      fun h => absurd rfl h⟩
  · simp only [hi, hsinc, if_false]
    obtain ⟨-, htr, hiw, how⟩ := hE2.2.2.2.2.2.2.2.2 ha
    obtain ⟨tr, htr⟩ := Option.isSome_iff_exists.mp htr
    obtain ⟨iw, iwi, hpiw, hiwlt, hiwr, hiwf, hsiw, hniw⟩ := owns_some E2 r f _ hiw
    obtain ⟨ow, owi, hpow, howlt, howr, howf, hsow, hnow⟩ := owns_some E2 r f _ how
    simp only [htr, hpiw, hniw, hpow, hnow]
    refine ⟨_, rfl, ⟨?_, ?_, ?_, ?_, hd, hi, fun h => by rw [← hE]; exact h,
      fun _ => by rw [← hE]; rfl, ?_⟩, hout, fun _ => ?_⟩
    · exact separated_write _ r f ow _ (separated_write _ r f o _ (separated_write _ r f iw _
        (separated_write _ r f t.next _ hE2 (Ne.symm hrn) (Ne.symm hfn)) hiwr hiwf) hor hof)
        howr howf
    · show t.next ≤ E2.next
      omega
    · simp [Engine.write, Ne.symm hor, Ne.symm hiwr, Ne.symm howr, hrn, hsr]
    · simp [Engine.write, Ne.symm hof, Ne.symm hiwf, Ne.symm howf, hfn, hsf]
    · refine ⟨[(t.next, fl.clone.get_raw_nifti_sptr)], ?_, ?_⟩
      · show E2.floating_arguments ++ _ = _
        rw [hl]
      · intro p hp
        rw [List.mem_singleton] at hp
        subst hp
        refine ⟨Nat.le_refl _, ?_, rfl⟩
        show t.next < E2.next
        omega
    · show E2.floating_arguments ++ _ = _
      rw [hl]

theorem set_up_kept {O : Type} (X : Externals O) (e : Engine O) (r f : Nat)
    (hs : e.separated r f) :
    ∃ s fl, set_up X e = (s, none) ∧ s._need_to_set_up = false ∧
      (∀ copy, e.Kept s r f copy) ∧
      s.floating_arguments = e.floating_arguments ∧
      s.deref_nifti s._floating_image_nifti_sptr = some fl ∧
      (e._need_to_set_up = true → ∃ im, e.store f = some im ∧ fl = X.canonical im) ∧
      (e._need_to_set_up = false → e.deref_nifti e._floating_image_nifti_sptr = some fl) := by
  cases h : e._need_to_set_up
  · obtain ⟨-, hfn, -, -⟩ := hs.2.2.2.2.2.2.1 h
    obtain ⟨a, ai, hpa, -, -, hna⟩ := holds_nifti_some e _ hfn
    rw [← hpa] at hna
    exact ⟨e, ai, set_up_ready X e h, h, fun copy => Kept_refl e r f copy hs, rfl, hna,
      (fun h' => Bool.noConfusion h'), (fun _ => hna)⟩
  · obtain ⟨s, e1, e2, e3, e4, e5, e6, e7, e8, -, -, im, e9, e10⟩ := set_up_fresh X e r f hs h
    have hr : r < e.next := hs.2.2.1
    have hf : f < e.next := hs.2.2.2.1
    exact ⟨s, X.canonical im, e1, e2, fun _ => ⟨e3, e5, e4 r hr, e4 f hf, e7, e8,
      (fun h' => absurd (h.symm.trans h') (by simp)),
      (fun h' => absurd (h.symm.trans h') (by simp)),
      [], by simp [e6], by simp⟩, e6, e10, (fun _ => ⟨im, e9, rfl⟩),
      (fun h' => Bool.noConfusion h')⟩

theorem holds_nifti_of_frame {O : Type} (e s : Engine O) (p : Option Nat)
    (hn : e.next ≤ s.next) (hst : ∀ a, a < e.next → s.store a = e.store a)
    (h : e.holds_nifti p) : s.holds_nifti p := by
  cases p with
  | none => exact absurd h (by simp [Engine.holds_nifti])
  | some b =>
    obtain ⟨h1, h2⟩ := h
    refine ⟨Nat.lt_of_lt_of_le h1 hn, ?_⟩
    simpa [Engine.deref_nifti, Engine.deref, hst b h1] using h2

theorem owns_of_frame {O : Type} (e s : Engine O) (r f : Nat) (p : Option Nat)
    (hn : e.next ≤ s.next) (hst : ∀ a, a < e.next → s.store a = e.store a)
    (h : e.owns r f p) : s.owns r f p := by
  cases p with
  | none => exact absurd h (by simp [Engine.owns])
  | some b =>
    obtain ⟨h1, h2, h3, h4⟩ := h
    refine ⟨Nat.lt_of_lt_of_le h1 hn, h2, h3, ?_⟩
    simpa [Engine.deref_nifti, Engine.deref, hst b h1] using h4

theorem separated_of_frame {O : Type} (e s : Engine O) (r f : Nat) (hs : e.separated r f)
    (hn : e.next ≤ s.next) (hst : ∀ a, a < e.next → s.store a = e.store a)
    (k1 : s._reference_image_sptr = e._reference_image_sptr)
    (k2 : s._floating_image_sptr = e._floating_image_sptr)
    (k3 : s._need_to_set_up = e._need_to_set_up)
    (k4 : s._need_to_set_up_forward = e._need_to_set_up_forward)
    (k5 : s._need_to_set_up_adjoint = e._need_to_set_up_adjoint)
    (k6 : s._reference_image_nifti_sptr = e._reference_image_nifti_sptr)
    (k7 : s._floating_image_nifti_sptr = e._floating_image_nifti_sptr)
    (k8 : s._output_image_nifti_sptr = e._output_image_nifti_sptr)
    (k9 : s._deformation_sptr = e._deformation_sptr)
    (k10 : s._adjoint_transformer_sptr = e._adjoint_transformer_sptr)
    (k11 : s._adjoint_input_weights_sptr = e._adjoint_input_weights_sptr)
    (k12 : s._adjoint_output_weights_sptr = e._adjoint_output_weights_sptr) :
    s.separated r f := by
  obtain ⟨h1, h2, h3, h4, h5, h6, h7, h8, h9⟩ := hs
  refine ⟨k1.trans h1, k2.trans h2, Nat.lt_of_lt_of_le h3 hn, Nat.lt_of_lt_of_le h4 hn,
    by rw [hst r h3]; exact h5, by rw [hst f h4]; exact h6, ?_, ?_, ?_⟩
  · intro h
    rw [k3] at h
    obtain ⟨a, b, c, d⟩ := h7 h
    rw [k6, k7, k8, k9]
    exact ⟨holds_nifti_of_frame e s _ hn hst a, holds_nifti_of_frame e s _ hn hst b,
      owns_of_frame e s r f _ hn hst c, owns_of_frame e s r f _ hn hst d⟩
  · intro h
    rw [k4] at h
    rw [k3]
    exact h8 h
  · intro h
    rw [k5] at h
    obtain ⟨a, b, c, d⟩ := h9 h
    rw [k3, k10, k11, k12]
    exact ⟨a, b, owns_of_frame e s r f _ hn hst c, owns_of_frame e s r f _ hn hst d⟩

/-- The dispatch in `process` after the base set-up: the forward routine or the adjoint
transform is run, the caller's images are kept, and it fails only for SINC in the adjoint
direction. -/
theorem transformation_kept {O : Type} (X : Externals O) (s : Engine O) (r f : Nat)
    (fl : NiftiImageData) (hs : s.separated r f) (h0 : s._need_to_set_up = false)
    (hfl : s.deref_nifti s._floating_image_nifti_sptr = some fl) :
    ∃ u, (if s._transformation_direction = TransformationDirection.FORWARD
          then transformation_forward X s else transformation_adjoint X s)
        = (u, if s._transformation_direction = TransformationDirection.ADJOINT ∧
                s._interpolation_type = InterpolationType.SINC
              then some Exception.UnsupportedInterpolationError else none) ∧
      s.Kept u r f fl.clone.get_raw_nifti_sptr ∧
      u._need_to_set_up = false ∧
      (¬ (s._transformation_direction = TransformationDirection.ADJOINT ∧
          s._interpolation_type = InterpolationType.SINC) →
        u.floating_arguments ≠ s.floating_arguments) := by
  cases hd : s._transformation_direction
  · obtain ⟨u, e1, e2, e3, -⟩ := transformation_forward_body X s
      { s with _need_to_set_up_forward := false } r f fl (set_up_forward_eq X s h0)
      (separated_forward_flag s r f hs h0) h0 hfl
    have hk : s.Kept ({ s with _need_to_set_up_forward := false } : Engine O) r f
        fl.clone.get_raw_nifti_sptr :=
      ⟨separated_forward_flag s r f hs h0, Nat.le_refl _, rfl, rfl, rfl, rfl, id, fun _ => rfl,
        [], by simp, by simp⟩
    have hk2 := Kept_trans _ _ _ r f _ hk e2
    refine ⟨u, by simpa using e1, hk2, hk2.base_ready h0, fun _ => ?_⟩
    rw [e3]
    simp
  · obtain ⟨t, e1, e2, e3, e4, e5, -, -⟩ := set_up_adjoint_kept X s r f fl hs h0 hfl
    obtain ⟨u, g1, g2, -, g4⟩ := transformation_adjoint_body X s t r f fl e1 e5.separated e2 e3 e4
    have hk2 := Kept_trans _ _ _ r f _ e5 g2
    rw [e5.interpolation] at g1 g4
    refine ⟨u, by simpa using g1, hk2, hk2.base_ready h0, fun hn => ?_⟩
    have hns : s._interpolation_type ≠ InterpolationType.SINC := fun h => hn ⟨rfl, h⟩
    obtain ⟨l, hl, -⟩ := e5.handed
    rw [g4 hns, hl]
    simp

/-- The last two statements of `process` on a state whose base set-up is done: a clone of
the reference image is made, published as the output and filled from the canonical output
image; nothing that existed before is written to. -/
theorem process_publish {O : Type} (X : Externals O) (u : Engine O) (r f : Nat)
    (hu : u.separated r f) (h0 : u._need_to_set_up = false) :
    ∃ v reference output,
      (match u.deref u._reference_image_sptr, u.deref_nifti u._output_image_nifti_sptr with
        | some reference, some output =>
          (({ u.allocate reference.clone with _output_image_sptr := some u.next } : Engine O).write
            u.next (X.fill reference.clone output), (none : Option Exception))
        | _, _ => (u, some Exception.null_pointer)) = (v, none) ∧
      u.store r = some reference ∧
      v.deref_nifti v._output_image_nifti_sptr = some output ∧
      v._output_image_sptr = some u.next ∧
      v.store u.next = some (X.fill reference.clone output) ∧
      v.separated r f ∧ v.next = u.next + 1 ∧ (∀ a, a < u.next → v.store a = u.store a) ∧
      v.floating_arguments = u.floating_arguments ∧
      v._floating_image_nifti_sptr = u._floating_image_nifti_sptr := by
  have hu1 := hu
  obtain ⟨g1, -, hr, -, g5, -, h7, -, -⟩ := hu
  obtain ⟨-, -, ho, -⟩ := h7 h0
  obtain ⟨o, oi, hpo, holt, -, -, hso, hno⟩ := owns_some u r f _ ho
  obtain ⟨reference, href⟩ := Option.isSome_iff_exists.mp g5
  have hd : u.deref u._reference_image_sptr = some reference := by
    rw [g1]
    exact href
  have hon : o ≠ u.next := by omega
  have hst : ∀ a, a < u.next →
      (({ u.allocate reference.clone with _output_image_sptr := some u.next } : Engine O).write
        u.next (X.fill reference.clone oi)).store a = u.store a := by
    intro a ha
    have han : a ≠ u.next := by omega
    simp [Engine.write, Engine.allocate, han]
  simp only [hd, hpo, hno]
  refine ⟨_, reference, oi, rfl, href, ?_, rfl, ?_, ?_, rfl, hst, rfl, rfl⟩
  · simp [Engine.deref_nifti, Engine.deref, Engine.write, Engine.allocate, hpo, hon, hso]
  · simp [Engine.write]
  · exact separated_of_frame u _ r f hu1 (Nat.le_succ _) hst rfl rfl rfl rfl rfl rfl rfl rfl rfl
      rfl rfl rfl

end heap

/-- Claim C12.  Let the caller's reference image be the object at address `r` and the
caller's floating image the object at address `f`, on an engine state that holds them apart
from its own objects (`separated`; a fresh engine does).  Then, in either direction and
whatever the collaborators write through the non-`const` pointers they are handed,
`process` leaves both objects as they were and the context still names them.  Every object
handed to a collaborator as its floating image is a private copy: it was made during the
call, so it is neither the caller's floating image nor its reference image, it is not the
engine's canonical view of the floating image either, and it held a copy of that view.  When
the call completes at least one such copy was handed over, and the output then published is
a new object, not the reference image: a clone of the reference image filled from the
canonical output.  The call completes unless the direction is adjoint and the interpolation
SINC, and the state it leaves again holds the caller's images apart. -/
theorem C12_inputs_unchanged {O : Type} (X : heap.Externals O) (e : heap.Engine O) (r f : Nat)
    (hs : e.separated r f) :
    (heap.process X e).1.store r = e.store r ∧
    (heap.process X e).1.store f = e.store f ∧
    (heap.process X e).1._reference_image_sptr = some r ∧
    (heap.process X e).1._floating_image_sptr = some f ∧
    (∃ floating handed,
      (e._need_to_set_up = true → ∃ im, e.store f = some im ∧ floating = X.canonical im) ∧
      (e._need_to_set_up = false →
        e.deref_nifti e._floating_image_nifti_sptr = some floating) ∧
      (heap.process X e).1.floating_arguments = e.floating_arguments ++ handed ∧
      (∀ p, p ∈ handed →
        e.next ≤ p.1 ∧ p.1 ≠ r ∧ p.1 ≠ f ∧
        (heap.process X e).1._floating_image_nifti_sptr ≠ some p.1 ∧
        p.2 = floating.clone.get_raw_nifti_sptr) ∧
      ((heap.process X e).2 = none → handed ≠ [])) ∧
    ((heap.process X e).2 = none →
      ∃ a reference output,
        (heap.process X e).1._output_image_sptr = some a ∧ e.next ≤ a ∧ a ≠ r ∧ a ≠ f ∧
        e.store r = some reference ∧
        (heap.process X e).1.deref_nifti (heap.process X e).1._output_image_nifti_sptr
          = some output ∧
        (heap.process X e).1.store a = some (X.fill reference.clone output)) ∧
    (heap.process X e).2
      = (if e._transformation_direction = TransformationDirection.ADJOINT ∧
            e._interpolation_type = InterpolationType.SINC
          then some Exception.UnsupportedInterpolationError else none) ∧
    (heap.process X e).1.separated r f := by
  have hr : r < e.next := hs.2.2.1
  have hf : f < e.next := hs.2.2.2.1
  obtain ⟨s, fl, hset, hs0, hk1, hlog1, hview, hv1, hv2⟩ := heap.set_up_kept X e r f hs
  have hk1 := hk1 fl.clone.get_raw_nifti_sptr
  obtain ⟨u, hdisp, hk2, hu0, hne⟩ :=
    heap.transformation_kept X s r f fl hk1.separated hs0 hview
  have hk := heap.Kept_trans e s u r f _ hk1 hk2
  obtain ⟨l, hl, hlp⟩ := hk2.handed
  obtain ⟨-, hfn, -, -⟩ := hk1.separated.2.2.2.2.2.2.1 hs0
  obtain ⟨a, ai, hpa, halt, -, -⟩ := heap.holds_nifti_some s _ hfn
  have hufn : u._floating_image_nifti_sptr = some a := (hk2.floating_view hs0).trans hpa
  rw [hk1.direction, hk1.interpolation] at hne
  have hcopies : ∀ p, p ∈ l → e.next ≤ p.1 ∧ p.1 ≠ r ∧ p.1 ≠ f ∧ some a ≠ some p.1 ∧
      p.2 = fl.clone.get_raw_nifti_sptr := by
    intro p hp
    obtain ⟨p1, -, p3⟩ := hlp p hp
    have := hk1.next_le
    refine ⟨by omega, by omega, by omega, ?_, p3⟩
    intro h
    have := Option.some.inj h
    omega
  by_cases hc : e._transformation_direction = TransformationDirection.ADJOINT ∧
      e._interpolation_type = InterpolationType.SINC
  · have hx : (if s._transformation_direction = TransformationDirection.ADJOINT ∧
          s._interpolation_type = InterpolationType.SINC
        then some Exception.UnsupportedInterpolationError else none)
        = some Exception.UnsupportedInterpolationError :=
      if_pos (by rw [hk1.direction, hk1.interpolation]; exact hc)
    rw [hx] at hdisp
    have hp : heap.process X e = (u, some Exception.UnsupportedInterpolationError) := by
      simp only [heap.process, hset, heap.Outcome.andThen, hdisp]
    rw [hp, if_pos hc]
    refine ⟨hk.reference_object, hk.floating_object, hk.separated.1, hk.separated.2.1,
      ⟨fl, l, hv1, hv2, by rw [hl, hlog1], ?_, fun h => by simp at h⟩, fun h => by simp at h, rfl,
      hk.separated⟩
    intro p hp
    rw [hufn]
    exact hcopies p hp
  · have hx : (if s._transformation_direction = TransformationDirection.ADJOINT ∧
          s._interpolation_type = InterpolationType.SINC
        then some Exception.UnsupportedInterpolationError else none) = none :=
      if_neg (by rw [hk1.direction, hk1.interpolation]; exact hc)
    rw [hx] at hdisp
    obtain ⟨v, reference, output, hpub, w1, w2, w3, w4, w5, w6, w7, w8, w9⟩ :=
      heap.process_publish X u r f hk.separated hu0
    have hp : heap.process X e = (v, none) := by
      simp only [heap.process, hset, heap.Outcome.andThen, hdisp]
      exact hpub
    have hru : r < u.next := Nat.lt_of_lt_of_le hr hk.next_le
    have hfu : f < u.next := Nat.lt_of_lt_of_le hf hk.next_le
    rw [hp, if_neg hc]
    refine ⟨(w7 r hru).trans hk.reference_object, (w7 f hfu).trans hk.floating_object, w5.1,
      w5.2.1, ⟨fl, l, hv1, hv2, by rw [w8, hl, hlog1], ?_, fun _ hl0 => ?_⟩, fun _ => ?_, rfl, w5⟩
    · intro p hp
      show _ ∧ _ ∧ _ ∧ v._floating_image_nifti_sptr ≠ _ ∧ _
      rw [w9, hufn]
      exact hcopies p hp
    · apply hne hc
      rw [hl, hl0, List.append_nil]
    · have := hk.next_le
      refine ⟨u.next, reference, output, w3, this, by omega, by omega, ?_, w2, w4⟩
      rw [← hk.reference_object]
      exact w1

/-- Claim C12 at a concrete fresh engine in the adjoint direction, with collaborators that
overwrite every image they are handed: the call completes, the caller's floating image at
address 1 still holds its bytes `7`, and the two objects that were handed over as floating
image (addresses 4 and 7, made during the call) are the ones that were overwritten. -/
theorem C12_inputs_unchanged_witness :
    (heap.example_engine InterpolationType.LINEAR TransformationDirection.ADJOINT).separated 0 1 ∧
    (heap.process heap.example_externals
      (heap.example_engine InterpolationType.LINEAR TransformationDirection.ADJOINT)).1.store 1
      = (heap.example_engine InterpolationType.LINEAR TransformationDirection.ADJOINT).store 1 ∧
    (heap.process heap.example_externals
      (heap.example_engine InterpolationType.LINEAR TransformationDirection.ADJOINT)).2 = none ∧
    (heap.process heap.example_externals (heap.example_engine InterpolationType.LINEAR
      TransformationDirection.ADJOINT)).1.payload 1 = some [7, 7, 7, 7] ∧
    (heap.process heap.example_externals (heap.example_engine InterpolationType.LINEAR
      TransformationDirection.ADJOINT)).1.floating_arguments.map Prod.fst = [4, 7] ∧
    (heap.process heap.example_externals (heap.example_engine InterpolationType.LINEAR
      TransformationDirection.ADJOINT)).1.payload 4 = some [255, 255, 255, 255] ∧
    (heap.process heap.example_externals (heap.example_engine InterpolationType.LINEAR
      TransformationDirection.ADJOINT)).1.payload 7 = some [255, 255, 255, 255] :=
  ⟨by decide, (C12_inputs_unchanged heap.example_externals
    (heap.example_engine InterpolationType.LINEAR TransformationDirection.ADJOINT) 0 1
    (by decide)).2.1, by decide, by decide, by decide, by decide, by decide⟩


end sirf
